import Mathlib

/-!
# Arcade shooter (`src/game.js`): a shallow embedding of the simulation core

JavaScript numbers are modelled by exact rationals (`ℚ`) for positions, speeds and
times, and by integers (`Int`) for `score`, `health`, `fireRate`, `direction` and
`life`, which only ever hold integers.  `Math.random()` is modelled by a stream
`rand : Nat → ℚ` given to each `updateGame` call together with a cursor counting the
draws made so far; `Math.hypot` is a parameter `hypot : ℚ → ℚ → ℚ`.
Arrays are lists, `push` is `++ [x]`, `splice(i, 1)` is `eraseIdx i`, and an indexed
read is `l[i]?`: a read outside the array makes the step fail (`none`), as the
method call on `undefined` would throw.  Drawing, DOM writes and constant colour
strings are left out.
-/

namespace Shooter

/-! ## Data model -/

/-- The variable `gameState`: `'menu'`, `'playing'` or `'gameOver'`. -/
inductive GameState where
  | menu
  | playing
  | gameOver
deriving DecidableEq, Repr

/-- The object `keyState` (lines 18-23). -/
structure KeyState where
  left : Bool
  right : Bool
  up : Bool
  down : Bool
deriving DecidableEq, Repr

/-- The four actions of `KEY_BINDINGS`. -/
inductive Action where
  | left
  | right
  | up
  | down
deriving DecidableEq, Repr

/-- The object returned by every `getBounds`. -/
structure Rect where
  x : ℚ
  y : ℚ
  width : ℚ
  height : ℚ
deriving DecidableEq, Repr

/-- Class `Player` (lines 53-63); the constant `color` is left out. -/
structure Player where
  width : ℚ
  height : ℚ
  x : ℚ
  y : ℚ
  speed : ℚ
  fireRate : Int
  dualShot : Bool
deriving DecidableEq, Repr

/-- Class `Bullet` (lines 157-166); `color` is a function of `direction`. -/
structure Bullet where
  x : ℚ
  y : ℚ
  width : ℚ
  height : ℚ
  speed : ℚ
  direction : Int
deriving DecidableEq, Repr

/-- Class `Enemy` (lines 198-208); `hue` is the random number inside `color`. -/
structure Enemy where
  width : ℚ
  height : ℚ
  x : ℚ
  y : ℚ
  speed : ℚ
  shootTimer : ℚ
  shootInterval : ℚ
  hue : ℚ
deriving DecidableEq, Repr

/-- One particle of an `Explosion` (lines 280-287). -/
structure Particle where
  x : ℚ
  y : ℚ
  vx : ℚ
  vy : ℚ
  hue : ℚ
  size : ℚ
deriving DecidableEq, Repr

/-- Class `Explosion` (lines 271-289). -/
structure Explosion where
  x : ℚ
  y : ℚ
  particles : List Particle
  life : Int
deriving DecidableEq, Repr

/-- The values `types[k]` can take in `spawnPowerUp`: the two strings, or `undefined`
for an index outside the two-element array. -/
inductive PowerUpType where
  | fireRate
  | dualShot
  | undefined
deriving DecidableEq, Repr

/-- Class `PowerUp` (lines 315-325). -/
structure PowerUp where
  x : ℚ
  y : ℚ
  width : ℚ
  height : ℚ
  speed : ℚ
  type : PowerUpType
  rotation : ℚ
  pulse : ℚ
deriving DecidableEq, Repr

/-- The global variables of `game.js` that the simulation reads or writes, with the
canvas size. -/
structure World where
  canvasWidth : ℚ
  canvasHeight : ℚ
  keyState : KeyState
  gameState : GameState
  score : Int
  health : Int
  enemySpawnTimer : ℚ
  enemySpawnInterval : ℚ
  player : Option Player
  bullets : List Bullet
  enemies : List Enemy
  explosions : List Explosion
  powerUps : List PowerUp
  touchX : ℚ
  touchY : ℚ
  isTouching : Bool
deriving DecidableEq, Repr

/-- Bookkeeping of one `updateGame` call: `draws` is the number of `Math.random()`
calls made so far (the cursor into `rand`); the others are ghost variables, on which
no behaviour depends: three counters, incremented where the source resolves a
collision, the log `kills` of the enemies removed by a collision (lines 496 and 522),
in the order of their removal, and the log `spawnCalls` of the arguments of the calls
of `spawnPowerUp`, in the order of the calls. -/
structure Tally where
  draws : Nat
  bodyKills : Nat
  bulletKills : Nat
  playerHits : Nat
  kills : List Enemy
  spawnCalls : List (ℚ × ℚ)
deriving DecidableEq, Repr

/-- The tally at the start of a step. -/
def Tally.zero : Tally := ⟨0, 0, 0, 0, [], []⟩

/-! ## Entities -/

/-- The function `resetKeyState` (lines 25-30). -/
def resetKeyState : KeyState := ⟨false, false, false, false⟩

/-- The constructor of `Player` (lines 54-63). -/
def Player.new (canvasWidth canvasHeight : ℚ) : Player :=
  { width := 50
    height := 40
    x := canvasWidth / 2 - 50 / 2
    y := canvasHeight - 40 - 20
    speed := 9 / 20
    fireRate := 300
    dualShot := false }

/-- The method `Player.update` (lines 65-97), in exact rational arithmetic.  The
quotients of lines 87-88 are taken under the test `distance > step`, so their divisor is
positive whenever `step ≥ 0`; `Player.update?` is the same method with that divisor
checked. -/
def Player.update (hypot : ℚ → ℚ → ℚ) (keyState : KeyState) (isTouching : Bool)
    (touchX touchY canvasWidth canvasHeight deltaTime : ℚ) (p : Player) : Player :=
  let step := p.speed * deltaTime
  let moveX : ℚ := (if keyState.left then -1 else 0) + (if keyState.right then 1 else 0)
  let moveY : ℚ := (if keyState.up then -1 else 0) + (if keyState.down then 1 else 0)
  let moved : ℚ × ℚ :=
    if moveX ≠ 0 ∨ moveY ≠ 0 then
      let length := if hypot moveX moveY = 0 then 1 else hypot moveX moveY
      (p.x + moveX / length * step, p.y + moveY / length * step)
    else if isTouching then
      let targetX := touchX - p.width / 2
      let targetY := touchY - p.height / 2
      let dx := targetX - p.x
      let dy := targetY - p.y
      let distance := hypot dx dy
      if distance > step then
        (p.x + dx / distance * step, p.y + dy / distance * step)
      else
        (targetX, targetY)
    else (p.x, p.y)
  { p with
    x := max 0 (min (canvasWidth - p.width) moved.1)
    y := max 0 (min (canvasHeight - p.height) moved.2) }

/-- The method `Player.upgradeFireRate` (lines 138-140). -/
def Player.upgradeFireRate (p : Player) : Player :=
  { p with fireRate := max 100 (p.fireRate - 50) }

/-- The method `Player.enableDualShot` (lines 142-144). -/
def Player.enableDualShot (p : Player) : Player :=
  { p with dualShot := true }

/-- The method `Player.getBounds` (lines 146-153). -/
def Player.getBounds (p : Player) : Rect :=
  ⟨p.x, p.y, p.width, p.height⟩

/-- The constructor of `Bullet` (lines 158-166). -/
def Bullet.new (x y : ℚ) (direction : Int) : Bullet :=
  { x := x, y := y, width := 5, height := 15, speed := 8, direction := direction }

/-- The method `Bullet.update` (lines 168-170). -/
def Bullet.update (b : Bullet) : Bullet :=
  { b with y := b.y + b.speed * b.direction }

/-- The method `Bullet.isOffScreen` (lines 183-185). -/
def Bullet.isOffScreen (canvasHeight : ℚ) (b : Bullet) : Bool :=
  decide (b.y < 0) || decide (b.y > canvasHeight)

/-- The method `Bullet.getBounds` (lines 187-194). -/
def Bullet.getBounds (b : Bullet) : Rect :=
  ⟨b.x - b.width / 2, b.y, b.width, b.height⟩

/-- The method `Player.shoot` (lines 127-136), as a function of the pool `bullets`. -/
def Player.shoot (p : Player) (bullets : List Bullet) : List Bullet :=
  let centerX := p.x + p.width / 2
  if p.dualShot then
    (bullets ++ [Bullet.new (centerX - 12) p.y (-1)]) ++ [Bullet.new (centerX + 12) p.y (-1)]
  else
    bullets ++ [Bullet.new centerX p.y (-1)]

/-- The constructor of `Enemy` (lines 199-208): four random draws, in source order. -/
def Enemy.new (canvasWidth : ℚ) (rand : Nat → ℚ) (t : Tally) : Enemy × Tally :=
  ({ width := 45
     height := 35
     x := rand t.draws * (canvasWidth - 45)
     y := -35
     speed := 2 + rand (t.draws + 1) * 2
     shootTimer := 0
     shootInterval := 1500 + rand (t.draws + 2) * 1000
     hue := rand (t.draws + 3) * 60 + 300 },
   { t with draws := t.draws + 4 })

/-- The method `Enemy.update` (lines 210-220) with `Enemy.shoot` (lines 252-254)
inlined: the enemy, the pool `bullets` and the tally after the call. -/
def Enemy.update (rand : Nat → ℚ) (e : Enemy) (bullets : List Bullet) (t : Tally) :
    Enemy × List Bullet × Tally :=
  let e1 := { e with y := e.y + e.speed, shootTimer := e.shootTimer + 16 }
  if e1.shootTimer ≥ e1.shootInterval then
    ({ e1 with shootTimer := 0, shootInterval := 1500 + rand t.draws * 1000 },
     bullets ++ [Bullet.new (e1.x + e1.width / 2) (e1.y + e1.height) 1],
     { t with draws := t.draws + 1 })
  else
    (e1, bullets, t)

/-- The method `Enemy.isOffScreen` (lines 256-258). -/
def Enemy.isOffScreen (canvasHeight : ℚ) (e : Enemy) : Bool :=
  decide (e.y > canvasHeight)

/-- The method `Enemy.getBounds` (lines 260-267). -/
def Enemy.getBounds (e : Enemy) : Rect :=
  ⟨e.x, e.y, e.width, e.height⟩

/-- The `k`-th particle pushed by the constructor of `Explosion` (lines 280-287):
four random draws, for `vx`, `vy`, `color` and `size`. -/
def Particle.new (x y : ℚ) (rand : Nat → ℚ) (first : Nat) (k : Nat) : Particle :=
  { x := x
    y := y
    vx := (rand (first + 4 * k) - 1 / 2) * 10
    vy := (rand (first + 4 * k + 1) - 1 / 2) * 10
    hue := rand (first + 4 * k + 2) * 60
    size := rand (first + 4 * k + 3) * 5 + 2 }

/-- The constructor of `Explosion` (lines 272-289): fifteen particles, sixty draws. -/
def Explosion.new (x y : ℚ) (rand : Nat → ℚ) (t : Tally) : Explosion × Tally :=
  ({ x := x
     y := y
     particles := (List.range 15).map (Particle.new x y rand t.draws)
     life := 30 },
   { t with draws := t.draws + 60 })

/-- The method `Explosion.update` (lines 291-298). -/
def Explosion.update (ex : Explosion) : Explosion :=
  { ex with
    life := ex.life - 1
    particles := ex.particles.map fun q =>
      { q with x := q.x + q.vx, y := q.y + q.vy, vy := q.vy + 1 / 5 } }

/-- The method `Explosion.isDead` (lines 309-311). -/
def Explosion.isDead (ex : Explosion) : Bool :=
  decide (ex.life ≤ 0)

/-- The constructor of `PowerUp` (lines 316-325). -/
def PowerUp.new (x y : ℚ) (type : PowerUpType) : PowerUp :=
  { x := x, y := y, width := 40, height := 40, speed := 2, type := type,
    rotation := 0, pulse := 0 }

/-- The method `PowerUp.update` (lines 327-331). -/
def PowerUp.update (u : PowerUp) : PowerUp :=
  { u with y := u.y + u.speed, rotation := u.rotation + 1 / 20, pulse := u.pulse + 1 / 10 }

/-- The method `PowerUp.isOffScreen` (lines 411-413). -/
def PowerUp.isOffScreen (canvasHeight : ℚ) (u : PowerUp) : Bool :=
  decide (u.y > canvasHeight)

/-- The method `PowerUp.getBounds` (lines 415-422). -/
def PowerUp.getBounds (u : PowerUp) : Rect :=
  ⟨u.x, u.y, u.width, u.height⟩

/-- The function `checkCollision` (lines 426-434) on the two bounding boxes. -/
def checkCollision (rect1 rect2 : Rect) : Bool :=
  decide (rect1.x < rect2.x + rect2.width) &&
  decide (rect1.x + rect1.width > rect2.x) &&
  decide (rect1.y < rect2.y + rect2.height) &&
  decide (rect1.y + rect1.height > rect2.y)

/-- The array read `types[Math.floor(r * types.length)]` of `spawnPowerUp`. -/
def powerUpTypeAt (r : ℚ) : PowerUpType :=
  if Int.floor (r * 2) = 0 then PowerUpType.fireRate
  else if Int.floor (r * 2) = 1 then PowerUpType.dualShot
  else PowerUpType.undefined

/-- The function `spawnPowerUp` (lines 452-459), as a function of the pool `powerUps`. -/
def spawnPowerUp (rand : Nat → ℚ) (x y : ℚ) (powerUps : List PowerUp) (t : Tally) :
    List PowerUp × Tally :=
  if rand t.draws < 3 / 5 then
    (powerUps ++ [PowerUp.new x y (powerUpTypeAt (rand (t.draws + 1)))],
     { t with draws := t.draws + 2, spawnCalls := t.spawnCalls ++ [(x, y)] })
  else
    (powerUps, { t with draws := t.draws + 1, spawnCalls := t.spawnCalls ++ [(x, y)] })

/-- The value `clampedHealth` that `updateUI` displays (line 647). -/
def clampedHealth (health : Int) : Int :=
  max 0 (min 100 health)

/-! ## The simulation step `updateGame` (lines 461-591)

Each `for (let i = a.length - 1; i >= 0; i--)` loop is a recursion on `i + 1`,
started at `a.length`. -/

/-- The spawn scheduler (lines 467-474). -/
def spawnEnemies (rand : Nat → ℚ) (deltaTime : ℚ) (w : World) (t : Tally) : World × Tally :=
  if w.enemySpawnTimer + deltaTime ≥ w.enemySpawnInterval then
    ({ w with
       enemies := w.enemies ++ [(Enemy.new w.canvasWidth rand t).1]
       enemySpawnTimer := 0
       enemySpawnInterval := max 800 (w.enemySpawnInterval - 20) },
     (Enemy.new w.canvasWidth rand t).2)
  else
    ({ w with enemySpawnTimer := w.enemySpawnTimer + deltaTime }, t)

/-- The bullet loop (lines 477-482), entered with `i + 1` as first argument. -/
def updateBullets (canvasHeight : ℚ) : Nat → List Bullet → Option (List Bullet)
  | 0, bullets => some bullets
  | i + 1, bullets =>
    match bullets[i]? with
    | none => none
    | some b =>
      if b.update.isOffScreen canvasHeight then
        updateBullets canvasHeight i ((bullets.set i b.update).eraseIdx i)
      else
        updateBullets canvasHeight i (bullets.set i b.update)

/-- Lines 491-497: the enemy `enemy`, found at index `i`, has hit the player. -/
def bodyHit (rand : Nat → ℚ) (i : Nat) (enemy : Enemy) (w : World) (t : Tally) :
    World × Tally :=
  let enemyX := enemy.x + enemy.width / 2
  let enemyY := enemy.y + enemy.height / 2
  let ex := Explosion.new enemyX enemyY rand t
  let pu := spawnPowerUp rand enemyX enemyY w.powerUps ex.2
  ({ w with
     health := w.health - 10
     explosions := w.explosions ++ [ex.1]
     powerUps := pu.1
     enemies := w.enemies.eraseIdx i },
   { pu.2 with bodyKills := pu.2.bodyKills + 1, kills := pu.2.kills ++ [enemy] })

/-- The enemy loop (lines 485-509); `player` is the global of that name, which the
loop does not assign.  The `Bool` tells whether `updateGame` returned (line 500). -/
def updateEnemies (rand : Nat → ℚ) (player : Player) :
    Nat → World → Tally → Option (Bool × World × Tally)
  | 0, w, t => some (false, w, t)
  | i + 1, w, t =>
    match w.enemies[i]? with
    | none => none
    | some enemy0 =>
      let r := Enemy.update rand enemy0 w.bullets t
      let w1 := { w with enemies := w.enemies.set i r.1, bullets := r.2.1 }
      if checkCollision player.getBounds r.1.getBounds then
        let h := bodyHit rand i r.1 w1 r.2.2
        if h.1.health ≤ 0 then
          some (true, { h.1 with gameState := GameState.gameOver }, h.2)
        else
          updateEnemies rand player i h.1 h.2
      else if r.1.isOffScreen w1.canvasHeight then
        updateEnemies rand player i { w1 with enemies := w1.enemies.eraseIdx i } r.2.2
      else
        updateEnemies rand player i w1 r.2.2

/-- Lines 518-525: the player bullet at index `i` has hit the enemy `enemy`, found at
index `j`. -/
def bulletHit (rand : Nat → ℚ) (i j : Nat) (enemy : Enemy) (w : World) (t : Tally) :
    World × Tally :=
  let enemyX := enemy.x + enemy.width / 2
  let enemyY := enemy.y + enemy.height / 2
  let ex := Explosion.new enemyX enemyY rand t
  let pu := spawnPowerUp rand enemyX enemyY w.powerUps ex.2
  ({ w with
     explosions := w.explosions ++ [ex.1]
     powerUps := pu.1
     enemies := w.enemies.eraseIdx j
     bullets := w.bullets.eraseIdx i
     score := w.score + 10 },
   { pu.2 with bulletKills := pu.2.bulletKills + 1, kills := pu.2.kills ++ [enemy] })

/-- The inner loop over enemies for the player bullet `bullet` at index `i`
(lines 515-528), entered with `j + 1`; the `break` ends the recursion. -/
def hitEnemies (rand : Nat → ℚ) (i : Nat) (bullet : Bullet) :
    Nat → World → Tally → Option (World × Tally)
  | 0, w, t => some (w, t)
  | j + 1, w, t =>
    match w.enemies[j]? with
    | none => none
    | some enemy =>
      if checkCollision bullet.getBounds enemy.getBounds then
        some (bulletHit rand i j enemy w t)
      else
        hitEnemies rand i bullet j w t

/-- Lines 531-533: the enemy bullet at index `i` has hit the player. -/
def playerHit (i : Nat) (w : World) (t : Tally) : World × Tally :=
  ({ w with health := w.health - 5, bullets := w.bullets.eraseIdx i },
   { t with playerHits := t.playerHits + 1 })

/-- The bullet-collision loop (lines 512-540), entered with `i + 1`.  The `Bool`
tells whether `updateGame` returned (line 536). -/
def resolveBullets (rand : Nat → ℚ) (player : Player) :
    Nat → World → Tally → Option (Bool × World × Tally)
  | 0, w, t => some (false, w, t)
  | i + 1, w, t =>
    match w.bullets[i]? with
    | none => none
    | some bullet =>
      if bullet.direction = -1 then
        match hitEnemies rand i bullet w.enemies.length w t with
        | none => none
        | some r => resolveBullets rand player i r.1 r.2
      else if checkCollision bullet.getBounds player.getBounds then
        let h := playerHit i w t
        if h.1.health ≤ 0 then
          some (true, { h.1 with gameState := GameState.gameOver }, h.2)
        else
          resolveBullets rand player i h.1 h.2
      else
        resolveBullets rand player i w t

/-- The explosion loop (lines 543-548), entered with `i + 1`. -/
def updateExplosions : Nat → List Explosion → Option (List Explosion)
  | 0, explosions => some explosions
  | i + 1, explosions =>
    match explosions[i]? with
    | none => none
    | some ex =>
      if ex.update.isDead then
        updateExplosions i ((explosions.set i ex.update).eraseIdx i)
      else
        updateExplosions i (explosions.set i ex.update)

/-- The test of lines 574-577 on the two boxes grown by 5 on every side
(lines 556-572). -/
def expandedCollision (powerUpBounds playerBounds : Rect) : Bool :=
  let expandedBounds : Rect :=
    ⟨powerUpBounds.x - 5, powerUpBounds.y - 5, powerUpBounds.width + 10,
      powerUpBounds.height + 10⟩
  let expandedPlayerBounds : Rect :=
    ⟨playerBounds.x - 5, playerBounds.y - 5, playerBounds.width + 10,
      playerBounds.height + 10⟩
  decide (expandedBounds.x < expandedPlayerBounds.x + expandedPlayerBounds.width) &&
  decide (expandedBounds.x + expandedBounds.width > expandedPlayerBounds.x) &&
  decide (expandedBounds.y < expandedPlayerBounds.y + expandedPlayerBounds.height) &&
  decide (expandedBounds.y + expandedBounds.height > expandedPlayerBounds.y)

/-- The effect of a collected power-up on the player (lines 579-583). -/
def applyPowerUp (type : PowerUpType) (player : Player) : Player :=
  match type with
  | PowerUpType.fireRate => player.upgradeFireRate
  | PowerUpType.dualShot => player.enableDualShot
  | PowerUpType.undefined => player

/-- Lines 579-586: the power-up `powerUp`, found at index `i`, is collected by
`player`. -/
def collect (rand : Nat → ℚ) (i : Nat) (powerUp : PowerUp) (player : Player) (w : World)
    (t : Tally) : World × Tally :=
  let ex := Explosion.new (powerUp.x + powerUp.width / 2) (powerUp.y + powerUp.height / 2)
    rand t
  ({ w with
     player := some (applyPowerUp powerUp.type player)
     powerUps := w.powerUps.eraseIdx i
     explosions := w.explosions ++ [ex.1] },
   ex.2)

/-- The power-up loop (lines 551-590), entered with `i + 1`. -/
def updatePowerUps (rand : Nat → ℚ) : Nat → World → Tally → Option (World × Tally)
  | 0, w, t => some (w, t)
  | i + 1, w, t =>
    match w.powerUps[i]?, w.player with
    | some powerUp0, some player =>
      let powerUp := powerUp0.update
      let w1 := { w with powerUps := w.powerUps.set i powerUp }
      if expandedCollision powerUp.getBounds player.getBounds then
        updatePowerUps rand i (collect rand i powerUp player w1 t).1
          (collect rand i powerUp player w1 t).2
      else if powerUp.isOffScreen w1.canvasHeight then
        updatePowerUps rand i { w1 with powerUps := w1.powerUps.eraseIdx i } t
      else
        updatePowerUps rand i w1 t
    | _, _ => none

/-- Lines 465-509 of `updateGame` for a world in mode `playing` with player
`player0`: the player update, the spawn scheduler, the bullet loop and the enemy
loop.  The result is the world as the bullet-collision loop finds it, or, with
`true`, as the `return` of line 500 leaves it. -/
def toCollisionPhase (hypot : ℚ → ℚ → ℚ) (deltaTime : ℚ) (rand : Nat → ℚ)
    (player0 : Player) (w : World) : Option (Bool × World × Tally) :=
  let player := player0.update hypot w.keyState w.isTouching w.touchX w.touchY
    w.canvasWidth w.canvasHeight deltaTime
  let s := spawnEnemies rand deltaTime { w with player := some player } Tally.zero
  match updateBullets s.1.canvasHeight s.1.bullets.length s.1.bullets with
  | none => none
  | some bullets =>
    updateEnemies rand player s.1.enemies.length { s.1 with bullets := bullets } s.2

/-- Lines 511-590 of `updateGame`: the bullet-collision loop, the explosion loop and
the power-up loop. -/
def fromCollisionPhase (rand : Nat → ℚ) (player : Player) (w : World) (t : Tally) :
    Option (World × Tally) :=
  match resolveBullets rand player w.bullets.length w t with
  | none => none
  | some (true, w5, t5) => some (w5, t5)
  | some (false, w5, t5) =>
    match updateExplosions w5.explosions.length w5.explosions with
    | none => none
    | some explosions =>
      updatePowerUps rand w5.powerUps.length { w5 with explosions := explosions } t5

/-- The function `updateGame` (lines 461-591) with the tally of the step. -/
def updateGameAux (hypot : ℚ → ℚ → ℚ) (deltaTime : ℚ) (rand : Nat → ℚ) (w : World) :
    Option (World × Tally) :=
  if w.gameState ≠ GameState.playing then some (w, Tally.zero)
  else
    match w.player with
    | none => none
    | some player0 =>
      match toCollisionPhase hypot deltaTime rand player0 w with
      | none => none
      | some (true, w4, t4) => some (w4, t4)
      | some (false, w4, t4) =>
        match w4.player with
        | none => none
        | some player => fromCollisionPhase rand player w4 t4

/-- The function `updateGame` (lines 461-591). -/
def updateGame (hypot : ℚ → ℚ → ℚ) (deltaTime : ℚ) (rand : Nat → ℚ) (w : World) :
    Option World :=
  (updateGameAux hypot deltaTime rand w).map Prod.fst

/-! ## Session commands and input events -/

/-- The function `initGame` (lines 437-449). -/
def initGame (w : World) : World :=
  { w with
    player := some (Player.new w.canvasWidth w.canvasHeight)
    bullets := []
    enemies := []
    explosions := []
    powerUps := []
    score := 0
    health := 100
    enemySpawnTimer := 0
    isTouching := false
    keyState := resetKeyState }

/-- The click handlers of `startBtn` and `restartBtn` (lines 672-686), which are the
same code. -/
def startGame (w : World) : World :=
  initGame { w with gameState := GameState.playing }

/-- The guarded call `if (gameState === 'playing' && player) player.shoot()` of the
space key, the shoot button and `autoShoot` (lines 758-761, 771-773, 778-780,
786-791). -/
def shootCommand (w : World) : World :=
  if w.gameState = GameState.playing then
    match w.player with
    | some p => { w with bullets := p.shoot w.bullets }
    | none => w
  else w

/-- The assignment `keyState[action] = isPressed`. -/
def KeyState.set (k : KeyState) (a : Action) (isPressed : Bool) : KeyState :=
  match a with
  | Action.left => { k with left := isPressed }
  | Action.right => { k with right := isPressed }
  | Action.up => { k with up := isPressed }
  | Action.down => { k with down := isPressed }

/-- The function `handleKeyChange` (lines 743-753) for a key bound to `action`. -/
def handleKeyChange (action : Action) (isPressed : Bool) (w : World) : World :=
  { w with
    keyState := w.keyState.set action isPressed
    isTouching := if isPressed then false else w.isTouching }

/-- What can happen between two frames. -/
inductive Event where
  /-- A call `updateGame(deltaTime)` whose `Math.random()` calls return `rand 0`,
  `rand 1`, and so on. -/
  | update (deltaTime : ℚ) (rand : Nat → ℚ)
  /-- A guarded `player.shoot()`. -/
  | shoot
  /-- A click on the start or the restart button. -/
  | start
  /-- A `keydown` (`true`) or `keyup` (`false`) of a bound key. -/
  | key (action : Action) (isPressed : Bool)
  /-- The handlers `touchstart` and `mousedown` (lines 689-696, 712-717). -/
  | pointerDown (x y : ℚ)
  /-- The handler `touchmove` (lines 698-704). -/
  | touchMove (x y : ℚ)
  /-- The handler `mousemove` (lines 719-725). -/
  | mouseMove (x y : ℚ)
  /-- The handlers `touchend` and `mouseup` (lines 706-709, 727-729). -/
  | pointerUp
  /-- The function `resizeCanvas` (lines 6-9). -/
  | resize (width height : ℚ)

/-- The effect of one event; `none` when `updateGame` throws. -/
def handle (hypot : ℚ → ℚ → ℚ) (ev : Event) (w : World) : Option World :=
  match ev with
  | Event.update deltaTime rand => updateGame hypot deltaTime rand w
  | Event.shoot => some (shootCommand w)
  | Event.start => some (startGame w)
  | Event.key action isPressed => some (handleKeyChange action isPressed w)
  | Event.pointerDown x y => some { w with touchX := x, touchY := y, isTouching := true }
  | Event.touchMove x y => some { w with touchX := x, touchY := y }
  | Event.mouseMove x y => some (if w.isTouching then { w with touchX := x, touchY := y } else w)
  | Event.pointerUp => some { w with isTouching := false }
  | Event.resize width height => some { w with canvasWidth := width, canvasHeight := height }

/-- The effect of a sequence of events, first to last. -/
def run (hypot : ℚ → ℚ → ℚ) : List Event → World → Option World
  | [], w => some w
  | ev :: evs, w =>
    match handle hypot ev w with
    | none => none
    | some w1 => run hypot evs w1

/-- The globals as the script leaves them when loaded (lines 18-50), in a window of
the given size. -/
def World.initial (width height : ℚ) : World :=
  { canvasWidth := width
    canvasHeight := height
    keyState := ⟨false, false, false, false⟩
    gameState := GameState.menu
    score := 0
    health := 100
    enemySpawnTimer := 0
    enemySpawnInterval := 2000
    player := none
    bullets := []
    enemies := []
    explosions := []
    powerUps := []
    touchX := 0
    touchY := 0
    isTouching := false }

/-- The worlds a session can be in: those reached from the loaded script by events. -/
inductive Reachable (hypot : ℚ → ℚ → ℚ) : World → Prop where
  | initial (width height : ℚ) : Reachable hypot (World.initial width height)
  | step {w w1 : World} (ev : Event) :
      Reachable hypot w → handle hypot ev w = some w1 → Reachable hypot w1


/-! ## Relations between the world before and after a loop -/

/-- The globals that no loop of `updateGame` assigns. -/
def World.fixed (w : World) : ℚ × ℚ × KeyState × ℚ × ℚ × ℚ × ℚ × Bool :=
  (w.canvasWidth, w.canvasHeight, w.keyState, w.enemySpawnTimer, w.enemySpawnInterval,
    w.touchX, w.touchY, w.isTouching)

/-- What the enemy loop may change between a world `w` with tally `t` and a later
world `w1` with tally `t1`. -/
structure EnemiesRel (w : World) (t : Tally) (w1 : World) (t1 : Tally) : Prop where
  fixed : w1.fixed = w.fixed
  score : w1.score = w.score
  player : w1.player = w.player
  bullets : ∃ l, w1.bullets = w.bullets ++ l
  explosions : ∃ l, w1.explosions = w.explosions ++ l
  powerUps : ∃ l, w1.powerUps = w.powerUps ++ l
  bulletKills : t1.bulletKills = t.bulletKills
  playerHits : t1.playerHits = t.playerHits
  bodyKills : t.bodyKills ≤ t1.bodyKills
  health : w1.health + 10 * (t1.bodyKills : Int) = w.health + 10 * (t.bodyKills : Int)
  enemies : w1.enemies.length + t1.bodyKills ≤ w.enemies.length + t.bodyKills
  blasts : w1.explosions.length + t.bodyKills = w.explosions.length + t1.bodyKills

/-- The test `bullet.direction === -1` of line 514: a player bullet. -/
def Bullet.isPlayerBullet (b : Bullet) : Bool :=
  decide (b.direction = -1)

/-- The bullets that take the `else` branch of line 529 and pass the test of line 530:
enemy bullets whose box overlaps the player. -/
def Bullet.hitsPlayer (player : Player) (b : Bullet) : Bool :=
  !b.isPlayerBullet && checkCollision b.getBounds player.getBounds

/-- What the bullet-collision loop may change between a world `w` with tally `t` and a
later world `w1` with tally `t1`. -/
structure BulletsRel (p : Player) (w : World) (t : Tally) (w1 : World) (t1 : Tally) :
    Prop where
  fixed : w1.fixed = w.fixed
  player : w1.player = w.player
  bodyKills : t1.bodyKills = t.bodyKills
  bulletKills : t.bulletKills ≤ t1.bulletKills
  playerHits : t.playerHits ≤ t1.playerHits
  score : w1.score + 10 * (t.bulletKills : Int) = w.score + 10 * (t1.bulletKills : Int)
  health : w1.health + 5 * (t1.playerHits : Int) = w.health + 5 * (t.playerHits : Int)
  enemies : w1.enemies.length + t1.bulletKills = w.enemies.length + t.bulletKills
  explosions : ∃ l, w1.explosions = w.explosions ++ l
  powerUps : ∃ l, w1.powerUps = w.powerUps ++ l
  bullets : w1.bullets.Sublist w.bullets
  hitters : (w1.bullets.countP (Bullet.hitsPlayer p)) + t1.playerHits =
    (w.bullets.countP (Bullet.hitsPlayer p)) + t.playerHits

/-- What collecting power-ups may change in the player: the box and the speed stay,
`fireRate` does not grow and stays at or above 100 if it was, `dualShot` stays on. -/
structure Upgraded (q q1 : Player) : Prop where
  x : q1.x = q.x
  y : q1.y = q.y
  width : q1.width = q.width
  height : q1.height = q.height
  speed : q1.speed = q.speed
  fireRate : 100 ≤ q.fireRate → 100 ≤ q1.fireRate ∧ q1.fireRate ≤ q.fireRate
  dualShot : q.dualShot = true → q1.dualShot = true

/-- What the power-up loop may change between a world `w` with tally `t` and a later
world `w1` with tally `t1`. -/
structure PowerUpsRel (w : World) (t : Tally) (w1 : World) (t1 : Tally) : Prop where
  fixed : w1.fixed = w.fixed
  gameState : w1.gameState = w.gameState
  score : w1.score = w.score
  health : w1.health = w.health
  bullets : w1.bullets = w.bullets
  enemies : w1.enemies = w.enemies
  bodyKills : t1.bodyKills = t.bodyKills
  bulletKills : t1.bulletKills = t.bulletKills
  playerHits : t1.playerHits = t.playerHits
  explosions : ∃ l, w1.explosions = w.explosions ++ l ∧
    l.length + w1.powerUps.length ≤ w.powerUps.length
  player : ∀ q, w.player = some q → ∃ q1, w1.player = some q1 ∧ Upgraded q q1

/-- What lines 465-509 of `updateGame` establish: `w` is the world before the step,
`player` the updated player, `w4` and `t4` the world and tally after the enemy loop,
`ret` whether line 500 returned. -/
structure ToCollisionRel (deltaTime : ℚ) (w : World) (player : Player) (ret : Bool)
    (w4 : World) (t4 : Tally) : Prop where
  canvasWidth : w4.canvasWidth = w.canvasWidth
  canvasHeight : w4.canvasHeight = w.canvasHeight
  keyState : w4.keyState = w.keyState
  touchX : w4.touchX = w.touchX
  touchY : w4.touchY = w.touchY
  isTouching : w4.isTouching = w.isTouching
  timer : w4.enemySpawnTimer =
    if w.enemySpawnTimer + deltaTime ≥ w.enemySpawnInterval then 0
    else w.enemySpawnTimer + deltaTime
  interval : w4.enemySpawnInterval =
    if w.enemySpawnTimer + deltaTime ≥ w.enemySpawnInterval then
      max 800 (w.enemySpawnInterval - 20)
    else w.enemySpawnInterval
  player : w4.player = some player
  score : w4.score = w.score
  health : w4.health = w.health - 10 * (t4.bodyKills : Int)
  bulletKills : t4.bulletKills = 0
  playerHits : t4.playerHits = 0
  returned : ret = true → w4.gameState = GameState.gameOver ∧ w4.health ≤ 0 ∧ 0 < t4.bodyKills
  completed : ret = false → w4.gameState = w.gameState ∧ (0 < w.health → 0 < w4.health)
  low : 0 < w.health → -10 < w4.health
  hurt : ret = false → 0 < t4.bodyKills → 0 < w4.health
  explosions : ∃ l, w4.explosions = w.explosions ++ l
  powerUps : ∃ l, w4.powerUps = w.powerUps ++ l
  bullets : ∃ l, w4.bullets =
    (w.bullets.map Bullet.update).filter (fun b => !b.isOffScreen w.canvasHeight) ++ l
  enemies : w4.enemies.length + t4.bodyKills ≤ w.enemies.length +
    (if w.enemySpawnTimer + deltaTime ≥ w.enemySpawnInterval then 1 else 0)
  blasts : w4.explosions.length = w.explosions.length + t4.bodyKills

/-- What a whole `updateGame` call establishes in mode `playing`: `w` is the world
before the step, `player` the player as `Player.update` leaves it, `w1` and `t1` the
world and tally after the step. -/
structure StepRel (deltaTime : ℚ) (w : World) (player : Player) (w1 : World) (t1 : Tally) :
    Prop where
  canvasWidth : w1.canvasWidth = w.canvasWidth
  canvasHeight : w1.canvasHeight = w.canvasHeight
  keyState : w1.keyState = w.keyState
  touchX : w1.touchX = w.touchX
  touchY : w1.touchY = w.touchY
  isTouching : w1.isTouching = w.isTouching
  timer : w1.enemySpawnTimer =
    if w.enemySpawnTimer + deltaTime ≥ w.enemySpawnInterval then 0
    else w.enemySpawnTimer + deltaTime
  interval : w1.enemySpawnInterval =
    if w.enemySpawnTimer + deltaTime ≥ w.enemySpawnInterval then
      max 800 (w.enemySpawnInterval - 20)
    else w.enemySpawnInterval
  player : ∃ q1, w1.player = some q1 ∧ Upgraded player q1
  score : w1.score = w.score + 10 * (t1.bulletKills : Int)
  health : w1.health = w.health - 10 * (t1.bodyKills : Int) - 5 * (t1.playerHits : Int)
  mode : (w1.gameState = GameState.playing ∧ (0 < w.health → 0 < w1.health) ∧
      (0 < t1.bodyKills + t1.playerHits → 0 < w1.health)) ∨
    (w1.gameState = GameState.gameOver ∧ w1.health ≤ 0 ∧ 0 < t1.bodyKills + t1.playerHits)
  low : 0 < w.health → -10 < w1.health
  enemies : w1.enemies.length + t1.bodyKills + t1.bulletKills ≤ w.enemies.length +
    (if w.enemySpawnTimer + deltaTime ≥ w.enemySpawnInterval then 1 else 0)

/-- What lines 511-590 of `updateGame` establish: `w4` and `t4` are the world and tally
as the bullet-collision loop finds them, `w7` and `t7` those at the end of the step. -/
structure FromCollisionRel (pl : Player) (w4 : World) (t4 : Tally) (w7 : World)
    (t7 : Tally) : Prop where
  fixed : w7.fixed = w4.fixed
  player : ∃ q1, w7.player = some q1 ∧ Upgraded pl q1
  bodyKills : t7.bodyKills = t4.bodyKills
  bulletKills : t4.bulletKills ≤ t7.bulletKills
  playerHits : t4.playerHits ≤ t7.playerHits
  score : w7.score + 10 * (t4.bulletKills : Int) = w4.score + 10 * (t7.bulletKills : Int)
  health : w7.health + 5 * (t7.playerHits : Int) = w4.health + 5 * (t4.playerHits : Int)
  mode : (w7.gameState = w4.gameState ∧ (0 < w4.health → 0 < w7.health) ∧
      t7.playerHits = t4.playerHits + w4.bullets.countP (Bullet.hitsPlayer pl) ∧
      (t4.playerHits < t7.playerHits → 0 < w7.health)) ∨
    (w7.gameState = GameState.gameOver ∧ w7.health ≤ 0 ∧ t4.playerHits < t7.playerHits)
  low : 0 < w4.health → -5 < w7.health
  enemies : w7.enemies.length + t7.bulletKills = w4.enemies.length + t4.bulletKills
  kills_le : t7.bulletKills ≤ t4.bulletKills + w4.bullets.countP Bullet.isPlayerBullet
  hits_le : t7.playerHits ≤ t4.playerHits + w4.bullets.countP (Bullet.hitsPlayer pl)
  bullets : w7.bullets.Sublist w4.bullets
  hitters : (w7.bullets.countP (Bullet.hitsPlayer pl)) + t7.playerHits =
    (w4.bullets.countP (Bullet.hitsPlayer pl)) + t4.playerHits

/-- The invariant of the session: it holds of the loaded script and every event keeps
it. -/
structure Inv (w : World) : Prop where
  health_le : w.health ≤ 100
  health_ge : -5 ≤ w.health
  health_dvd : (5 : Int) ∣ w.health
  playing_pos : w.gameState = GameState.playing → 0 < w.health
  gameOver_le : w.gameState = GameState.gameOver → w.health ≤ 0
  player : w.gameState ≠ GameState.menu → ∃ q, w.player = some q
  interval : ∃ k : Nat, k ≤ 60 ∧ w.enemySpawnInterval = 2000 - 20 * (k : ℚ)
  fireRate : ∀ q, w.player = some q → 100 ≤ q.fireRate ∧ q.fireRate ≤ 300

/-- The box `getBounds` returns for the enemy `e` once `Enemy.update` has run: the
same box moved down by `speed`. -/
def Enemy.advancedBounds (e : Enemy) : Rect :=
  ⟨e.x, e.y + e.speed, e.width, e.height⟩

/-- The point `(x + width/2, y + height/2)` of lines 491-492 and 518-519. -/
def Enemy.centre (e : Enemy) : ℚ × ℚ :=
  (e.x + e.width / 2, e.y + e.height / 2)

/-- What the destructions between a world `w` with tally `t` and a later world `w1`
with tally `t1` have done: `K` lists the enemies removed by a collision, `X` the
explosions pushed, `L` the power-ups pushed. -/
structure KillsRel (w : World) (t : Tally) (w1 : World) (t1 : Tally) : Prop where
  log : ∃ (K : List Enemy) (X : List Explosion) (L : List PowerUp),
    t1.kills = t.kills ++ K ∧
    t1.spawnCalls = t.spawnCalls ++ K.map Enemy.centre ∧
    w1.explosions = w.explosions ++ X ∧
    X.map (fun ex => (ex.x, ex.y)) = K.map Enemy.centre ∧
    (∀ ex ∈ X, ex.life = 30) ∧
    w1.powerUps = w.powerUps ++ L ∧
    (L.map fun u => (u.x, u.y)).Sublist (K.map Enemy.centre) ∧
    t1.bodyKills + t1.bulletKills = t.bodyKills + t.bulletKills + K.length

/-! ## Concrete worlds and runs -/

/-- A rational stand-in for `Math.hypot` in concrete runs: exact on the axes, rounded
down to six decimals elsewhere. -/
def hypotQ (x y : ℚ) : ℚ :=
  if y = 0 then |x| else if x = 0 then |y|
  else (Nat.sqrt ((x * x + y * y).num.toNat * (x * x + y * y).den * 10 ^ 12) : ℚ) /
    ((x * x + y * y).den * 10 ^ 6)

/-- A stream of random draws in `[0, 1)`: the first is `1/2`, the others are `0`. -/
def idleRand : Nat → ℚ := fun n => if n = 0 then 1 / 2 else 0

/-- The stream of random draws that are all `0`. -/
def zeroRand : Nat → ℚ := fun _ => 0

/-- A session just started in a window of 400 by 250. -/
def freshWorld : World := startGame (World.initial 400 250)

/-- The calls `updateGame(100)` of `n` frames, each drawing from `idleRand`: the player
neither moves nor shoots. -/
def idleFrames (n : Nat) : List Event := List.replicate n (Event.update 100 idleRand)

/-- An enemy as the constructor makes it from the draws `1/2, 0, 0, 0` in a window
400 wide (`x = 177.5`, `speed = 2`), later at height `y` with shoot timer
`shootTimer`. -/
def sampleEnemy (y shootTimer : ℚ) : Enemy :=
  { width := 45, height := 35, x := 355 / 2, y := y, speed := 2, shootTimer := shootTimer,
    shootInterval := 1500, hue := 300 }

/-- A session in the 400 by 250 window with `health = 10` and one enemy right above the
player, which it reaches on its next advance. -/
def lastStandWorld : World :=
  { freshWorld with health := 10, enemies := [sampleEnemy 155 16] }

/-- A session in the 400 by 250 window where the player has just shot at the single
enemy right above it; nothing else is in the pools. -/
def killWorld : World :=
  { freshWorld with
    enemySpawnTimer := 1456
    enemySpawnInterval := 1980
    bullets := [Bullet.new 200 190 (-1)]
    enemies := [sampleEnemy 149 1472] }

/-- The world the bullet-collision loop finds in the step `updateGame(16)` from
`killWorld`: the bullet and the enemy have advanced. -/
def killWorldAtCollisions : World :=
  { killWorld with
    enemySpawnTimer := 1472
    bullets := [Bullet.new 200 182 (-1)]
    enemies := [sampleEnemy 151 1488] }

/-- As `killWorld`, with a second enemy two units below the first: the bullet overlaps
both. -/
def pileUpWorld : World :=
  { killWorld with enemies := [sampleEnemy 149 1472, sampleEnemy 151 1200] }

/-- The world the bullet-collision loop finds in the step `updateGame(16)` from
`pileUpWorld`. -/
def pileUpWorldAtCollisions : World :=
  { pileUpWorld with
    enemySpawnTimer := 1472
    bullets := [Bullet.new 200 182 (-1)]
    enemies := [sampleEnemy 151 1488, sampleEnemy 153 1216] }

/-- As `killWorld`, with an enemy bullet about to overlap the player as well. -/
def crossfireWorld : World :=
  { killWorld with bullets := [Bullet.new 200 190 (-1), Bullet.new 200 195 1] }

/-- The world the bullet-collision loop finds in the step `updateGame(16)` from
`crossfireWorld`. -/
def crossfireWorldAtCollisions : World :=
  { crossfireWorld with
    enemySpawnTimer := 1472
    bullets := [Bullet.new 200 182 (-1), Bullet.new 200 203 1]
    enemies := [sampleEnemy 151 1488] }

/-- A session in the 400 by 250 window with `health = 10` and one enemy bullet about to
overlap the player; nothing else is in the pools. -/
def grazedWorld : World :=
  { freshWorld with health := 10, bullets := [Bullet.new 200 195 1] }

/-- The world the bullet-collision loop finds in the step `updateGame(16)` from
`grazedWorld`. -/
def grazedWorldAtCollisions : World :=
  { grazedWorld with enemySpawnTimer := 16, bullets := [Bullet.new 200 203 1] }

/-! ## Definitions that follow the words of the specification -/

/-- Spec, section 4.4: a bounding box expanded by 5 units on every side. -/
def Rect.expanded (r : Rect) : Rect :=
  ⟨r.x - 5, r.y - 5, r.width + 10, r.height + 10⟩

/-- Spec, section 4.6 step 4: advance every bullet once, then keep, in their order,
those that are not out of the field (`y < 0 || y > fieldHeight`). -/
def bulletPhaseSpec (fieldHeight : ℚ) (bullets : List Bullet) : List Bullet :=
  (bullets.map fun b => { b with y := b.y + b.speed * b.direction }).filter
    fun b => decide (0 ≤ b.y ∧ b.y ≤ fieldHeight)

/-- Spec, section 4.6 step 7: advance every particle burst once, then keep, in their
order, those whose `lifeTicks` has not reached 0. -/
def explosionPhaseSpec (explosions : List Explosion) : List Explosion :=
  (explosions.map Explosion.update).filter fun ex => decide (0 < ex.life)

/-- Spec, section 4.5: the point `(px, py)` is an interior point of the rectangle `r`. -/
def Rect.hasInside (r : Rect) (px py : ℚ) : Bool :=
  decide (r.x < px ∧ px < r.x + r.width ∧ r.y < py ∧ py < r.y + r.height)

/-- The width of the intersection of two rectangles, negative when they are apart on
the horizontal axis. -/
def Rect.overlapWidth (a b : Rect) : ℚ :=
  min (a.x + a.width) (b.x + b.width) - max a.x b.x

/-- The height of the intersection of two rectangles, negative when they are apart on
the vertical axis. -/
def Rect.overlapHeight (a b : Rect) : ℚ :=
  min (a.y + a.height) (b.y + b.height) - max a.y b.y

/-- Two rectangles touch along an edge or at a corner: on one axis the end of one is
the start of the other. -/
def Rect.touches (a b : Rect) : Bool :=
  decide (a.x + a.width = b.x ∨ b.x + b.width = a.x ∨
    a.y + a.height = b.y ∨ b.y + b.height = a.y)

/-! ## The parts of `Player.update` -/

/-- The value of `moveX` after lines 67-71. -/
def KeyState.moveX (k : KeyState) : ℚ :=
  (if k.left then -1 else 0) + (if k.right then 1 else 0)

/-- The value of `moveY` after lines 68-73. -/
def KeyState.moveY (k : KeyState) : ℚ :=
  (if k.up then -1 else 0) + (if k.down then 1 else 0)

/-- Lines 66-93 of `Player.update`: the position `(x, y)` before the clamping of lines
95-96. -/
def Player.moved (hypot : ℚ → ℚ → ℚ) (keyState : KeyState) (isTouching : Bool)
    (touchX touchY deltaTime : ℚ) (p : Player) : ℚ × ℚ :=
  let step := p.speed * deltaTime
  let moveX : ℚ := (if keyState.left then -1 else 0) + (if keyState.right then 1 else 0)
  let moveY : ℚ := (if keyState.up then -1 else 0) + (if keyState.down then 1 else 0)
  if moveX ≠ 0 ∨ moveY ≠ 0 then
    let length := if hypot moveX moveY = 0 then 1 else hypot moveX moveY
    (p.x + moveX / length * step, p.y + moveY / length * step)
  else if isTouching then
    let targetX := touchX - p.width / 2
    let targetY := touchY - p.height / 2
    let dx := targetX - p.x
    let dy := targetY - p.y
    let distance := hypot dx dy
    if distance > step then
      (p.x + dx / distance * step, p.y + dy / distance * step)
    else
      (targetX, targetY)
  else (p.x, p.y)

/-- A session in the 400 by 250 window whose window has then shrunk to 100 by 80. -/
def shrunkWorld : World :=
  { freshWorld with canvasWidth := 100, canvasHeight := 80 }

/-- The left and the right key both held. -/
def opposingKeys : KeyState := ⟨true, true, false, false⟩

/-- The quotient `a / b` of two numbers when `b` is not 0.  For `b = 0` JavaScript gives
`NaN` (when `a = 0`) or an infinity, neither of which is a rational. -/
def quotient? (a b : ℚ) : Option ℚ :=
  if b = 0 then none else some (a / b)

/-- The method `Player.update` (lines 65-97) with the divisor of lines 87-88 checked:
`none` when `distance` is 0 there.  With `dx = 0` the quotient is `0 / 0 = NaN`, so that
line 87 stores `NaN` in `this.x`, and `Math.min` and `Math.max` of line 95 return `NaN`:
a value that is neither `≥ 0` nor `≤ canvas.width - this.width`. -/
def Player.update? (hypot : ℚ → ℚ → ℚ) (keyState : KeyState) (isTouching : Bool)
    (touchX touchY canvasWidth canvasHeight deltaTime : ℚ) (p : Player) : Option Player :=
  let step := p.speed * deltaTime
  let moveX : ℚ := (if keyState.left then -1 else 0) + (if keyState.right then 1 else 0)
  let moveY : ℚ := (if keyState.up then -1 else 0) + (if keyState.down then 1 else 0)
  let moved : Option (ℚ × ℚ) :=
    if moveX ≠ 0 ∨ moveY ≠ 0 then
      let length := if hypot moveX moveY = 0 then 1 else hypot moveX moveY
      some (p.x + moveX / length * step, p.y + moveY / length * step)
    else if isTouching then
      let targetX := touchX - p.width / 2
      let targetY := touchY - p.height / 2
      let dx := targetX - p.x
      let dy := targetY - p.y
      let distance := hypot dx dy
      if distance > step then
        match quotient? dx distance, quotient? dy distance with
        | some qx, some qy => some (p.x + qx * step, p.y + qy * step)
        | _, _ => none
      else
        some (targetX, targetY)
    else some (p.x, p.y)
  moved.map fun m =>
    { p with
      x := max 0 (min (canvasWidth - p.width) m.1)
      y := max 0 (min (canvasHeight - p.height) m.2) }

/-- As `freshWorld`, with a player that has collected the dual shot and two fire-rate
power-ups. -/
def upgradedWorld : World :=
  { freshWorld with
    player := some { Player.new 400 250 with fireRate := 200, dualShot := true } }

/-- The test of lines 574-577 for the power-up `u` once `PowerUp.update` has run,
against a player whose box is `box`. -/
def PowerUp.reaches (box : Rect) (u : PowerUp) : Bool :=
  expandedCollision u.update.getBounds box

/-- The point `(x + width/2, y + height/2)` of line 586 for the power-up `u` once
`PowerUp.update` has run. -/
def PowerUp.blastSite (u : PowerUp) : ℚ × ℚ :=
  (u.update.x + u.update.width / 2, u.update.y + u.update.height / 2)

/-- The test of the power-up loop for a power-up of type `type` within reach of the
box `box`. -/
def PowerUp.collectedAs (type : PowerUpType) (box : Rect) (u : PowerUp) : Bool :=
  u.reaches box && decide (u.type = type)

/-- A session in the 400 by 250 window with three power-ups in the pool: one far from
the player, one just above it, one about to leave the field. -/
def pickupWorld : World :=
  { freshWorld with
    powerUps := [PowerUp.new 0 0 PowerUpType.dualShot, PowerUp.new 200 170 PowerUpType.fireRate,
      PowerUp.new 0 249 PowerUpType.dualShot] }

/-- The world the bullet-collision loop finds, and leaves, in the step `updateGame(16)`
from `pickupWorld`. -/
def pickupWorldAtCollisions : World :=
  { pickupWorld with enemySpawnTimer := 16 }

/-- A session in the 400 by 250 window with `health = 5`, an enemy bullet about to
overlap the player and a power-up just above the player, within its reach. -/
def doomedWorld : World :=
  { freshWorld with
    health := 5
    bullets := [Bullet.new 200 195 1]
    powerUps := [PowerUp.new 200 170 PowerUpType.fireRate] }

/-- As `pileUpWorld`, with `health = 5` and, behind the player bullet, an enemy bullet
about to overlap the player. -/
def ambushWorld : World :=
  { pileUpWorld with health := 5, bullets := [Bullet.new 200 190 (-1), Bullet.new 200 195 1] }

/-- The world the bullet-collision loop finds in the step `updateGame(16)` from
`ambushWorld`. -/
def ambushWorldAtCollisions : World :=
  { ambushWorld with
    enemySpawnTimer := 1472
    bullets := [Bullet.new 200 182 (-1), Bullet.new 200 203 1]
    enemies := [sampleEnemy 151 1488, sampleEnemy 153 1216] }

/-- As `pileUpWorld`, with an enemy bullet far from the player behind the player
bullet. -/
def strayWorld : World :=
  { pileUpWorld with bullets := [Bullet.new 200 190 (-1), Bullet.new 100 100 1] }

/-- The world the bullet-collision loop finds in the step `updateGame(16)` from
`strayWorld`. -/
def strayWorldAtCollisions : World :=
  { strayWorld with
    enemySpawnTimer := 1472
    bullets := [Bullet.new 200 182 (-1), Bullet.new 100 108 1]
    enemies := [sampleEnemy 151 1488, sampleEnemy 153 1216] }

/-! ## Lists -/

theorem getElem?_mid {α : Type} (A B : List α) (b : α) : (A ++ b :: B)[A.length]? = some b := by
  induction A with
  | nil => simp
  | cons a A ih => simpa using ih

theorem set_mid {α : Type} (A B : List α) (b c : α) :
    (A ++ b :: B).set A.length c = A ++ c :: B := by
  induction A with
  | nil => simp
  | cons a A ih => simp [ih]

theorem eraseIdx_mid {α : Type} (A B : List α) (b : α) :
    (A ++ b :: B).eraseIdx A.length = A ++ B := by
  induction A with
  | nil => simp
  | cons a A ih => simp [ih]

/-! ## The bullet loop -/

theorem updateBullets_append (ch : ℚ) (A B : List Bullet) :
    updateBullets ch A.length (A ++ B) =
      some ((A.map Bullet.update).filter (fun b => !b.isOffScreen ch) ++ B) := by
  induction A using List.reverseRecOn generalizing B with
  | nil => simp [updateBullets]
  | append_singleton A b ih =>
    have hlen : (A ++ [b]).length = A.length + 1 := by simp
    rw [hlen, List.append_assoc, List.singleton_append, updateBullets, getElem?_mid]
    simp only [set_mid, eraseIdx_mid]
    by_cases h : b.update.isOffScreen ch = true
    · simp [h, ih]
    · simp [h, ih]

/-! ## The enemy loop -/

theorem EnemiesRel.refl_enemies (w : World) (t : Tally) : EnemiesRel w t w t :=
  ⟨rfl, rfl, rfl, ⟨[], by simp⟩, ⟨[], by simp⟩, ⟨[], by simp⟩, rfl, rfl, le_rfl, rfl, le_rfl,
    rfl⟩

theorem EnemiesRel.trans_enemies {w w1 w2 : World} {t t1 t2 : Tally}
    (h : EnemiesRel w t w1 t1) (k : EnemiesRel w1 t1 w2 t2) : EnemiesRel w t w2 t2 := by
  obtain ⟨l1, h1⟩ := h.bullets
  obtain ⟨l2, h2⟩ := k.bullets
  obtain ⟨m1, e1⟩ := h.explosions
  obtain ⟨m2, e2⟩ := k.explosions
  obtain ⟨n1, p1⟩ := h.powerUps
  obtain ⟨n2, p2⟩ := k.powerUps
  refine ⟨k.fixed.trans h.fixed, k.score.trans h.score, k.player.trans h.player,
    ⟨l1 ++ l2, by rw [h2, h1, List.append_assoc]⟩, ⟨m1 ++ m2, by rw [e2, e1, List.append_assoc]⟩,
    ⟨n1 ++ n2, by rw [p2, p1, List.append_assoc]⟩, k.bulletKills.trans h.bulletKills,
    k.playerHits.trans h.playerHits, h.bodyKills.trans k.bodyKills, ?_, ?_, ?_⟩
  · have := h.health
    have := k.health
    omega
  · have := h.enemies
    have := k.enemies
    omega
  · have := h.blasts
    have := k.blasts
    omega

theorem spawnPowerUp_append (rand : Nat → ℚ) (x y : ℚ) (l : List PowerUp) (t : Tally) :
    ∃ m, (spawnPowerUp rand x y l t).1 = l ++ m ∧ m.length ≤ 1 := by
  unfold spawnPowerUp
  split
  · exact ⟨_, rfl, by simp⟩
  · exact ⟨[], by simp, by simp⟩

theorem spawnPowerUp_tally (rand : Nat → ℚ) (x y : ℚ) (l : List PowerUp) (t : Tally) :
    (spawnPowerUp rand x y l t).2.bodyKills = t.bodyKills ∧
    (spawnPowerUp rand x y l t).2.bulletKills = t.bulletKills ∧
    (spawnPowerUp rand x y l t).2.playerHits = t.playerHits := by
  unfold spawnPowerUp
  split <;> simp

theorem Enemy.update_bullets (rand : Nat → ℚ) (e : Enemy) (bs : List Bullet) (t : Tally) :
    ∃ l, (Enemy.update rand e bs t).2.1 = bs ++ l := by
  unfold Enemy.update
  dsimp only
  split
  · exact ⟨_, rfl⟩
  · exact ⟨[], by simp⟩

theorem Enemy.update_tally (rand : Nat → ℚ) (e : Enemy) (bs : List Bullet) (t : Tally) :
    (Enemy.update rand e bs t).2.2.bodyKills = t.bodyKills ∧
    (Enemy.update rand e bs t).2.2.bulletKills = t.bulletKills ∧
    (Enemy.update rand e bs t).2.2.playerHits = t.playerHits := by
  unfold Enemy.update
  dsimp only
  split <;> simp

theorem Explosion.new_tally (x y : ℚ) (rand : Nat → ℚ) (t : Tally) :
    (Explosion.new x y rand t).2.bodyKills = t.bodyKills ∧
    (Explosion.new x y rand t).2.bulletKills = t.bulletKills ∧
    (Explosion.new x y rand t).2.playerHits = t.playerHits := by
  simp [Explosion.new]

theorem bodyHit_rel (rand : Nat → ℚ) (e e1 : Enemy) (A B : List Enemy) (w : World) (t : Tally)
    (hw : w.enemies = A ++ e1 :: B) :
    EnemiesRel w t (bodyHit rand A.length e w t).1 (bodyHit rand A.length e w t).2 ∧
    (bodyHit rand A.length e w t).1.enemies = A ++ B ∧
    (bodyHit rand A.length e w t).1.health = w.health - 10 ∧
    (bodyHit rand A.length e w t).1.gameState = w.gameState ∧
    (bodyHit rand A.length e w t).2.bodyKills = t.bodyKills + 1 := by
  obtain ⟨m, hm, -⟩ := spawnPowerUp_append rand (e.x + e.width / 2) (e.y + e.height / 2)
    w.powerUps (Explosion.new (e.x + e.width / 2) (e.y + e.height / 2) rand t).2
  obtain ⟨s1, s2, s3⟩ := spawnPowerUp_tally rand (e.x + e.width / 2) (e.y + e.height / 2)
    w.powerUps (Explosion.new (e.x + e.width / 2) (e.y + e.height / 2) rand t).2
  obtain ⟨x1, x2, x3⟩ := Explosion.new_tally (e.x + e.width / 2) (e.y + e.height / 2) rand t
  refine ⟨⟨rfl, rfl, rfl, ⟨[], by simp [bodyHit]⟩, ⟨_, rfl⟩, ⟨m, hm⟩, ?_, ?_, ?_, ?_, ?_, ?_⟩, ?_,
    rfl, rfl, ?_⟩
  · simp only [bodyHit]; rw [s2, x2]
  · simp only [bodyHit]; rw [s3, x3]
  · simp only [bodyHit]; rw [s1, x1]; omega
  · simp only [bodyHit]; rw [s1, x1]; push_cast; ring
  · simp only [bodyHit]; rw [s1, x1, hw, eraseIdx_mid]; simp; omega
  · simp only [bodyHit]; rw [s1, x1]; simp; omega
  · simp only [bodyHit]; rw [hw, eraseIdx_mid]
  · simp only [bodyHit]; rw [s1, x1]

theorem updateEnemies_spec (rand : Nat → ℚ) (p : Player) (A : List Enemy) :
    ∀ (B : List Enemy) (w : World) (t : Tally), w.enemies = A ++ B →
      ∃ ret w1 t1, updateEnemies rand p A.length w t = some (ret, w1, t1) ∧
        EnemiesRel w t w1 t1 ∧
        (ret = true → w1.gameState = GameState.gameOver ∧ w1.health ≤ 0 ∧
          t.bodyKills < t1.bodyKills) ∧
        (ret = false → w1.gameState = w.gameState ∧ (0 < w.health → 0 < w1.health)) ∧
        (0 < w.health → -10 < w1.health) ∧
        (ret = false → t.bodyKills < t1.bodyKills → 0 < w1.health) := by
  induction A using List.reverseRecOn with
  | nil =>
    intro B w t _
    exact ⟨false, w, t, by simp [updateEnemies], EnemiesRel.refl_enemies w t, by simp, by simp,
      fun h => by omega, fun _ h => by omega⟩
  | append_singleton A e ih =>
    intro B w t hw
    have hlen : (A ++ [e]).length = A.length + 1 := by simp
    rw [List.append_assoc, List.singleton_append] at hw
    obtain ⟨lb, hlb⟩ := Enemy.update_bullets rand e w.bullets t
    obtain ⟨hk1, hk2, hk3⟩ := Enemy.update_tally rand e w.bullets t
    rw [hlen, updateEnemies, hw, getElem?_mid]
    simp only [set_mid, eraseIdx_mid]
    generalize Enemy.update rand e w.bullets t = r at hlb hk1 hk2 hk3 ⊢
    have R1 : EnemiesRel w t { w with enemies := A ++ r.1 :: B, bullets := r.2.1 } r.2.2 :=
      ⟨rfl, rfl, rfl, ⟨lb, hlb⟩, ⟨[], by simp⟩, ⟨[], by simp⟩, hk2, hk3, by omega,
        by simp [hk1], by simp [hk1, hw], by simp [hk1]⟩
    generalize hw1 : ({ w with enemies := A ++ r.1 :: B, bullets := r.2.1 } : World) = w1 at R1 ⊢
    have hw1e : w1.enemies = A ++ r.1 :: B := by rw [← hw1]
    have hw1h : w1.health = w.health := by rw [← hw1]
    have hw1g : w1.gameState = w.gameState := by rw [← hw1]
    by_cases hc : checkCollision p.getBounds r.1.getBounds = true
    · rw [if_pos hc]
      obtain ⟨R2, he, hh, hg, hbk⟩ := bodyHit_rel rand r.1 r.1 A B w1 r.2.2 hw1e
      generalize bodyHit rand A.length r.1 w1 r.2.2 = h at R2 he hh hg hbk ⊢
      by_cases hz : h.1.health ≤ 0
      · rw [if_pos hz]
        refine ⟨true, _, _, rfl, R1.trans_enemies (R2.trans_enemies ?_), fun _ => ⟨rfl, hz, by omega⟩, by simp, ?_,
          by simp⟩
        · exact ⟨rfl, rfl, rfl, ⟨[], by simp⟩, ⟨[], by simp⟩, ⟨[], by simp⟩, rfl, rfl, le_rfl,
            rfl, le_rfl, rfl⟩
        · intro hpos
          show -10 < h.1.health
          omega
      · rw [if_neg hz]
        obtain ⟨ret, w2, t2, hrun, R3, h1, h2, h3, h4⟩ := ih B h.1 h.2 he
        refine ⟨ret, w2, t2, hrun, R1.trans_enemies (R2.trans_enemies R3), ?_, ?_, ?_, ?_⟩
        · intro hr
          obtain ⟨g2, z2, b2⟩ := h1 hr
          exact ⟨g2, z2, by omega⟩
        · intro hr
          obtain ⟨g2, p2⟩ := h2 hr
          exact ⟨by rw [g2, hg, hw1g], fun _ => p2 (by omega)⟩
        · intro _
          exact h3 (by omega)
        · intro hr _
          exact (h2 hr).2 (by omega)
    · rw [if_neg hc]
      by_cases ho : r.1.isOffScreen w.canvasHeight = true
      · rw [if_pos ho]
        obtain ⟨ret, w2, t2, hrun, R3, h1, h2, h3, h4⟩ :=
          ih B { w with enemies := A ++ B, bullets := r.2.1 } r.2.2 rfl
        have R2 : EnemiesRel w t { w with enemies := A ++ B, bullets := r.2.1 } r.2.2 :=
          ⟨rfl, rfl, rfl, ⟨lb, hlb⟩, ⟨[], by simp⟩, ⟨[], by simp⟩, hk2, hk3, by omega,
            by simp [hk1], by simp [hk1, hw], by simp [hk1]⟩
        refine ⟨ret, w2, t2, hrun, R2.trans_enemies R3, ?_, h2, h3, ?_⟩
        · intro hr
          obtain ⟨g2, z2, b2⟩ := h1 hr
          exact ⟨g2, z2, by omega⟩
        · intro hr hlt
          exact h4 hr (by omega)
      · rw [if_neg ho]
        obtain ⟨ret, w2, t2, hrun, R3, h1, h2, h3, h4⟩ := ih (r.1 :: B) w1 r.2.2 hw1e
        refine ⟨ret, w2, t2, hrun, R1.trans_enemies R3, ?_, ?_, ?_, ?_⟩
        · intro hr
          obtain ⟨g2, z2, b2⟩ := h1 hr
          exact ⟨g2, z2, by omega⟩
        · intro hr
          obtain ⟨g2, p2⟩ := h2 hr
          exact ⟨by rw [g2]; exact hw1g, fun hp => p2 (by simpa [hw1h] using hp)⟩
        · intro hp
          exact h3 (by simpa [hw1h] using hp)
        · intro hr hlt
          exact h4 hr (by omega)

/-! ## The bullet-collision loop -/

theorem BulletsRel.refl_bullets (p : Player) (w : World) (t : Tally) : BulletsRel p w t w t :=
  ⟨rfl, rfl, rfl, le_rfl, le_rfl, rfl, rfl, rfl, ⟨[], by simp⟩, ⟨[], by simp⟩,
    List.Sublist.refl _, rfl⟩

theorem BulletsRel.trans_bullets {p : Player} {w w1 w2 : World} {t t1 t2 : Tally}
    (h : BulletsRel p w t w1 t1) (k : BulletsRel p w1 t1 w2 t2) : BulletsRel p w t w2 t2 := by
  obtain ⟨m1, e1⟩ := h.explosions
  obtain ⟨m2, e2⟩ := k.explosions
  obtain ⟨n1, p1⟩ := h.powerUps
  obtain ⟨n2, p2⟩ := k.powerUps
  have a1 := h.score
  have a2 := k.score
  have b1 := h.health
  have b2 := k.health
  have c1 := h.enemies
  have c2 := k.enemies
  have d1 := h.hitters
  have d2 := k.hitters
  exact ⟨k.fixed.trans h.fixed, k.player.trans h.player, k.bodyKills.trans h.bodyKills,
    h.bulletKills.trans k.bulletKills, h.playerHits.trans k.playerHits, by omega, by omega,
    by omega, ⟨m1 ++ m2, by rw [e2, e1, List.append_assoc]⟩,
    ⟨n1 ++ n2, by rw [p2, p1, List.append_assoc]⟩, k.bullets.trans h.bullets, by omega⟩

/-- The inner loop finds the colliding enemy of highest index, if there is one. -/
theorem hitEnemies_spec (rand : Nat → ℚ) (i : Nat) (b : Bullet) (E : List Enemy) :
    ∀ (F : List Enemy) (w : World) (t : Tally), w.enemies = E ++ F →
      ((∀ e ∈ E, checkCollision b.getBounds e.getBounds = false) ∧
        hitEnemies rand i b E.length w t = some (w, t)) ∨
      (∃ E1 e E2, E = E1 ++ e :: E2 ∧ checkCollision b.getBounds e.getBounds = true ∧
        (∀ x ∈ E2, checkCollision b.getBounds x.getBounds = false) ∧
        hitEnemies rand i b E.length w t = some (bulletHit rand i E1.length e w t)) := by
  induction E using List.reverseRecOn with
  | nil =>
    intro F w t _
    exact Or.inl ⟨by simp, by simp [hitEnemies]⟩
  | append_singleton E e ih =>
    intro F w t hw
    have hlen : (E ++ [e]).length = E.length + 1 := by simp
    rw [List.append_assoc, List.singleton_append] at hw
    rw [hlen, hitEnemies, hw, getElem?_mid]
    simp only []
    by_cases hc : checkCollision b.getBounds e.getBounds = true
    · refine Or.inr ⟨E, e, [], rfl, hc, by simp, ?_⟩
      rw [if_pos hc]
    · rw [if_neg hc]
      rcases ih (e :: F) w t hw with ⟨hno, hrun⟩ | ⟨E1, x, E2, hE, hx, hE2, hrun⟩
      · refine Or.inl ⟨?_, by simpa using hrun⟩
        intro y hy
        rcases List.mem_append.1 hy with h | h
        · exact hno y h
        · have : y = e := by simpa using h
          rw [this]
          simpa using hc
      · refine Or.inr ⟨E1, x, E2 ++ [e], by rw [hE]; simp, hx, ?_, by simpa using hrun⟩
        intro y hy
        rcases List.mem_append.1 hy with h | h
        · exact hE2 y h
        · have : y = e := by simpa using h
          rw [this]
          simpa using hc

theorem bulletHit_rel (rand : Nat → ℚ) (p : Player) (b : Bullet) (e e1 : Enemy)
    (A B : List Bullet) (E F : List Enemy) (w : World) (t : Tally)
    (hb : w.bullets = A ++ b :: B) (hdir : b.direction = -1) (he : w.enemies = E ++ e1 :: F) :
    BulletsRel p w t (bulletHit rand A.length E.length e w t).1
      (bulletHit rand A.length E.length e w t).2 ∧
    (bulletHit rand A.length E.length e w t).1.bullets = A ++ B ∧
    (bulletHit rand A.length E.length e w t).1.enemies = E ++ F ∧
    (bulletHit rand A.length E.length e w t).1.health = w.health ∧
    (bulletHit rand A.length E.length e w t).1.gameState = w.gameState ∧
    (bulletHit rand A.length E.length e w t).1.score = w.score + 10 ∧
    (bulletHit rand A.length E.length e w t).2.bulletKills = t.bulletKills + 1 ∧
    (bulletHit rand A.length E.length e w t).2.playerHits = t.playerHits := by
  obtain ⟨m, hm, -⟩ := spawnPowerUp_append rand (e.x + e.width / 2) (e.y + e.height / 2)
    w.powerUps (Explosion.new (e.x + e.width / 2) (e.y + e.height / 2) rand t).2
  obtain ⟨s1, s2, s3⟩ := spawnPowerUp_tally rand (e.x + e.width / 2) (e.y + e.height / 2)
    w.powerUps (Explosion.new (e.x + e.width / 2) (e.y + e.height / 2) rand t).2
  obtain ⟨x1, x2, x3⟩ := Explosion.new_tally (e.x + e.width / 2) (e.y + e.height / 2) rand t
  have hnot : Bullet.hitsPlayer p b = false := by
    simp [Bullet.hitsPlayer, Bullet.isPlayerBullet, hdir]
  refine ⟨⟨rfl, rfl, ?_, ?_, ?_, ?_, ?_, ?_, ⟨_, rfl⟩, ⟨m, hm⟩, ?_, ?_⟩, ?_, ?_, rfl, rfl, rfl,
    ?_, ?_⟩
  · simp only [bulletHit]; rw [s1, x1]
  · simp only [bulletHit]; rw [s2, x2]; omega
  · simp only [bulletHit]; rw [s3, x3]
  · simp only [bulletHit]; rw [s2, x2]; push_cast; ring
  · simp only [bulletHit]; rw [s3, x3]
  · simp only [bulletHit]; rw [s2, x2, he, eraseIdx_mid]; simp; omega
  · simp only [bulletHit]; exact List.eraseIdx_sublist _ _
  · simp only [bulletHit]; rw [s3, x3, hb, eraseIdx_mid]; simp [hnot]
  · simp only [bulletHit]; rw [hb, eraseIdx_mid]
  · simp only [bulletHit]; rw [he, eraseIdx_mid]
  · simp only [bulletHit]; rw [s2, x2]
  · simp only [bulletHit]; rw [s3, x3]

theorem playerHit_rel (p : Player) (b : Bullet) (A B : List Bullet) (w : World) (t : Tally)
    (hb : w.bullets = A ++ b :: B) (hhit : Bullet.hitsPlayer p b = true) :
    BulletsRel p w t (playerHit A.length w t).1 (playerHit A.length w t).2 := by
  refine ⟨rfl, rfl, rfl, le_rfl, by simp [playerHit], rfl, ?_, rfl, ⟨[], by simp [playerHit]⟩,
    ⟨[], by simp [playerHit]⟩, ?_, ?_⟩
  · simp only [playerHit]; push_cast; ring
  · simp only [playerHit]; exact List.eraseIdx_sublist _ _
  · simp only [playerHit]; rw [hb, eraseIdx_mid]; simp [hhit]; omega

theorem resolveBullets_spec (rand : Nat → ℚ) (p : Player) (A : List Bullet) :
    ∀ (B : List Bullet) (w : World) (t : Tally), w.bullets = A ++ B →
      ∃ ret w1 t1, resolveBullets rand p A.length w t = some (ret, w1, t1) ∧
        BulletsRel p w t w1 t1 ∧
        (ret = true → w1.gameState = GameState.gameOver ∧ w1.health ≤ 0 ∧
          t.playerHits < t1.playerHits) ∧
        (ret = false → w1.gameState = w.gameState ∧ (0 < w.health → 0 < w1.health) ∧
          t1.playerHits = t.playerHits + A.countP (Bullet.hitsPlayer p)) ∧
        (0 < w.health → -5 < w1.health) ∧
        t1.playerHits ≤ t.playerHits + A.countP (Bullet.hitsPlayer p) ∧
        t1.bulletKills ≤ t.bulletKills + A.countP Bullet.isPlayerBullet ∧
        (ret = false → t.playerHits < t1.playerHits → 0 < w1.health) := by
  induction A using List.reverseRecOn with
  | nil =>
    intro B w t _
    exact ⟨false, w, t, by simp [resolveBullets], BulletsRel.refl_bullets p w t, by simp, by simp,
      fun h => by omega, by simp, by simp, fun _ h => by omega⟩
  | append_singleton A b ih =>
    intro B w t hw
    have hlen : (A ++ [b]).length = A.length + 1 := by simp
    rw [List.append_assoc, List.singleton_append] at hw
    rw [hlen, resolveBullets, hw, getElem?_mid]
    simp only []
    by_cases hdir : b.direction = -1
    · rw [if_pos hdir]
      have hpb : b.isPlayerBullet = true := by simp [Bullet.isPlayerBullet, hdir]
      have hnot : Bullet.hitsPlayer p b = false := by simp [Bullet.hitsPlayer, hpb]
      rcases hitEnemies_spec rand A.length b w.enemies [] w t (by simp) with
        ⟨-, hrun⟩ | ⟨E1, e, E2, hE, -, -, hrun⟩
      · rw [hrun]
        obtain ⟨ret, w2, t2, hres, R, h1, h2, h3, h4, h5, h6⟩ := ih (b :: B) w t hw
        refine ⟨ret, w2, t2, hres, R, h1, ?_, h3, ?_, ?_, h6⟩
        · intro hr
          obtain ⟨g, q, c⟩ := h2 hr
          exact ⟨g, q, by rw [c]; simp [hnot]⟩
        · simp [hnot]; exact h4
        · simp [hpb]; omega
      · rw [hrun]
        obtain ⟨R1, hb1, -, hh, hg, -, hk, hp⟩ :=
          bulletHit_rel rand p b e e A B E1 E2 w t hw hdir hE
        generalize bulletHit rand A.length E1.length e w t = r at R1 hb1 hh hg hk hp ⊢
        obtain ⟨ret, w2, t2, hres, R, h1, h2, h3, h4, h5, h6⟩ := ih B r.1 r.2 hb1
        refine ⟨ret, w2, t2, hres, R1.trans_bullets R, ?_, ?_, ?_, ?_, ?_, ?_⟩
        · intro hr
          obtain ⟨g, q, c⟩ := h1 hr
          exact ⟨g, q, by omega⟩
        · intro hr
          obtain ⟨g, q, c⟩ := h2 hr
          exact ⟨by rw [g, hg], fun hpos => q (by omega), by rw [c, hp]; simp [hnot]⟩
        · intro hpos
          exact h3 (by omega)
        · simp [hnot]; omega
        · simp [hpb]; omega
        · intro hr hlt
          exact h6 hr (by omega)
    · rw [if_neg hdir]
      have hpb : b.isPlayerBullet = false := by simp [Bullet.isPlayerBullet, hdir]
      by_cases hc : checkCollision b.getBounds p.getBounds = true
      · rw [if_pos hc]
        have hhit : Bullet.hitsPlayer p b = true := by simp [Bullet.hitsPlayer, hpb, hc]
        have R1 := playerHit_rel p b A B w t hw hhit
        have hb1 : (playerHit A.length w t).1.bullets = A ++ B := by
          simp only [playerHit]; rw [hw, eraseIdx_mid]
        have hh : (playerHit A.length w t).1.health = w.health - 5 := rfl
        have hg : (playerHit A.length w t).1.gameState = w.gameState := rfl
        have hk : (playerHit A.length w t).2.bulletKills = t.bulletKills := rfl
        have hp : (playerHit A.length w t).2.playerHits = t.playerHits + 1 := rfl
        generalize playerHit A.length w t = r at R1 hb1 hh hg hk hp ⊢
        by_cases hz : r.1.health ≤ 0
        · rw [if_pos hz]
          refine ⟨true, _, _, rfl, R1.trans_bullets ?_, fun _ => ⟨rfl, hz, by omega⟩, by simp, ?_, ?_, ?_,
            by simp⟩
          · exact ⟨rfl, rfl, rfl, le_rfl, le_rfl, rfl, rfl, rfl, ⟨[], by simp⟩, ⟨[], by simp⟩,
              List.Sublist.refl _, rfl⟩
          · intro hpos
            show -5 < r.1.health
            omega
          · simp [hhit]; omega
          · simp [hpb]; omega
        · rw [if_neg hz]
          obtain ⟨ret, w2, t2, hres, R, h1, h2, h3, h4, h5, h6⟩ := ih B r.1 r.2 hb1
          refine ⟨ret, w2, t2, hres, R1.trans_bullets R, ?_, ?_, ?_, ?_, ?_, ?_⟩
          · intro hr
            obtain ⟨g, q, c⟩ := h1 hr
            exact ⟨g, q, by omega⟩
          · intro hr
            obtain ⟨g, q, c⟩ := h2 hr
            exact ⟨by rw [g, hg], fun _ => q (by omega), by rw [c, hp]; simp [hhit]; omega⟩
          · intro _
            exact h3 (by omega)
          · simp [hhit]; omega
          · simp [hpb]; omega
          · intro hr _
            exact (h2 hr).2.1 (by omega)
      · rw [if_neg hc]
        have hnot : Bullet.hitsPlayer p b = false := by simp [Bullet.hitsPlayer, hc]
        obtain ⟨ret, w2, t2, hres, R, h1, h2, h3, h4, h5, h6⟩ := ih (b :: B) w t hw
        refine ⟨ret, w2, t2, hres, R, h1, ?_, h3, ?_, ?_, h6⟩
        · intro hr
          obtain ⟨g, q, c⟩ := h2 hr
          exact ⟨g, q, by rw [c]; simp [hnot]⟩
        · simp [hnot]; exact h4
        · simp [hpb]; exact h5

/-! ## The explosion loop and the power-up loop -/

theorem updateExplosions_append (A B : List Explosion) :
    updateExplosions A.length (A ++ B) =
      some ((A.map Explosion.update).filter (fun ex => !ex.isDead) ++ B) := by
  induction A using List.reverseRecOn generalizing B with
  | nil => simp [updateExplosions]
  | append_singleton A ex ih =>
    have hlen : (A ++ [ex]).length = A.length + 1 := by simp
    rw [hlen, List.append_assoc, List.singleton_append, updateExplosions, getElem?_mid]
    simp only [set_mid, eraseIdx_mid]
    by_cases h : ex.update.isDead = true
    · simp [h, ih]
    · simp [h, ih]

theorem Upgraded.refl_upgraded (q : Player) : Upgraded q q :=
  ⟨rfl, rfl, rfl, rfl, rfl, fun h => ⟨h, le_rfl⟩, id⟩

theorem Upgraded.trans_upgraded {q q1 q2 : Player} (h : Upgraded q q1) (k : Upgraded q1 q2) :
    Upgraded q q2 :=
  ⟨k.x.trans h.x, k.y.trans h.y, k.width.trans h.width, k.height.trans h.height,
    k.speed.trans h.speed,
    fun a => ⟨(k.fireRate (h.fireRate a).1).1, (k.fireRate (h.fireRate a).1).2.trans (h.fireRate a).2⟩,
    fun a => k.dualShot (h.dualShot a)⟩

theorem applyPowerUp_upgraded (type : PowerUpType) (q : Player) :
    Upgraded q (applyPowerUp type q) := by
  cases type
  · refine ⟨rfl, rfl, rfl, rfl, rfl, ?_, id⟩
    simp only [applyPowerUp, Player.upgradeFireRate]
    intro h
    omega
  · exact ⟨rfl, rfl, rfl, rfl, rfl, fun h => ⟨h, le_rfl⟩, fun _ => rfl⟩
  · exact Upgraded.refl_upgraded q

theorem PowerUpsRel.refl_powerUps (w : World) (t : Tally) : PowerUpsRel w t w t :=
  ⟨rfl, rfl, rfl, rfl, rfl, rfl, rfl, rfl, rfl, ⟨[], by simp⟩,
    fun q h => ⟨q, h, Upgraded.refl_upgraded q⟩⟩

theorem PowerUpsRel.trans_powerUps {w w1 w2 : World} {t t1 t2 : Tally}
    (h : PowerUpsRel w t w1 t1) (k : PowerUpsRel w1 t1 w2 t2) : PowerUpsRel w t w2 t2 := by
  obtain ⟨m1, e1, c1⟩ := h.explosions
  obtain ⟨m2, e2, c2⟩ := k.explosions
  refine ⟨k.fixed.trans h.fixed, k.gameState.trans h.gameState, k.score.trans h.score,
    k.health.trans h.health, k.bullets.trans h.bullets, k.enemies.trans h.enemies,
    k.bodyKills.trans h.bodyKills, k.bulletKills.trans h.bulletKills,
    k.playerHits.trans h.playerHits,
    ⟨m1 ++ m2, by rw [e2, e1, List.append_assoc], by rw [List.length_append]; omega⟩, ?_⟩
  intro q hq
  obtain ⟨q1, hq1, u1⟩ := h.player q hq
  obtain ⟨q2, hq2, u2⟩ := k.player q1 hq1
  exact ⟨q2, hq2, u1.trans_upgraded u2⟩

theorem updatePowerUps_spec (rand : Nat → ℚ) (A : List PowerUp) :
    ∀ (B : List PowerUp) (w : World) (t : Tally), w.powerUps = A ++ B →
      (∃ q, w.player = some q) →
      ∃ w1 t1, updatePowerUps rand A.length w t = some (w1, t1) ∧ PowerUpsRel w t w1 t1 := by
  induction A using List.reverseRecOn with
  | nil =>
    intro B w t _ _
    exact ⟨w, t, by simp [updatePowerUps], PowerUpsRel.refl_powerUps w t⟩
  | append_singleton A u ih =>
    intro B w t hw hq
    obtain ⟨q, hq⟩ := hq
    have hlen : (A ++ [u]).length = A.length + 1 := by simp
    rw [List.append_assoc, List.singleton_append] at hw
    rw [hlen, updatePowerUps, hw, getElem?_mid, hq]
    simp only [set_mid, eraseIdx_mid]
    have same : ∀ q0, w.player = some q0 → some q = some q0 := fun q0 h0 => by rw [← h0, hq]
    by_cases hc : expandedCollision u.update.getBounds q.getBounds = true
    · rw [if_pos hc]
      have R1 : PowerUpsRel w t
          (collect rand A.length u.update q
            { w with powerUps := A ++ u.update :: B, player := some q } t).1
          (collect rand A.length u.update q
            { w with powerUps := A ++ u.update :: B, player := some q } t).2 := by
        refine ⟨rfl, rfl, rfl, rfl, rfl, rfl, ?_, ?_, ?_, ⟨_, rfl, ?_⟩, ?_⟩
        · simp [collect, Explosion.new]
        · simp [collect, Explosion.new]
        · simp [collect, Explosion.new]
        · simp only [collect, eraseIdx_mid, hw]; simp; omega
        · intro q0 hq0
          rw [hq] at hq0
          cases hq0
          exact ⟨_, rfl, applyPowerUp_upgraded _ _⟩
      have he : (collect rand A.length u.update q
          { w with powerUps := A ++ u.update :: B, player := some q } t).1.powerUps = A ++ B := by
        simp only [collect, eraseIdx_mid]
      have hp : ∃ q1, (collect rand A.length u.update q
          { w with powerUps := A ++ u.update :: B, player := some q } t).1.player = some q1 :=
        ⟨_, rfl⟩
      generalize collect rand A.length u.update q
        { w with powerUps := A ++ u.update :: B, player := some q } t = r at R1 he hp ⊢
      obtain ⟨w2, t2, hrun, R2⟩ := ih B r.1 r.2 he hp
      exact ⟨w2, t2, hrun, R1.trans_powerUps R2⟩
    · rw [if_neg hc]
      by_cases ho : u.update.isOffScreen w.canvasHeight = true
      · rw [if_pos ho]
        have R1 : PowerUpsRel w t { w with powerUps := A ++ B, player := some q } t :=
          ⟨rfl, rfl, rfl, rfl, rfl, rfl, rfl, rfl, rfl, ⟨[], by simp, by simp [hw]⟩,
            fun q0 h0 => ⟨q0, same q0 h0, Upgraded.refl_upgraded q0⟩⟩
        obtain ⟨w2, t2, hrun, R2⟩ :=
          ih B { w with powerUps := A ++ B, player := some q } t rfl ⟨q, rfl⟩
        exact ⟨w2, t2, hrun, R1.trans_powerUps R2⟩
      · rw [if_neg ho]
        have R1 : PowerUpsRel w t { w with powerUps := A ++ u.update :: B, player := some q } t :=
          ⟨rfl, rfl, rfl, rfl, rfl, rfl, rfl, rfl, rfl, ⟨[], by simp, by simp [hw]⟩,
            fun q0 h0 => ⟨q0, same q0 h0, Upgraded.refl_upgraded q0⟩⟩
        obtain ⟨w2, t2, hrun, R2⟩ :=
          ih (u.update :: B) { w with powerUps := A ++ u.update :: B, player := some q } t rfl
            ⟨q, rfl⟩
        exact ⟨w2, t2, hrun, R1.trans_powerUps R2⟩

/-! ## The whole step -/

theorem spawnEnemies_spec (rand : Nat → ℚ) (deltaTime : ℚ) (w : World) (t : Tally) :
    (spawnEnemies rand deltaTime w t).1.canvasWidth = w.canvasWidth ∧
    (spawnEnemies rand deltaTime w t).1.canvasHeight = w.canvasHeight ∧
    (spawnEnemies rand deltaTime w t).1.keyState = w.keyState ∧
    (spawnEnemies rand deltaTime w t).1.touchX = w.touchX ∧
    (spawnEnemies rand deltaTime w t).1.touchY = w.touchY ∧
    (spawnEnemies rand deltaTime w t).1.isTouching = w.isTouching ∧
    (spawnEnemies rand deltaTime w t).1.player = w.player ∧
    (spawnEnemies rand deltaTime w t).1.score = w.score ∧
    (spawnEnemies rand deltaTime w t).1.health = w.health ∧
    (spawnEnemies rand deltaTime w t).1.gameState = w.gameState ∧
    (spawnEnemies rand deltaTime w t).1.bullets = w.bullets ∧
    (spawnEnemies rand deltaTime w t).1.explosions = w.explosions ∧
    (spawnEnemies rand deltaTime w t).1.powerUps = w.powerUps ∧
    (spawnEnemies rand deltaTime w t).2.bodyKills = t.bodyKills ∧
    (spawnEnemies rand deltaTime w t).2.bulletKills = t.bulletKills ∧
    (spawnEnemies rand deltaTime w t).2.playerHits = t.playerHits ∧
    (spawnEnemies rand deltaTime w t).1.enemySpawnTimer =
      (if w.enemySpawnTimer + deltaTime ≥ w.enemySpawnInterval then 0
       else w.enemySpawnTimer + deltaTime) ∧
    (spawnEnemies rand deltaTime w t).1.enemySpawnInterval =
      (if w.enemySpawnTimer + deltaTime ≥ w.enemySpawnInterval then
        max 800 (w.enemySpawnInterval - 20)
       else w.enemySpawnInterval) ∧
    (spawnEnemies rand deltaTime w t).1.enemies.length = w.enemies.length +
      (if w.enemySpawnTimer + deltaTime ≥ w.enemySpawnInterval then 1 else 0) := by
  unfold spawnEnemies
  split <;> simp [Enemy.new]

theorem toCollisionPhase_spec (hypot : ℚ → ℚ → ℚ) (deltaTime : ℚ) (rand : Nat → ℚ)
    (p0 : Player) (w : World) :
    ∃ ret w4 t4, toCollisionPhase hypot deltaTime rand p0 w = some (ret, w4, t4) ∧
      ToCollisionRel deltaTime w
        (p0.update hypot w.keyState w.isTouching w.touchX w.touchY w.canvasWidth
          w.canvasHeight deltaTime) ret w4 t4 := by
  unfold toCollisionPhase
  simp only []
  generalize p0.update hypot w.keyState w.isTouching w.touchX w.touchY w.canvasWidth
    w.canvasHeight deltaTime = pl
  obtain ⟨a1, a2, a3, a4, a5, a6, a7, a8, a9, a10, a11, a12, a13, a14, a15, a16, a17, a18,
      a19⟩ :=
    spawnEnemies_spec rand deltaTime { w with player := some pl } Tally.zero
  generalize spawnEnemies rand deltaTime { w with player := some pl } Tally.zero = s at *
  have hb := updateBullets_append s.1.canvasHeight s.1.bullets []
  rw [List.append_nil] at hb
  rw [hb]
  simp only []
  generalize hbs : (s.1.bullets.map Bullet.update).filter
    (fun b => !b.isOffScreen s.1.canvasHeight) ++ [] = bs
  obtain ⟨ret, w4, t4, hrun, R, h1, h2, h3, h4⟩ := updateEnemies_spec rand pl s.1.enemies []
    { s.1 with bullets := bs } s.2 (by simp)
  refine ⟨ret, w4, t4, hrun, ?_⟩
  have hf := R.fixed
  simp only [World.fixed, Prod.mk.injEq] at hf
  obtain ⟨f1, f2, f3, f4, f5, f6, f7, f8⟩ := hf
  have hbk := R.health
  have hmono := R.bodyKills
  have hen := R.enemies
  have hbl := R.blasts
  simp only [Tally.zero] at a14 a15 a16
  simp only [a14, a9] at hbk
  simp only [a14] at hen hbl
  rw [a14] at hmono
  refine ⟨f1.trans a1, f2.trans a2, f3.trans a3, f6.trans a4, f7.trans a5, f8.trans a6,
    f4.trans a17, f5.trans a18, R.player.trans a7, R.score.trans a8, ?_,
    R.bulletKills.trans a15, R.playerHits.trans a16, ?_, ?_, ?_, ?_, ?_, ?_, ?_, ?_, ?_⟩
  · omega
  · intro hr
    obtain ⟨g, z, b⟩ := h1 hr
    exact ⟨g, z, by omega⟩
  · intro hr
    obtain ⟨g, z⟩ := h2 hr
    exact ⟨g.trans a10, fun hpos => z (by simpa [a9] using hpos)⟩
  · intro hpos
    exact h3 (by simpa [a9] using hpos)
  · intro hr hpos
    exact h4 hr (by omega)
  · obtain ⟨l, hl⟩ := R.explosions
    exact ⟨l, by rw [hl]; simp [a12]⟩
  · obtain ⟨l, hl⟩ := R.powerUps
    exact ⟨l, by rw [hl]; simp [a13]⟩
  · obtain ⟨l, hl⟩ := R.bullets
    refine ⟨l, ?_⟩
    rw [hl]
    show bs ++ l = _
    rw [← hbs, a11, a2]
    simp
  · have : w4.enemies.length + t4.bodyKills ≤ s.1.enemies.length := by simpa using hen
    simp only [] at a19
    rw [a19] at this
    exact this
  · simp only [a12] at hbl
    simpa using hbl

theorem fromCollisionPhase_spec (rand : Nat → ℚ) (pl : Player) (w4 : World) (t4 : Tally)
    (hp : w4.player = some pl) :
    ∃ w7 t7, fromCollisionPhase rand pl w4 t4 = some (w7, t7) ∧
      FromCollisionRel pl w4 t4 w7 t7 := by
  unfold fromCollisionPhase
  obtain ⟨ret, w5, t5, hrun, R, h1, h2, h3, h4, h5, h6⟩ :=
    resolveBullets_spec rand pl w4.bullets [] w4 t4 (by simp)
  rw [hrun]
  cases ret with
  | true =>
    obtain ⟨g, z, b⟩ := h1 rfl
    exact ⟨w5, t5, rfl, R.fixed, ⟨pl, R.player.trans hp, Upgraded.refl_upgraded pl⟩, R.bodyKills,
      R.bulletKills, R.playerHits, R.score, R.health, Or.inr ⟨g, z, b⟩, h3, R.enemies, h5, h4,
      R.bullets, R.hitters⟩
  | false =>
    obtain ⟨g, z, c⟩ := h2 rfl
    simp only []
    have hx := updateExplosions_append w5.explosions []
    rw [List.append_nil] at hx
    rw [hx]
    simp only []
    generalize (w5.explosions.map Explosion.update).filter (fun ex => !ex.isDead) ++ [] = xs
    obtain ⟨w7, t7, hrun7, P⟩ := updatePowerUps_spec rand w5.powerUps []
      { w5 with explosions := xs } t5 (by simp) ⟨pl, R.player.trans hp⟩
    obtain ⟨q1, hq1, u1⟩ := P.player pl (R.player.trans hp)
    have e1 := R.score
    have e2 := R.health
    have e3 := R.enemies
    have e4 := R.hitters
    have m1 := R.bulletKills
    have m2 := R.playerHits
    have k1 := P.bulletKills
    have k2 := P.playerHits
    have k3 := P.bodyKills
    have s1 := P.score
    have s2 := P.health
    have s3 := P.enemies
    have s4 := P.bullets
    simp only [] at s1 s2 s3 s4
    refine ⟨w7, t7, hrun7, P.fixed.trans R.fixed, ⟨q1, hq1, u1⟩, by rw [k3, R.bodyKills],
      by omega, by omega, by rw [s1, k1]; exact e1, by rw [s2, k2]; exact e2,
      Or.inl ⟨by rw [P.gameState]; exact g, fun hpos => by rw [s2]; exact z hpos,
        by rw [k2]; exact c, fun hlt => by rw [s2]; exact h6 rfl (by omega)⟩,
      fun hpos => by rw [s2]; exact h3 hpos, by rw [s3, k1]; exact e3, by rw [k1]; exact h5,
      by rw [k2]; exact h4, by rw [s4]; exact R.bullets, by rw [s4, k2]; exact e4⟩

theorem updateGameAux_playing (hypot : ℚ → ℚ → ℚ) (deltaTime : ℚ) (rand : Nat → ℚ)
    (w : World) (p0 : Player) (hg : w.gameState = GameState.playing)
    (hp : w.player = some p0) :
    ∃ w1 t1, updateGameAux hypot deltaTime rand w = some (w1, t1) ∧
      StepRel deltaTime w
        (p0.update hypot w.keyState w.isTouching w.touchX w.touchY w.canvasWidth
          w.canvasHeight deltaTime) w1 t1 := by
  obtain ⟨ret, w4, t4, hrun, T⟩ := toCollisionPhase_spec hypot deltaTime rand p0 w
  unfold updateGameAux
  rw [if_neg (by simp [hg]), hp]
  simp only []
  rw [hrun]
  generalize p0.update hypot w.keyState w.isTouching w.touchX w.touchY w.canvasWidth
    w.canvasHeight deltaTime = pl at T
  have th := T.health
  cases ret with
  | true =>
    obtain ⟨g, z, b⟩ := T.returned rfl
    refine ⟨w4, t4, rfl, T.canvasWidth, T.canvasHeight, T.keyState, T.touchX, T.touchY,
      T.isTouching, T.timer, T.interval, ⟨pl, T.player, Upgraded.refl_upgraded pl⟩, ?_, ?_,
      Or.inr ⟨g, z, by omega⟩, T.low, ?_⟩
    · rw [T.score, T.bulletKills]; simp
    · rw [th, T.playerHits]; simp
    · have := T.enemies
      have := T.bulletKills
      omega
  | false =>
    obtain ⟨g, z⟩ := T.completed rfl
    simp only []
    rw [T.player]
    simp only []
    obtain ⟨w7, t7, hrun7, F⟩ := fromCollisionPhase_spec rand pl w4 t4 T.player
    have hf := F.fixed
    simp only [World.fixed, Prod.mk.injEq] at hf
    obtain ⟨f1, f2, f3, f4, f5, f6, f7, f8⟩ := hf
    have fs := F.score
    have fh := F.health
    have fb := F.bodyKills
    have tk := T.bulletKills
    have tp := T.playerHits
    have ts := T.score
    refine ⟨w7, t7, hrun7, f1.trans T.canvasWidth, f2.trans T.canvasHeight,
      f3.trans T.keyState, f6.trans T.touchX, f7.trans T.touchY, f8.trans T.isTouching,
      f4.trans T.timer, f5.trans T.interval, F.player, ?_, ?_, ?_, ?_, ?_⟩
    · rw [tk] at fs
      omega
    · rw [tp] at fh
      omega
    · rcases F.mode with ⟨m1, m2, -, m4⟩ | ⟨m1, m2, m3⟩
      · refine Or.inl ⟨by rw [m1, g, hg], fun hpos => m2 (z hpos), fun hsum => ?_⟩
        by_cases hh : t4.playerHits < t7.playerHits
        · exact m4 hh
        · exact m2 (T.hurt rfl (by omega))
      · exact Or.inr ⟨m1, m2, by omega⟩
    · intro hpos
      have := F.low (z hpos)
      omega
    · have := T.enemies
      have := F.enemies
      omega

/-! ## Body collisions -/

theorem Enemy.update_getBounds (rand : Nat → ℚ) (e : Enemy) (bs : List Bullet) (t : Tally) :
    (Enemy.update rand e bs t).1.getBounds = e.advancedBounds := by
  unfold Enemy.update
  dsimp only
  split <;> rfl

theorem spawnEnemies_enemies (rand : Nat → ℚ) (deltaTime : ℚ) (w : World) (q : Option Player)
    (t : Tally) :
    (spawnEnemies rand deltaTime { w with player := q } t).1.enemies =
      (spawnEnemies rand deltaTime w t).1.enemies := by
  unfold spawnEnemies
  dsimp only
  split <;> rfl

/-- With `health ≤ 10`, the enemy loop returns at the first enemy that overlaps the
player. -/
theorem updateEnemies_returns_of_hit (rand : Nat → ℚ) (p : Player) (A : List Enemy) :
    ∀ (B : List Enemy) (w : World) (t : Tally), w.enemies = A ++ B → w.health ≤ 10 →
      (∃ e ∈ A, checkCollision p.getBounds e.advancedBounds = true) →
      ∃ w1 t1, updateEnemies rand p A.length w t = some (true, w1, t1) := by
  induction A using List.reverseRecOn with
  | nil =>
    intro B w t _ _ h
    obtain ⟨e, he, -⟩ := h
    simp at he
  | append_singleton A e ih =>
    intro B w t hw hh hex
    have hlen : (A ++ [e]).length = A.length + 1 := by simp
    rw [List.append_assoc, List.singleton_append] at hw
    have hgb := Enemy.update_getBounds rand e w.bullets t
    rw [hlen, updateEnemies, hw, getElem?_mid]
    simp only [set_mid, eraseIdx_mid]
    generalize Enemy.update rand e w.bullets t = r at hgb ⊢
    by_cases hc : checkCollision p.getBounds r.1.getBounds = true
    · rw [if_pos hc]
      have hz : (bodyHit rand A.length r.1
          { w with enemies := A ++ r.1 :: B, bullets := r.2.1 } r.2.2).1.health ≤ 0 := by
        show w.health - 10 ≤ 0
        omega
      rw [if_pos hz]
      exact ⟨_, _, rfl⟩
    · rw [if_neg hc]
      have hex1 : ∃ e0 ∈ A, checkCollision p.getBounds e0.advancedBounds = true := by
        obtain ⟨e0, he0, hc0⟩ := hex
        rcases List.mem_append.1 he0 with h | h
        · exact ⟨e0, h, hc0⟩
        · have : e0 = e := by simpa using h
          rw [this, ← hgb] at hc0
          exact absurd hc0 hc
      by_cases ho : r.1.isOffScreen w.canvasHeight = true
      · rw [if_pos ho]
        exact ih B { w with enemies := A ++ B, bullets := r.2.1 } r.2.2 rfl hh hex1
      · rw [if_neg ho]
        exact ih (r.1 :: B) { w with enemies := A ++ r.1 :: B, bullets := r.2.1 } r.2.2 rfl hh
          hex1

theorem toCollisionPhase_returns_of_hit (hypot : ℚ → ℚ → ℚ) (deltaTime : ℚ) (rand : Nat → ℚ)
    (p0 : Player) (w : World) (hh : w.health ≤ 10)
    (hex : ∃ e ∈ (spawnEnemies rand deltaTime w Tally.zero).1.enemies,
      checkCollision
        (p0.update hypot w.keyState w.isTouching w.touchX w.touchY w.canvasWidth
          w.canvasHeight deltaTime).getBounds e.advancedBounds = true) :
    ∃ w4 t4, toCollisionPhase hypot deltaTime rand p0 w = some (true, w4, t4) := by
  unfold toCollisionPhase
  simp only []
  generalize p0.update hypot w.keyState w.isTouching w.touchX w.touchY w.canvasWidth
    w.canvasHeight deltaTime = pl at hex ⊢
  rw [← spawnEnemies_enemies rand deltaTime w (some pl) Tally.zero] at hex
  have a9 := (spawnEnemies_spec rand deltaTime { w with player := some pl } Tally.zero).2.2.2.2.2.2.2.2.1
  generalize spawnEnemies rand deltaTime { w with player := some pl } Tally.zero = s at *
  have hb := updateBullets_append s.1.canvasHeight s.1.bullets []
  rw [List.append_nil] at hb
  rw [hb]
  simp only []
  exact updateEnemies_returns_of_hit rand pl s.1.enemies [] _ s.2 (by simp)
    (by simpa [a9] using hh) hex

theorem updateGameAux_completed (hypot : ℚ → ℚ → ℚ) (deltaTime : ℚ) (rand : Nat → ℚ)
    (w : World) (p0 : Player) (w4 : World) (t4 : Tally)
    (hg : w.gameState = GameState.playing) (hp : w.player = some p0)
    (h4 : toCollisionPhase hypot deltaTime rand p0 w = some (false, w4, t4)) :
    updateGameAux hypot deltaTime rand w =
      fromCollisionPhase rand
        (p0.update hypot w.keyState w.isTouching w.touchX w.touchY w.canvasWidth
          w.canvasHeight deltaTime) w4 t4 ∧
    ToCollisionRel deltaTime w
      (p0.update hypot w.keyState w.isTouching w.touchX w.touchY w.canvasWidth
        w.canvasHeight deltaTime) false w4 t4 := by
  obtain ⟨ret, w4a, t4a, hrun, T⟩ := toCollisionPhase_spec hypot deltaTime rand p0 w
  rw [h4] at hrun
  cases hrun
  refine ⟨?_, T⟩
  unfold updateGameAux
  rw [if_neg (by simp [hg]), hp]
  simp only []
  rw [h4]
  simp only []
  rw [T.player]

/-- The inner loop passes over the enemies above the highest colliding one. -/
theorem hitEnemies_highest (rand : Nat → ℚ) (i : Nat) (b : Bullet) (E1 : List Enemy)
    (e : Enemy) (hc : checkCollision b.getBounds e.getBounds = true) (E2 : List Enemy) :
    ∀ (F : List Enemy) (w : World) (t : Tally), w.enemies = (E1 ++ e :: E2) ++ F →
      (∀ x ∈ E2, checkCollision b.getBounds x.getBounds = false) →
      hitEnemies rand i b (E1 ++ e :: E2).length w t =
        some (bulletHit rand i E1.length e w t) := by
  induction E2 using List.reverseRecOn with
  | nil =>
    intro F w t hw _
    have hlen : (E1 ++ [e]).length = E1.length + 1 := by simp
    rw [List.append_assoc, List.singleton_append] at hw
    rw [hlen, hitEnemies, hw, getElem?_mid]
    simp only []
    rw [if_pos hc]
  | append_singleton E2 x ih =>
    intro F w t hw hno
    have hlen : (E1 ++ e :: (E2 ++ [x])).length = (E1 ++ e :: E2).length + 1 := by
      simp only [List.length_append, List.length_cons, List.length_nil]
      omega
    have hw1 : w.enemies = (E1 ++ e :: E2) ++ x :: F := by rw [hw]; simp
    have hx : checkCollision b.getBounds x.getBounds = false := hno x (by simp)
    rw [hlen, hitEnemies, hw1, getElem?_mid]
    simp only []
    rw [if_neg (by simp [hx])]
    exact ih (x :: F) w t hw1 (fun y hy => hno y (by simp [hy]))

/-- The rest of the step when the pool holds one bullet, a player bullet, and `e` is
the colliding enemy of highest index. -/
theorem fromCollisionPhase_of_kill (rand : Nat → ℚ) (pl : Player) (w4 : World) (t4 : Tally)
    (b : Bullet) (E1 : List Enemy) (e : Enemy) (E2 : List Enemy)
    (hpl : w4.player = some pl) (hb : w4.bullets = [b]) (hdir : b.direction = -1)
    (he : w4.enemies = E1 ++ e :: E2)
    (hc : checkCollision b.getBounds e.getBounds = true)
    (hno : ∀ x ∈ E2, checkCollision b.getBounds x.getBounds = false) :
    ∃ w7 t7, fromCollisionPhase rand pl w4 t4 = some (w7, t7) ∧ w7.enemies = E1 ++ E2 ∧
      w7.score = w4.score + 10 ∧ w7.bullets = [] := by
  have hhit : hitEnemies rand 0 b w4.enemies.length w4 t4 =
      some (bulletHit rand 0 E1.length e w4 t4) := by
    have := hitEnemies_highest rand 0 b E1 e hc E2 [] w4 t4 (by simpa using he) hno
    rw [he]
    exact this
  have hres : resolveBullets rand pl w4.bullets.length w4 t4 =
      some (false, (bulletHit rand 0 E1.length e w4 t4).1,
        (bulletHit rand 0 E1.length e w4 t4).2) := by
    have h1 : w4.bullets.length = 0 + 1 := by rw [hb]; rfl
    rw [h1, resolveBullets]
    have h2 : w4.bullets[0]? = some b := by rw [hb]; rfl
    rw [h2]
    simp only []
    rw [if_pos hdir, hhit]
    rfl
  have k1 : (bulletHit rand 0 E1.length e w4 t4).1.bullets = [] := by simp [bulletHit, hb]
  have k2 : (bulletHit rand 0 E1.length e w4 t4).1.enemies = E1 ++ E2 := by
    simp only [bulletHit]
    rw [he, eraseIdx_mid]
  have k3 : (bulletHit rand 0 E1.length e w4 t4).1.score = w4.score + 10 := rfl
  have k6 : (bulletHit rand 0 E1.length e w4 t4).1.player = some pl := hpl
  generalize bulletHit rand 0 E1.length e w4 t4 = r at hres k1 k2 k3 k6
  have hx := updateExplosions_append r.1.explosions []
  rw [List.append_nil] at hx
  generalize (r.1.explosions.map Explosion.update).filter (fun ex => !ex.isDead) ++ [] = xs
    at hx
  obtain ⟨w7, t7, hrun7, P⟩ := updatePowerUps_spec rand r.1.powerUps []
    { r.1 with explosions := xs } r.2 (by simp) ⟨pl, k6⟩
  refine ⟨w7, t7, ?_, P.enemies.trans k2, P.score.trans k3, P.bullets.trans k1⟩
  unfold fromCollisionPhase
  rw [hres]
  simp only []
  rw [hx]
  exact hrun7

theorem updateGameAux_returned (hypot : ℚ → ℚ → ℚ) (deltaTime : ℚ) (rand : Nat → ℚ)
    (w : World) (p0 : Player) (w4 : World) (t4 : Tally)
    (hg : w.gameState = GameState.playing) (hp : w.player = some p0)
    (h4 : toCollisionPhase hypot deltaTime rand p0 w = some (true, w4, t4)) :
    updateGameAux hypot deltaTime rand w = some (w4, t4) ∧
    ToCollisionRel deltaTime w
      (p0.update hypot w.keyState w.isTouching w.touchX w.touchY w.canvasWidth
        w.canvasHeight deltaTime) true w4 t4 := by
  obtain ⟨ret, w4a, t4a, hrun, T⟩ := toCollisionPhase_spec hypot deltaTime rand p0 w
  rw [h4] at hrun
  cases hrun
  refine ⟨?_, T⟩
  unfold updateGameAux
  rw [if_neg (by simp [hg]), hp]
  simp only []
  rw [h4]

/-- When no enemy overlaps the player, the enemy loop completes and counts no body
collision. -/
theorem updateEnemies_no_hit (rand : Nat → ℚ) (p : Player) (A : List Enemy) :
    ∀ (B : List Enemy) (w : World) (t : Tally), w.enemies = A ++ B →
      (∀ e ∈ A, checkCollision p.getBounds e.advancedBounds = false) →
      ∃ w1 t1, updateEnemies rand p A.length w t = some (false, w1, t1) ∧
        t1.bodyKills = t.bodyKills := by
  induction A using List.reverseRecOn with
  | nil =>
    intro B w t _ _
    exact ⟨w, t, by simp [updateEnemies], rfl⟩
  | append_singleton A e ih =>
    intro B w t hw hno
    have hlen : (A ++ [e]).length = A.length + 1 := by simp
    rw [List.append_assoc, List.singleton_append] at hw
    have hgb := Enemy.update_getBounds rand e w.bullets t
    obtain ⟨hk1, -, -⟩ := Enemy.update_tally rand e w.bullets t
    rw [hlen, updateEnemies, hw, getElem?_mid]
    simp only [set_mid, eraseIdx_mid]
    generalize Enemy.update rand e w.bullets t = r at hgb hk1 ⊢
    have hc : ¬ checkCollision p.getBounds r.1.getBounds = true := by
      rw [hgb, hno e (by simp)]
      simp
    have hno1 : ∀ e0 ∈ A, checkCollision p.getBounds e0.advancedBounds = false :=
      fun e0 h0 => hno e0 (by simp [h0])
    rw [if_neg hc]
    by_cases ho : r.1.isOffScreen w.canvasHeight = true
    · rw [if_pos ho]
      obtain ⟨w1, t1, hrun, hb⟩ :=
        ih B { w with enemies := A ++ B, bullets := r.2.1 } r.2.2 rfl hno1
      exact ⟨w1, t1, hrun, hb.trans hk1⟩
    · rw [if_neg ho]
      obtain ⟨w1, t1, hrun, hb⟩ :=
        ih (r.1 :: B) { w with enemies := A ++ r.1 :: B, bullets := r.2.1 } r.2.2 rfl hno1
      exact ⟨w1, t1, hrun, hb.trans hk1⟩

theorem toCollisionPhase_no_hit (hypot : ℚ → ℚ → ℚ) (deltaTime : ℚ) (rand : Nat → ℚ)
    (p0 : Player) (w : World)
    (hno : ∀ e ∈ (spawnEnemies rand deltaTime w Tally.zero).1.enemies,
      checkCollision
        (p0.update hypot w.keyState w.isTouching w.touchX w.touchY w.canvasWidth
          w.canvasHeight deltaTime).getBounds e.advancedBounds = false) :
    ∃ w4 t4, toCollisionPhase hypot deltaTime rand p0 w = some (false, w4, t4) ∧
      t4.bodyKills = 0 := by
  unfold toCollisionPhase
  simp only []
  generalize p0.update hypot w.keyState w.isTouching w.touchX w.touchY w.canvasWidth
    w.canvasHeight deltaTime = pl at hno ⊢
  rw [← spawnEnemies_enemies rand deltaTime w (some pl) Tally.zero] at hno
  have a14 :=
    (spawnEnemies_spec rand deltaTime { w with player := some pl }
      Tally.zero).2.2.2.2.2.2.2.2.2.2.2.2.2.1
  generalize spawnEnemies rand deltaTime { w with player := some pl } Tally.zero = s at *
  have hb := updateBullets_append s.1.canvasHeight s.1.bullets []
  rw [List.append_nil] at hb
  rw [hb]
  simp only []
  generalize (s.1.bullets.map Bullet.update).filter (fun b => !b.isOffScreen s.1.canvasHeight)
    ++ [] = bs
  obtain ⟨w4, t4, hrun, hk⟩ := updateEnemies_no_hit rand pl s.1.enemies []
    { s.1 with bullets := bs } s.2 (by simp) hno
  exact ⟨w4, t4, hrun, hk.trans a14⟩

/-! ## The session invariant -/

theorem Player.update_fireRate (hypot : ℚ → ℚ → ℚ) (k : KeyState) (it : Bool)
    (tx ty cw ch dt : ℚ) (p : Player) :
    (p.update hypot k it tx ty cw ch dt).fireRate = p.fireRate ∧
    (p.update hypot k it tx ty cw ch dt).dualShot = p.dualShot ∧
    (p.update hypot k it tx ty cw ch dt).width = p.width ∧
    (p.update hypot k it tx ty cw ch dt).height = p.height ∧
    (p.update hypot k it tx ty cw ch dt).speed = p.speed :=
  ⟨rfl, rfl, rfl, rfl, rfl⟩

theorem updateGameAux_total (hypot : ℚ → ℚ → ℚ) (deltaTime : ℚ) (rand : Nat → ℚ) (w : World)
    (h : w.gameState = GameState.playing → ∃ q, w.player = some q) :
    ∃ w1 t1, updateGameAux hypot deltaTime rand w = some (w1, t1) := by
  by_cases hg : w.gameState = GameState.playing
  · obtain ⟨q, hq⟩ := h hg
    obtain ⟨w1, t1, hrun, -⟩ := updateGameAux_playing hypot deltaTime rand w q hg hq
    exact ⟨w1, t1, hrun⟩
  · exact ⟨w, Tally.zero, by simp [updateGameAux, hg]⟩

theorem updateGame_eq_some {hypot : ℚ → ℚ → ℚ} {deltaTime : ℚ} {rand : Nat → ℚ}
    {w w1 : World} :
    updateGame hypot deltaTime rand w = some w1 ↔
      ∃ t1, updateGameAux hypot deltaTime rand w = some (w1, t1) := by
  unfold updateGame
  cases h : updateGameAux hypot deltaTime rand w with
  | none => simp
  | some r =>
    obtain ⟨a, b⟩ := r
    simp

theorem interval_step (k : Nat) (hk : k ≤ 60) :
    ∃ j : Nat, j ≤ 60 ∧ max (800 : ℚ) (2000 - 20 * (k : ℚ) - 20) = 2000 - 20 * (j : ℚ) ∧
      (k < 60 → j = k + 1) ∧ (k = 60 → j = 60) := by
  by_cases h : k < 60
  · refine ⟨k + 1, by omega, ?_, fun _ => rfl, fun e => by omega⟩
    have : (k : ℚ) + 1 ≤ 60 := by exact_mod_cast h
    rw [max_eq_right (by linarith)]
    push_cast
    ring
  · have e : k = 60 := by omega
    subst e
    exact ⟨60, le_rfl, by norm_num, fun c => by omega, fun _ => rfl⟩

theorem Inv.of_update {hypot : ℚ → ℚ → ℚ} {deltaTime : ℚ} {rand : Nat → ℚ} {w w1 : World}
    (I : Inv w) (h : updateGame hypot deltaTime rand w = some w1) : Inv w1 := by
  obtain ⟨t1, h⟩ := updateGame_eq_some.1 h
  by_cases hg : w.gameState = GameState.playing
  · obtain ⟨q, hq⟩ := I.player (by simp [hg])
    obtain ⟨w2, t2, hrun, S⟩ := updateGameAux_playing hypot deltaTime rand w q hg hq
    rw [hrun] at h
    cases h
    have hpos := I.playing_pos hg
    have h1 := I.health_le
    have h2 := S.health
    have h3 := S.low hpos
    obtain ⟨c, hc⟩ := I.health_dvd
    have hd : (5 : Int) ∣ w1.health := ⟨c - 2 * (t1.bodyKills : Int) - t1.playerHits, by
      rw [h2, hc]; ring⟩
    obtain ⟨q1, hq1, u⟩ := S.player
    obtain ⟨k, hk, hI⟩ := I.interval
    refine ⟨by omega, by omega, hd, ?_, ?_, fun _ => ⟨q1, hq1⟩, ?_, ?_⟩
    · intro g
      rcases S.mode with ⟨-, m, -⟩ | ⟨m, -⟩
      · exact m hpos
      · rw [m] at g; cases g
    · intro g
      rcases S.mode with ⟨m, -⟩ | ⟨-, m, -⟩
      · rw [m] at g; cases g
      · exact m
    · rw [S.interval]
      split
      · obtain ⟨j, hj, e, -, -⟩ := interval_step k hk
        exact ⟨j, hj, by rw [hI, e]⟩
      · exact ⟨k, hk, hI⟩
    · intro q2 hq2
      rw [hq1] at hq2
      cases hq2
      obtain ⟨f1, f2⟩ := I.fireRate q hq
      obtain ⟨g1, g2⟩ := u.fireRate f1
      exact ⟨g1, g2.trans f2⟩
  · have : updateGameAux hypot deltaTime rand w = some (w, Tally.zero) := by
      simp [updateGameAux, hg]
    rw [this] at h
    cases h
    exact I

theorem Inv.of_initial (width height : ℚ) : Inv (World.initial width height) :=
  ⟨by simp [World.initial], by simp [World.initial], ⟨20, by simp [World.initial]⟩,
    fun _ => by simp [World.initial], fun h => by simp [World.initial] at h,
    fun h => by simp [World.initial] at h, ⟨0, by simp [World.initial]⟩,
    fun q h => by simp [World.initial] at h⟩

theorem Inv.of_handle {hypot : ℚ → ℚ → ℚ} {ev : Event} {w w1 : World} (I : Inv w)
    (h : handle hypot ev w = some w1) : Inv w1 := by
  cases ev with
  | update deltaTime rand => exact I.of_update h
  | shoot =>
    simp only [Shooter.handle, Option.some.injEq] at h
    subst h
    unfold shootCommand
    split
    · split
      · exact ⟨I.health_le, I.health_ge, I.health_dvd, I.playing_pos, I.gameOver_le, I.player,
          I.interval, I.fireRate⟩
      · exact I
    · exact I
  | start =>
    simp only [Shooter.handle, Option.some.injEq] at h
    subst h
    refine ⟨by simp [startGame, initGame], by simp [startGame, initGame],
      ⟨20, by simp [startGame, initGame]⟩, fun _ => by simp [startGame, initGame],
      fun g => by simp [startGame, initGame] at g, fun _ => ⟨_, rfl⟩, I.interval, ?_⟩
    intro q hq
    simp only [startGame, initGame, Option.some.injEq] at hq
    subst hq
    simp [Player.new]
  | key action isPressed =>
    simp only [Shooter.handle, Option.some.injEq] at h
    subst h
    exact ⟨I.health_le, I.health_ge, I.health_dvd, I.playing_pos, I.gameOver_le, I.player,
      I.interval, I.fireRate⟩
  | pointerDown x y =>
    simp only [Shooter.handle, Option.some.injEq] at h
    subst h
    exact ⟨I.health_le, I.health_ge, I.health_dvd, I.playing_pos, I.gameOver_le, I.player,
      I.interval, I.fireRate⟩
  | touchMove x y =>
    simp only [Shooter.handle, Option.some.injEq] at h
    subst h
    exact ⟨I.health_le, I.health_ge, I.health_dvd, I.playing_pos, I.gameOver_le, I.player,
      I.interval, I.fireRate⟩
  | mouseMove x y =>
    simp only [Shooter.handle, Option.some.injEq] at h
    subst h
    split
    · exact ⟨I.health_le, I.health_ge, I.health_dvd, I.playing_pos, I.gameOver_le, I.player,
        I.interval, I.fireRate⟩
    · exact I
  | pointerUp =>
    simp only [Shooter.handle, Option.some.injEq] at h
    subst h
    exact ⟨I.health_le, I.health_ge, I.health_dvd, I.playing_pos, I.gameOver_le, I.player,
      I.interval, I.fireRate⟩
  | resize width height =>
    simp only [Shooter.handle, Option.some.injEq] at h
    subst h
    exact ⟨I.health_le, I.health_ge, I.health_dvd, I.playing_pos, I.gameOver_le, I.player,
      I.interval, I.fireRate⟩

theorem Reachable.invariant {hypot : ℚ → ℚ → ℚ} {w : World} (h : Reachable hypot w) : Inv w := by
  induction h with
  | initial width height => exact Inv.of_initial width height
  | step ev _ hstep ih => exact ih.of_handle hstep

theorem handle_total (hypot : ℚ → ℚ → ℚ) (ev : Event) (w : World)
    (h : w.gameState = GameState.playing → ∃ q, w.player = some q) :
    ∃ w1, handle hypot ev w = some w1 := by
  cases ev with
  | update deltaTime rand =>
    obtain ⟨w1, t1, hrun⟩ := updateGameAux_total hypot deltaTime rand w h
    exact ⟨w1, updateGame_eq_some.2 ⟨t1, hrun⟩⟩
  | shoot => exact ⟨_, rfl⟩
  | start => exact ⟨_, rfl⟩
  | key action isPressed => exact ⟨_, rfl⟩
  | pointerDown x y => exact ⟨_, rfl⟩
  | touchMove x y => exact ⟨_, rfl⟩
  | mouseMove x y => exact ⟨_, rfl⟩
  | pointerUp => exact ⟨_, rfl⟩
  | resize width height => exact ⟨_, rfl⟩

theorem handle_interval (hypot : ℚ → ℚ → ℚ) (ev : Event) (w w1 : World)
    (hne : ∀ deltaTime rand, ev ≠ Event.update deltaTime rand)
    (h : handle hypot ev w = some w1) : w1.enemySpawnInterval = w.enemySpawnInterval := by
  cases ev with
  | update deltaTime rand => exact absurd rfl (hne deltaTime rand)
  | shoot =>
    simp only [handle, Option.some.injEq] at h
    subst h
    unfold shootCommand
    split
    · split <;> rfl
    · rfl
  | start =>
    simp only [handle, Option.some.injEq] at h
    subst h
    rfl
  | key action isPressed =>
    simp only [handle, Option.some.injEq] at h
    subst h
    rfl
  | pointerDown x y =>
    simp only [handle, Option.some.injEq] at h
    subst h
    rfl
  | touchMove x y =>
    simp only [handle, Option.some.injEq] at h
    subst h
    rfl
  | mouseMove x y =>
    simp only [handle, Option.some.injEq] at h
    subst h
    split <;> rfl
  | pointerUp =>
    simp only [handle, Option.some.injEq] at h
    subst h
    rfl
  | resize width height =>
    simp only [handle, Option.some.injEq] at h
    subst h
    rfl

/-! ## Runs -/

theorem run_append (hypot : ℚ → ℚ → ℚ) (l1 l2 : List Event) (w : World) :
    run hypot (l1 ++ l2) w = (run hypot l1 w).bind (run hypot l2) := by
  induction l1 generalizing w with
  | nil => simp [run]
  | cons ev l ih =>
    simp only [List.cons_append, run]
    cases handle hypot ev w with
    | none => simp
    | some w1 => simpa using ih w1

theorem Reachable.of_run {hypot : ℚ → ℚ → ℚ} {w w1 : World} (h : Reachable hypot w)
    (l : List Event) (hrun : Shooter.run hypot l w = some w1) : Reachable hypot w1 := by
  induction l generalizing w with
  | nil =>
    simp only [Shooter.run, Option.some.injEq] at hrun
    exact hrun ▸ h
  | cons ev l ih =>
    simp only [Shooter.run] at hrun
    cases hh : handle hypot ev w with
    | none => simp [hh] at hrun
    | some w2 =>
      rw [hh] at hrun
      exact ih (Reachable.step ev h hh) hrun

theorem freshWorld_reachable : Reachable hypotQ freshWorld :=
  Reachable.step Event.start (Reachable.initial 400 250) rfl

/-- A player who neither moves nor shoots is hit by seven enemy bullets and seven
enemies in 233 frames of 100 ms: the game is over with `health = -5`, and the spawn
interval has come down to 1760. -/
theorem idle_run :
    (run hypotQ (idleFrames 233) freshWorld).map
      (fun w => (w.health, w.gameState, w.enemySpawnInterval)) =
      some (-5, GameState.gameOver, 1760) := by
  decide!

/-! ## The player -/

theorem Player.update_eq_clamp (hypot : ℚ → ℚ → ℚ) (k : KeyState) (it : Bool)
    (tx ty cw ch dt : ℚ) (p : Player) :
    p.update hypot k it tx ty cw ch dt =
      { p with
        x := max 0 (min (cw - p.width) (p.moved hypot k it tx ty dt).1)
        y := max 0 (min (ch - p.height) (p.moved hypot k it tx ty dt).2) } :=
  rfl

theorem Player.update_in_field (hypot : ℚ → ℚ → ℚ) (k : KeyState) (it : Bool)
    (tx ty cw ch dt : ℚ) (p : Player) (hw : p.width ≤ cw) (hh : p.height ≤ ch) :
    0 ≤ (p.update hypot k it tx ty cw ch dt).x ∧
    (p.update hypot k it tx ty cw ch dt).x ≤ cw - p.width ∧
    0 ≤ (p.update hypot k it tx ty cw ch dt).y ∧
    (p.update hypot k it tx ty cw ch dt).y ≤ ch - p.height := by
  rw [Player.update_eq_clamp]
  refine ⟨le_max_left _ _, max_le (by linarith) (min_le_left _ _), le_max_left _ _,
    max_le (by linarith) (min_le_left _ _)⟩

theorem KeyState.net_intent (k : KeyState) (h : k.left ≠ k.right ∨ k.up ≠ k.down) :
    ((if k.left then (-1 : ℚ) else 0) + (if k.right then 1 else 0) ≠ 0 ∨
      (if k.up then (-1 : ℚ) else 0) + (if k.down then 1 else 0) ≠ 0) := by
  obtain ⟨l, r, u, d⟩ := k
  cases l <;> cases r <;> cases u <;> cases d <;> simp at h ⊢

/-- With `step ≥ 0` the divisor of lines 87-88 is positive, and `Player.update` is the
method. -/
theorem Player.update?_eq_some (hypot : ℚ → ℚ → ℚ) (k : KeyState) (it : Bool)
    (tx ty cw ch dt : ℚ) (p : Player) (h : 0 ≤ p.speed * dt) :
    p.update? hypot k it tx ty cw ch dt = some (p.update hypot k it tx ty cw ch dt) := by
  unfold Player.update? Player.update
  simp only []
  generalize (if k.left then (-1 : ℚ) else 0) + (if k.right then 1 else 0) = mx
  generalize (if k.up then (-1 : ℚ) else 0) + (if k.down then 1 else 0) = my
  by_cases h1 : mx ≠ 0 ∨ my ≠ 0
  · rw [if_pos h1, if_pos h1]
    rfl
  · rw [if_neg h1, if_neg h1]
    cases it
    · rfl
    · by_cases h3 : hypot (tx - p.width / 2 - p.x) (ty - p.height / 2 - p.y) > p.speed * dt
      · have hne : hypot (tx - p.width / 2 - p.x) (ty - p.height / 2 - p.y) ≠ 0 :=
          ne_of_gt (lt_of_le_of_lt h h3)
        simp only [if_true, if_pos h3, quotient?, if_neg hne]
        rfl
      · simp only [if_true, if_neg h3]
        rfl

/-! ## Power-ups -/

theorem powerUpTypeAt_eq (r : ℚ) (h0 : 0 ≤ r) (h1 : r < 1) :
    powerUpTypeAt r = if r < 1 / 2 then PowerUpType.fireRate else PowerUpType.dualShot := by
  unfold powerUpTypeAt
  by_cases h : r < 1 / 2
  · have hf : Int.floor (r * 2) = 0 := by
      rw [Int.floor_eq_iff]
      constructor
      · push_cast; linarith
      · push_cast; linarith
    rw [if_pos hf, if_pos h]
  · have hf : Int.floor (r * 2) = 1 := by
      rw [Int.floor_eq_iff]
      constructor
      · push_cast; linarith
      · push_cast; linarith
    rw [if_neg (by rw [hf]; decide), if_pos hf, if_neg h]

theorem spawnPowerUp_eq (rand : Nat → ℚ) (x y : ℚ) (l : List PowerUp) (t : Tally)
    (h0 : 0 ≤ rand (t.draws + 1)) (h1 : rand (t.draws + 1) < 1) :
    (spawnPowerUp rand x y l t).1 =
      if rand t.draws < 3 / 5 then
        l ++ [PowerUp.new x y
          (if rand (t.draws + 1) < 1 / 2 then PowerUpType.fireRate else PowerUpType.dualShot)]
      else l := by
  unfold spawnPowerUp
  split
  · rw [powerUpTypeAt_eq _ h0 h1]
  · rfl

/-- Events other than `updateGame` and the start command leave the player as it is. -/
theorem handle_player (hypot : ℚ → ℚ → ℚ) (ev : Event) (w : World)
    (hne : ev ≠ Event.start) (hup : ∀ deltaTime rand, ev ≠ Event.update deltaTime rand) :
    ∃ w1, handle hypot ev w = some w1 ∧ w1.player = w.player := by
  cases ev with
  | update deltaTime rand => exact absurd rfl (hup deltaTime rand)
  | shoot =>
    refine ⟨_, rfl, ?_⟩
    unfold shootCommand
    split
    · split <;> rfl
    · rfl
  | start => exact absurd rfl hne
  | key action isPressed => exact ⟨_, rfl, rfl⟩
  | pointerDown x y => exact ⟨_, rfl, rfl⟩
  | touchMove x y => exact ⟨_, rfl, rfl⟩
  | mouseMove x y =>
    refine ⟨_, rfl, ?_⟩
    split <;> rfl
  | pointerUp => exact ⟨_, rfl, rfl⟩
  | resize width height => exact ⟨_, rfl, rfl⟩

/-- Within a session, an event leaves a player in place whose `fireRate` has not grown
(if it was at least 100, where it stays) and whose `dualShot` is still on if it was. -/
theorem handle_player_upgrades (hypot : ℚ → ℚ → ℚ) (ev : Event) (w : World) (q : Player)
    (hq : w.player = some q) (hne : ev ≠ Event.start) :
    ∃ w1 q1, handle hypot ev w = some w1 ∧ w1.player = some q1 ∧
      (100 ≤ q.fireRate → 100 ≤ q1.fireRate ∧ q1.fireRate ≤ q.fireRate) ∧
      (q.dualShot = true → q1.dualShot = true) := by
  by_cases hup : ∃ deltaTime rand, ev = Event.update deltaTime rand
  · obtain ⟨deltaTime, rand, rfl⟩ := hup
    by_cases hg : w.gameState = GameState.playing
    · obtain ⟨w1, t1, hrun, S⟩ := updateGameAux_playing hypot deltaTime rand w q hg hq
      obtain ⟨q1, hq1, u⟩ := S.player
      exact ⟨w1, q1, updateGame_eq_some.2 ⟨t1, hrun⟩, hq1, u.fireRate, u.dualShot⟩
    · refine ⟨w, q, ?_, hq, fun h => ⟨h, le_rfl⟩, id⟩
      simp [handle, updateGame, updateGameAux, hg]
  · obtain ⟨w1, h1, h2⟩ := handle_player hypot ev w hne
      (fun deltaTime rand hev => hup ⟨deltaTime, rand, hev⟩)
    exact ⟨w1, q, h1, h2.trans hq, fun h => ⟨h, le_rfl⟩, id⟩

theorem applyPowerUp_getBounds (type : PowerUpType) (q : Player) :
    (applyPowerUp type q).getBounds = q.getBounds := by
  cases type <;> rfl

/-- The power-up loop in closed form: the pool keeps, in order, the advanced power-ups
that are neither within reach of the player nor out of the field; the player receives
the effect of each power-up within reach, last index first; one explosion per power-up
within reach is appended, last index first, at its centre. -/
theorem updatePowerUps_exact (rand : Nat → ℚ) (box : Rect) (ch : ℚ) (A : List PowerUp) :
    ∀ (B : List PowerUp) (w : World) (t : Tally) (q : Player), w.powerUps = A ++ B →
      w.player = some q → q.getBounds = box → w.canvasHeight = ch →
      ∃ w1 t1 l, updatePowerUps rand A.length w t = some (w1, t1) ∧
        w1.powerUps = (A.map PowerUp.update).filter
          (fun u => !expandedCollision u.getBounds box && !u.isOffScreen ch) ++ B ∧
        w1.player = some
          (A.foldr (fun u pl => if u.reaches box then applyPowerUp u.type pl else pl) q) ∧
        w1.explosions = w.explosions ++ l ∧
        l.map (fun ex => (ex.x, ex.y)) =
          (A.reverse.filter (PowerUp.reaches box)).map PowerUp.blastSite ∧
        (∀ ex ∈ l, ex.life = 30) := by
  induction A using List.reverseRecOn with
  | nil =>
    intro B w t q hw hq _ _
    exact ⟨w, t, [], by simp [updatePowerUps], by simpa using hw, by simpa using hq, by simp,
      by simp, by simp⟩
  | append_singleton A u ih =>
    intro B w t q hw hq hbox hch
    have hlen : (A ++ [u]).length = A.length + 1 := by simp
    rw [List.append_assoc, List.singleton_append] at hw
    rw [hlen, updatePowerUps, hw, getElem?_mid, hq]
    simp only [set_mid, eraseIdx_mid]
    subst hch
    rw [hbox]
    by_cases hc : expandedCollision u.update.getBounds box = true
    · rw [if_pos hc]
      have hr : u.reaches box = true := hc
      obtain ⟨w1, t1, l, hrun, h1, h2, h3, h4, h5⟩ := ih B
        (collect rand A.length u.update q
          { w with powerUps := A ++ u.update :: B, player := some q } t).1
        (collect rand A.length u.update q
          { w with powerUps := A ++ u.update :: B, player := some q } t).2
        (applyPowerUp u.update.type q) (by simp only [collect, eraseIdx_mid]) rfl
        ((applyPowerUp_getBounds _ _).trans hbox) rfl
      refine ⟨w1, t1, (Explosion.new (u.update.x + u.update.width / 2)
        (u.update.y + u.update.height / 2) rand t).1 :: l, hrun, ?_, ?_, ?_, ?_, ?_⟩
      · rw [h1]
        simp [hc]
      · rw [h2]
        simp only [List.foldr_append, List.foldr_cons, List.foldr_nil, hr, if_true]
        rfl
      · rw [h3]
        simp only [collect, List.append_assoc, List.singleton_append]
      · simp only [List.map_cons, h4, List.reverse_append, List.reverse_cons, List.reverse_nil,
          List.nil_append, List.singleton_append, List.filter_cons, hr, if_true]
        rfl
      · intro ex hex
        rcases List.mem_cons.1 hex with h | h
        · rw [h]; rfl
        · exact h5 ex h
    · rw [if_neg hc]
      have hr : u.reaches box = false := by simpa [PowerUp.reaches] using hc
      have hcf : expandedCollision u.update.getBounds box = false := by simpa using hc
      by_cases ho : u.update.isOffScreen w.canvasHeight = true
      · rw [if_pos ho]
        obtain ⟨w1, t1, l, hrun, h1, h2, h3, h4, h5⟩ := ih B
          { w with powerUps := A ++ B, player := some q } t q rfl rfl hbox rfl
        refine ⟨w1, t1, l, hrun, ?_, ?_, h3, ?_, h5⟩
        · rw [h1]
          simp [hcf, ho]
        · rw [h2]
          simp only [List.foldr_append, List.foldr_cons, List.foldr_nil, hr]
          rfl
        · rw [h4]
          simp [List.filter_cons, hr]
      · rw [if_neg ho]
        have hof : u.update.isOffScreen w.canvasHeight = false := by simpa using ho
        obtain ⟨w1, t1, l, hrun, h1, h2, h3, h4, h5⟩ := ih (u.update :: B)
          { w with powerUps := A ++ u.update :: B, player := some q } t q rfl rfl hbox rfl
        refine ⟨w1, t1, l, hrun, ?_, ?_, h3, ?_, h5⟩
        · rw [h1]
          simp [hcf, hof]
        · rw [h2]
          simp only [List.foldr_append, List.foldr_cons, List.foldr_nil, hr]
          rfl
        · rw [h4]
          simp [List.filter_cons, hr]

/-- The player after the collections of one pass of the power-up loop: the box is the
same, `fireRate` has gone through `max 100 (fireRate - 50)` once per collected power-up
of type `fireRate`, and `dualShot` is on if it was or if a power-up of type `dualShot`
was collected. -/
theorem collected_player (box : Rect) (A : List PowerUp) (q : Player) :
    (A.foldr (fun u pl => if u.reaches box then applyPowerUp u.type pl else pl) q).getBounds =
      q.getBounds ∧
    (A.foldr (fun u pl => if u.reaches box then applyPowerUp u.type pl else pl) q).fireRate =
      (fun r : Int => max 100 (r - 50))^[A.countP (PowerUp.collectedAs PowerUpType.fireRate box)]
        q.fireRate ∧
    (A.foldr (fun u pl => if u.reaches box then applyPowerUp u.type pl else pl) q).dualShot =
      (q.dualShot || A.any (PowerUp.collectedAs PowerUpType.dualShot box)) := by
  induction A with
  | nil => simp
  | cons u A ih =>
    obtain ⟨i1, i2, i3⟩ := ih
    obtain ⟨ux, uy, uw, uh, us, ty, ur, up⟩ := u
    generalize hq1 : A.foldr
      (fun u pl => if u.reaches box then applyPowerUp u.type pl else pl) q = q1 at i1 i2 i3
    simp only [List.foldr_cons, List.countP_cons, List.any_cons, PowerUp.collectedAs, hq1]
    rw [← i1]
    by_cases hr : PowerUp.reaches box ⟨ux, uy, uw, uh, us, ty, ur, up⟩ = true
    · cases ty
      · refine ⟨?_, ?_, ?_⟩
        · simp [hr, applyPowerUp, Player.upgradeFireRate, Player.getBounds]
        · simp [hr, applyPowerUp, Player.upgradeFireRate, Function.iterate_succ_apply', i2]
        · simp [hr, applyPowerUp, Player.upgradeFireRate, i3]
      · refine ⟨?_, ?_, ?_⟩
        · simp [hr, applyPowerUp, Player.enableDualShot, Player.getBounds]
        · simp [hr, applyPowerUp, Player.enableDualShot, i2]
        · simp [hr, applyPowerUp, Player.enableDualShot]
      · refine ⟨?_, ?_, ?_⟩
        · simp [hr, applyPowerUp]
        · simp [hr, applyPowerUp, i2]
        · simp [hr, applyPowerUp, i3]
    · simp [hr, i2, i3]

/-- The bullet-collision loop over a stretch `Y` of enemy bullets, with the bullets `X`
below it: either a hit of the player ends the game there, or the loop goes on at the
top of `X`; the enemies and `score` are as before in both cases. -/
theorem resolveBullets_down (rand : Nat → ℚ) (p : Player) (Y : List Bullet) :
    (∀ y ∈ Y, y.direction ≠ -1) →
    ∀ (X B : List Bullet) (w : World) (t : Tally), w.bullets = X ++ (Y ++ B) →
      (∃ w1 t1, resolveBullets rand p (X.length + Y.length) w t = some (true, w1, t1) ∧
        w1.gameState = GameState.gameOver ∧ w1.enemies = w.enemies ∧ w1.score = w.score) ∨
      (∃ w1 t1 Y1, resolveBullets rand p (X.length + Y.length) w t =
          resolveBullets rand p X.length w1 t1 ∧
        w1.bullets = X ++ (Y1 ++ B) ∧ w1.enemies = w.enemies ∧ w1.score = w.score ∧
        w1.gameState = w.gameState ∧ w1.player = w.player) := by
  induction Y using List.reverseRecOn with
  | nil =>
    intro _ X B w t hw
    exact Or.inr ⟨w, t, [], by simp, by simpa using hw, rfl, rfl, rfl, rfl⟩
  | append_singleton Y y ih =>
    intro hY X B w t hw
    have hy : y.direction ≠ -1 := hY y (by simp)
    have hY0 : ∀ z ∈ Y, z.direction ≠ -1 := fun z hz => hY z (by simp [hz])
    have hlen : X.length + (Y ++ [y]).length = (X ++ Y).length + 1 := by
      simp only [List.length_append, List.length_cons, List.length_nil]
      omega
    have hw1 : w.bullets = (X ++ Y) ++ y :: B := by rw [hw]; simp
    have hXY : (X ++ Y).length = X.length + Y.length := by simp
    rw [hlen, resolveBullets, hw1, getElem?_mid]
    simp only []
    rw [if_neg hy]
    by_cases hc : checkCollision y.getBounds p.getBounds = true
    · rw [if_pos hc]
      have hb1 : (playerHit (X ++ Y).length w t).1.bullets = X ++ (Y ++ B) := by
        simp only [playerHit]
        rw [hw1, eraseIdx_mid, List.append_assoc]
      have he : (playerHit (X ++ Y).length w t).1.enemies = w.enemies := rfl
      have hs : (playerHit (X ++ Y).length w t).1.score = w.score := rfl
      have hg : (playerHit (X ++ Y).length w t).1.gameState = w.gameState := rfl
      have hp : (playerHit (X ++ Y).length w t).1.player = w.player := rfl
      generalize playerHit (X ++ Y).length w t = r at hb1 he hs hg hp ⊢
      by_cases hz : r.1.health ≤ 0
      · rw [if_pos hz]
        exact Or.inl ⟨_, _, rfl, rfl, he, hs⟩
      · rw [if_neg hz, hXY]
        rcases ih hY0 X B r.1 r.2 hb1 with ⟨w1, t1, h1, h2, h3, h4⟩ |
          ⟨w1, t1, Y1, h1, h2, h3, h4, h5, h6⟩
        · exact Or.inl ⟨w1, t1, h1, h2, h3.trans he, h4.trans hs⟩
        · exact Or.inr ⟨w1, t1, Y1, h1, h2, h3.trans he, h4.trans hs, h5.trans hg,
            h6.trans hp⟩
    · rw [if_neg hc, hXY]
      rcases ih hY0 X (y :: B) w t (by rw [hw]; simp) with ⟨w1, t1, h1, h2, h3, h4⟩ |
        ⟨w1, t1, Y1, h1, h2, h3, h4, h5, h6⟩
      · exact Or.inl ⟨w1, t1, h1, h2, h3, h4⟩
      · exact Or.inr ⟨w1, t1, Y1 ++ [y], h1, by rw [h2]; simp, h3, h4, h5, h6⟩

/-- The bullet-collision loop on a pool with one player bullet `b`, which overlaps `e`
and no enemy of higher index, among enemy bullets: either the game ends before `b` is
reached, with the enemies and `score` as before, or exactly `e` is removed and `score`
rises by 10. -/
theorem resolveBullets_one_up (rand : Nat → ℚ) (p : Player) (w : World) (t : Tally)
    (B1 : List Bullet) (b : Bullet) (B2 : List Bullet) (E1 : List Enemy) (e : Enemy)
    (E2 : List Enemy) (hb : w.bullets = B1 ++ b :: B2) (hdir : b.direction = -1)
    (h1 : ∀ y ∈ B1, y.direction ≠ -1) (h2 : ∀ y ∈ B2, y.direction ≠ -1)
    (he : w.enemies = E1 ++ e :: E2)
    (hc : checkCollision b.getBounds e.getBounds = true)
    (hno : ∀ x ∈ E2, checkCollision b.getBounds x.getBounds = false) :
    ∃ ret w5 t5, resolveBullets rand p w.bullets.length w t = some (ret, w5, t5) ∧
      w5.player = w.player ∧
      ((w5.enemies = E1 ++ E2 ∧ w5.score = w.score + 10 ∧
          (ret = false → w5.gameState = w.gameState)) ∨
        (ret = true ∧ w5.gameState = GameState.gameOver ∧ w5.enemies = w.enemies ∧
          w5.score = w.score)) := by
  have hlen : w.bullets.length = (B1 ++ [b]).length + B2.length := by
    rw [hb]
    simp only [List.length_append, List.length_cons, List.length_nil]
    omega
  have agree : ∀ (ret : Bool) (w5 : World) (t5 : Tally),
      resolveBullets rand p w.bullets.length w t = some (ret, w5, t5) → w5.player = w.player := by
    intro ret w5 t5 h
    obtain ⟨ret1, w6, t6, hrun, R, -⟩ := resolveBullets_spec rand p w.bullets [] w t (by simp)
    rw [h] at hrun
    cases hrun
    exact R.player
  rcases resolveBullets_down rand p B2 h2 (B1 ++ [b]) [] w t (by rw [hb]; simp) with
    ⟨w1, t1, r1, r2, r3, r4⟩ | ⟨w1, t1, Y1, r1, r2, r3, r4, r5, r6⟩
  · rw [← hlen] at r1
    exact ⟨true, w1, t1, r1, agree _ _ _ r1, Or.inr ⟨rfl, r2, r3, r4⟩⟩
  · rw [← hlen] at r1
    have hb1 : w1.bullets = B1 ++ b :: (Y1 ++ []) := by rw [r2]; simp
    have he1 : w1.enemies = (E1 ++ e :: E2) ++ [] := by rw [r3, he]; simp
    have hhit := hitEnemies_highest rand B1.length b E1 e hc E2 [] w1 t1 he1 hno
    have hstep : resolveBullets rand p (B1 ++ [b]).length w1 t1 =
        resolveBullets rand p B1.length (bulletHit rand B1.length E1.length e w1 t1).1
          (bulletHit rand B1.length E1.length e w1 t1).2 := by
      have hl : (B1 ++ [b]).length = B1.length + 1 := by simp
      have hel : w1.enemies.length = (E1 ++ e :: E2).length := by rw [he1]; simp
      rw [hl, resolveBullets, hb1, getElem?_mid]
      simp only []
      rw [if_pos hdir, hel, hhit]
    have k1 : (bulletHit rand B1.length E1.length e w1 t1).1.bullets = [] ++ (B1 ++ Y1) := by
      simp only [bulletHit]
      rw [hb1, eraseIdx_mid]
      simp
    have k2 : (bulletHit rand B1.length E1.length e w1 t1).1.enemies = E1 ++ E2 := by
      simp only [bulletHit]
      rw [r3, he, eraseIdx_mid]
    have k3 : (bulletHit rand B1.length E1.length e w1 t1).1.score = w.score + 10 := by
      simp only [bulletHit]
      rw [r4]
    have k4 : (bulletHit rand B1.length E1.length e w1 t1).1.gameState = w.gameState := r5
    generalize bulletHit rand B1.length E1.length e w1 t1 = r at hstep k1 k2 k3 k4
    rcases resolveBullets_down rand p B1 h1 [] Y1 r.1 r.2 k1 with
      ⟨w2, t2, s1, s2, s3, s4⟩ | ⟨w2, t2, Y2, s1, s2, s3, s4, s5, s6⟩
    · have hl0 : ([] : List Bullet).length + B1.length = B1.length := by simp
      rw [hl0] at s1
      have hfin : resolveBullets rand p w.bullets.length w t = some (true, w2, t2) := by
        rw [r1, hstep, s1]
      exact ⟨true, w2, t2, hfin, agree _ _ _ hfin,
        Or.inl ⟨s3.trans k2, s4.trans k3, fun h => by cases h⟩⟩
    · have hl0 : ([] : List Bullet).length + B1.length = B1.length := by simp
      rw [hl0] at s1
      have hfin : resolveBullets rand p w.bullets.length w t = some (false, w2, t2) := by
        rw [r1, hstep, s1]
        rfl
      exact ⟨false, w2, t2, hfin, agree _ _ _ hfin,
        Or.inl ⟨s3.trans k2, s4.trans k3, fun _ => s5.trans k4⟩⟩

/-! ## Destructions -/

theorem KillsRel.of_same {w w1 : World} {t t1 : Tally} (h1 : t1.kills = t.kills)
    (h2 : t1.spawnCalls = t.spawnCalls) (h3 : w1.explosions = w.explosions)
    (h4 : w1.powerUps = w.powerUps) (h5 : t1.bodyKills = t.bodyKills)
    (h6 : t1.bulletKills = t.bulletKills) : KillsRel w t w1 t1 :=
  ⟨[], [], [], by simp [h1], by simp [h2], by simp [h3], rfl, by simp, by simp [h4], by simp,
    by simp [h5, h6]⟩

theorem KillsRel.refl_kills (w : World) (t : Tally) : KillsRel w t w t :=
  KillsRel.of_same rfl rfl rfl rfl rfl rfl

theorem KillsRel.trans_kills {w w1 w2 : World} {t t1 t2 : Tally}
    (h : KillsRel w t w1 t1) (k : KillsRel w1 t1 w2 t2) : KillsRel w t w2 t2 := by
  obtain ⟨K1, X1, L1, a1, a2, a3, a4, a5, a6, a7, a8⟩ := h.log
  obtain ⟨K2, X2, L2, b1, b2, b3, b4, b5, b6, b7, b8⟩ := k.log
  refine ⟨K1 ++ K2, X1 ++ X2, L1 ++ L2, ?_, ?_, ?_, ?_, ?_, ?_, ?_, ?_⟩
  · rw [b1, a1, List.append_assoc]
  · rw [b2, a2, List.map_append, List.append_assoc]
  · rw [b3, a3, List.append_assoc]
  · rw [List.map_append, List.map_append, a4, b4]
  · intro ex hex
    rcases List.mem_append.1 hex with m | m
    · exact a5 ex m
    · exact b5 ex m
  · rw [b6, a6, List.append_assoc]
  · rw [List.map_append, List.map_append]
    exact a7.append b7
  · rw [List.length_append]
    omega

theorem spawnPowerUp_log (rand : Nat → ℚ) (x y : ℚ) (l : List PowerUp) (t : Tally) :
    (spawnPowerUp rand x y l t).2.kills = t.kills ∧
    (spawnPowerUp rand x y l t).2.spawnCalls = t.spawnCalls ++ [(x, y)] ∧
    ∃ m, (spawnPowerUp rand x y l t).1 = l ++ m ∧
      (m.map fun u => (u.x, u.y)).Sublist [(x, y)] := by
  unfold spawnPowerUp
  split
  · exact ⟨rfl, rfl, _, rfl, List.Sublist.refl _⟩
  · exact ⟨rfl, rfl, [], by simp, by simp⟩

theorem Enemy.update_log (rand : Nat → ℚ) (e : Enemy) (bs : List Bullet) (t : Tally) :
    (Enemy.update rand e bs t).2.2.kills = t.kills ∧
    (Enemy.update rand e bs t).2.2.spawnCalls = t.spawnCalls := by
  unfold Enemy.update
  dsimp only
  split <;> simp

theorem bodyHit_kills (rand : Nat → ℚ) (i : Nat) (e : Enemy) (w : World) (t : Tally) :
    KillsRel w t (bodyHit rand i e w t).1 (bodyHit rand i e w t).2 := by
  obtain ⟨s1, s2, m, s3, s4⟩ := spawnPowerUp_log rand (e.x + e.width / 2) (e.y + e.height / 2)
    w.powerUps (Explosion.new (e.x + e.width / 2) (e.y + e.height / 2) rand t).2
  obtain ⟨c1, c2, -⟩ := spawnPowerUp_tally rand (e.x + e.width / 2) (e.y + e.height / 2)
    w.powerUps (Explosion.new (e.x + e.width / 2) (e.y + e.height / 2) rand t).2
  obtain ⟨x1, x2, -⟩ := Explosion.new_tally (e.x + e.width / 2) (e.y + e.height / 2) rand t
  refine ⟨[e], [(Explosion.new (e.x + e.width / 2) (e.y + e.height / 2) rand t).1], m,
    ?_, ?_, rfl, rfl, ?_, s3, ?_, ?_⟩
  · simp only [bodyHit]
    rw [s1]
    rfl
  · simp only [bodyHit]
    rw [s2]
    rfl
  · intro ex hex
    rw [List.mem_singleton.1 hex]
    rfl
  · exact s4
  · simp only [bodyHit, List.length_singleton]
    rw [c1, c2, x1, x2]
    omega

theorem bulletHit_kills (rand : Nat → ℚ) (i j : Nat) (e : Enemy) (w : World) (t : Tally) :
    KillsRel w t (bulletHit rand i j e w t).1 (bulletHit rand i j e w t).2 := by
  obtain ⟨s1, s2, m, s3, s4⟩ := spawnPowerUp_log rand (e.x + e.width / 2) (e.y + e.height / 2)
    w.powerUps (Explosion.new (e.x + e.width / 2) (e.y + e.height / 2) rand t).2
  obtain ⟨c1, c2, -⟩ := spawnPowerUp_tally rand (e.x + e.width / 2) (e.y + e.height / 2)
    w.powerUps (Explosion.new (e.x + e.width / 2) (e.y + e.height / 2) rand t).2
  obtain ⟨x1, x2, -⟩ := Explosion.new_tally (e.x + e.width / 2) (e.y + e.height / 2) rand t
  refine ⟨[e], [(Explosion.new (e.x + e.width / 2) (e.y + e.height / 2) rand t).1], m,
    ?_, ?_, rfl, rfl, ?_, s3, ?_, ?_⟩
  · simp only [bulletHit]
    rw [s1]
    rfl
  · simp only [bulletHit]
    rw [s2]
    rfl
  · intro ex hex
    rw [List.mem_singleton.1 hex]
    rfl
  · exact s4
  · simp only [bulletHit, List.length_singleton]
    rw [c1, c2, x1, x2]
    omega

/-- The enemy loop, from any index: what it pushes and logs is one explosion and one
call of `spawnPowerUp` at the centre of each enemy it removes by a collision. -/
theorem updateEnemies_kills (rand : Nat → ℚ) (p : Player) (i : Nat) :
    ∀ (w : World) (t : Tally) (ret : Bool) (w1 : World) (t1 : Tally),
      updateEnemies rand p i w t = some (ret, w1, t1) → KillsRel w t w1 t1 := by
  induction i with
  | zero =>
    intro w t ret w1 t1 h
    simp only [updateEnemies, Option.some.injEq, Prod.mk.injEq] at h
    obtain ⟨-, rfl, rfl⟩ := h
    exact KillsRel.refl_kills w t
  | succ i ih =>
    intro w t ret w1 t1 h
    rw [updateEnemies] at h
    cases he : w.enemies[i]? with
    | none =>
      rw [he] at h
      cases h
    | some e0 =>
      rw [he] at h
      simp only [] at h
      obtain ⟨u1, u2⟩ := Enemy.update_log rand e0 w.bullets t
      obtain ⟨v1, v2, -⟩ := Enemy.update_tally rand e0 w.bullets t
      generalize Enemy.update rand e0 w.bullets t = r at u1 u2 v1 v2 h
      have R1 : KillsRel w t { w with enemies := w.enemies.set i r.1, bullets := r.2.1 } r.2.2 :=
        KillsRel.of_same u1 u2 rfl rfl v1 v2
      by_cases hc : checkCollision p.getBounds r.1.getBounds = true
      · rw [if_pos hc] at h
        have R2 := bodyHit_kills rand i r.1
          { w with enemies := w.enemies.set i r.1, bullets := r.2.1 } r.2.2
        generalize bodyHit rand i r.1
          { w with enemies := w.enemies.set i r.1, bullets := r.2.1 } r.2.2 = hit at R2 h
        by_cases hz : hit.1.health ≤ 0
        · rw [if_pos hz] at h
          simp only [Option.some.injEq, Prod.mk.injEq] at h
          obtain ⟨-, rfl, rfl⟩ := h
          exact R1.trans_kills (R2.trans_kills (KillsRel.of_same rfl rfl rfl rfl rfl rfl))
        · rw [if_neg hz] at h
          exact R1.trans_kills (R2.trans_kills (ih _ _ _ _ _ h))
      · rw [if_neg hc] at h
        by_cases ho : r.1.isOffScreen w.canvasHeight = true
        · rw [if_pos ho] at h
          refine KillsRel.trans_kills ?_ (ih _ _ _ _ _ h)
          exact KillsRel.of_same u1 u2 rfl rfl v1 v2
        · rw [if_neg ho] at h
          exact R1.trans_kills (ih _ _ _ _ _ h)

/-- The inner loop of the collision phase, from any index. -/
theorem hitEnemies_kills (rand : Nat → ℚ) (i : Nat) (b : Bullet) (j : Nat) :
    ∀ (w : World) (t : Tally) (w1 : World) (t1 : Tally),
      hitEnemies rand i b j w t = some (w1, t1) → KillsRel w t w1 t1 := by
  induction j with
  | zero =>
    intro w t w1 t1 h
    simp only [hitEnemies, Option.some.injEq, Prod.mk.injEq] at h
    obtain ⟨rfl, rfl⟩ := h
    exact KillsRel.refl_kills w t
  | succ j ih =>
    intro w t w1 t1 h
    rw [hitEnemies] at h
    cases he : w.enemies[j]? with
    | none =>
      rw [he] at h
      cases h
    | some e =>
      rw [he] at h
      simp only [] at h
      by_cases hc : checkCollision b.getBounds e.getBounds = true
      · rw [if_pos hc] at h
        have R := bulletHit_kills rand i j e w t
        generalize bulletHit rand i j e w t = r at R h
        simp only [Option.some.injEq] at h
        subst h
        exact R
      · rw [if_neg hc] at h
        exact ih _ _ _ _ h

/-- The bullet-collision loop, from any index. -/
theorem resolveBullets_kills (rand : Nat → ℚ) (p : Player) (i : Nat) :
    ∀ (w : World) (t : Tally) (ret : Bool) (w1 : World) (t1 : Tally),
      resolveBullets rand p i w t = some (ret, w1, t1) → KillsRel w t w1 t1 := by
  induction i with
  | zero =>
    intro w t ret w1 t1 h
    simp only [resolveBullets, Option.some.injEq, Prod.mk.injEq] at h
    obtain ⟨-, rfl, rfl⟩ := h
    exact KillsRel.refl_kills w t
  | succ i ih =>
    intro w t ret w1 t1 h
    rw [resolveBullets] at h
    cases hb : w.bullets[i]? with
    | none =>
      rw [hb] at h
      cases h
    | some b =>
      rw [hb] at h
      simp only [] at h
      by_cases hdir : b.direction = -1
      · rw [if_pos hdir] at h
        cases hh : hitEnemies rand i b w.enemies.length w t with
        | none =>
          rw [hh] at h
          cases h
        | some r =>
          rw [hh] at h
          simp only [] at h
          exact (hitEnemies_kills rand i b _ w t r.1 r.2 hh).trans_kills (ih _ _ _ _ _ h)
      · rw [if_neg hdir] at h
        by_cases hc : checkCollision b.getBounds p.getBounds = true
        · rw [if_pos hc] at h
          have R : KillsRel w t (playerHit i w t).1 (playerHit i w t).2 :=
            KillsRel.of_same rfl rfl rfl rfl rfl rfl
          generalize playerHit i w t = hit at R h
          by_cases hz : hit.1.health ≤ 0
          · rw [if_pos hz] at h
            simp only [Option.some.injEq, Prod.mk.injEq] at h
            obtain ⟨-, rfl, rfl⟩ := h
            exact R.trans_kills (KillsRel.of_same rfl rfl rfl rfl rfl rfl)
          · rw [if_neg hz] at h
            exact R.trans_kills (ih _ _ _ _ _ h)
        · rw [if_neg hc] at h
          exact ih _ _ _ _ _ h

/-- The power-up loop, from any index, removes no enemy and does not call
`spawnPowerUp`; it only appends explosions. -/
theorem updatePowerUps_log (rand : Nat → ℚ) (i : Nat) :
    ∀ (w : World) (t : Tally) (w1 : World) (t1 : Tally),
      updatePowerUps rand i w t = some (w1, t1) →
      t1.kills = t.kills ∧ t1.spawnCalls = t.spawnCalls ∧ t1.bodyKills = t.bodyKills ∧
      t1.bulletKills = t.bulletKills ∧ w1.gameState = w.gameState ∧
      ∃ P, w1.explosions = w.explosions ++ P := by
  induction i with
  | zero =>
    intro w t w1 t1 h
    simp only [updatePowerUps, Option.some.injEq, Prod.mk.injEq] at h
    obtain ⟨rfl, rfl⟩ := h
    exact ⟨rfl, rfl, rfl, rfl, rfl, [], by simp⟩
  | succ i ih =>
    intro w t w1 t1 h
    rw [updatePowerUps] at h
    cases hu : w.powerUps[i]? with
    | none =>
      rw [hu] at h
      cases h
    | some u =>
      cases hq : w.player with
      | none =>
        rw [hu, hq] at h
        cases h
      | some q =>
        rw [hu, hq] at h
        simp only [] at h
        by_cases hc : expandedCollision u.update.getBounds q.getBounds = true
        · rw [if_pos hc] at h
          obtain ⟨a1, a2, a3, a4, a5, P, a6⟩ := ih _ _ _ _ h
          refine ⟨a1, a2, a3, a4, a5,
            (Explosion.new (u.update.x + u.update.width / 2)
              (u.update.y + u.update.height / 2) rand t).1 :: P, ?_⟩
          rw [a6]
          simp [collect]
        · rw [if_neg hc] at h
          by_cases ho : u.update.isOffScreen w.canvasHeight = true
          · rw [if_pos ho] at h
            obtain ⟨a1, a2, a3, a4, a5, P, a6⟩ := ih _ _ _ _ h
            exact ⟨a1, a2, a3, a4, a5, P, a6⟩
          · rw [if_neg ho] at h
            obtain ⟨a1, a2, a3, a4, a5, P, a6⟩ := ih _ _ _ _ h
            exact ⟨a1, a2, a3, a4, a5, P, a6⟩

/-- Lines 465-509: what the enemy loop pushes and logs, from the start of the step. -/
theorem toCollisionPhase_kills (hypot : ℚ → ℚ → ℚ) (deltaTime : ℚ) (rand : Nat → ℚ)
    (p0 : Player) (w : World) (ret : Bool) (w4 : World) (t4 : Tally)
    (h : toCollisionPhase hypot deltaTime rand p0 w = some (ret, w4, t4)) :
    KillsRel w Tally.zero w4 t4 := by
  unfold toCollisionPhase at h
  simp only [] at h
  generalize p0.update hypot w.keyState w.isTouching w.touchX w.touchY w.canvasWidth
    w.canvasHeight deltaTime = pl at h
  have R0 : KillsRel w Tally.zero
      (spawnEnemies rand deltaTime { w with player := some pl } Tally.zero).1
      (spawnEnemies rand deltaTime { w with player := some pl } Tally.zero).2 := by
    unfold spawnEnemies
    split
    · exact KillsRel.of_same rfl rfl rfl rfl rfl rfl
    · exact KillsRel.of_same rfl rfl rfl rfl rfl rfl
  generalize spawnEnemies rand deltaTime { w with player := some pl } Tally.zero = s at R0 h
  cases hb : updateBullets s.1.canvasHeight s.1.bullets.length s.1.bullets with
  | none =>
    rw [hb] at h
    cases h
  | some bullets =>
    rw [hb] at h
    simp only [] at h
    have R1 : KillsRel s.1 s.2 { s.1 with bullets := bullets } s.2 :=
      KillsRel.of_same rfl rfl rfl rfl rfl rfl
    exact R0.trans_kills (R1.trans_kills (updateEnemies_kills rand pl _ _ _ _ _ _ h))

/-- A whole step in mode `playing`: the log of the calls of `spawnPowerUp` is the list
of the centres of the enemies removed by a collision, in the order of their removal,
and so is the list of the positions of the explosions `X` that the two collision loops
have pushed.  In a step that the game over aborts they are the last explosions of the
pool; in a completed step they have gone through the explosion loop with the others,
and the explosions `P` of the power-up loop follow them. -/
theorem updateGameAux_kills (hypot : ℚ → ℚ → ℚ) (deltaTime : ℚ) (rand : Nat → ℚ)
    (w : World) (p0 : Player) (hg : w.gameState = GameState.playing)
    (hp : w.player = some p0) :
    ∃ w1 t1 X, updateGameAux hypot deltaTime rand w = some (w1, t1) ∧
      t1.kills.length = t1.bodyKills + t1.bulletKills ∧
      t1.spawnCalls = t1.kills.map Enemy.centre ∧
      X.map (fun ex => (ex.x, ex.y)) = t1.kills.map Enemy.centre ∧
      (∀ ex ∈ X, ex.life = 30) ∧
      ((w1.gameState = GameState.gameOver ∧ w1.explosions = w.explosions ++ X) ∨
        ∃ P, w1.explosions =
          (w.explosions.map Explosion.update).filter (fun ex => !ex.isDead) ++
            X.map Explosion.update ++ P) := by
  obtain ⟨ret, w4, t4, h4, T⟩ := toCollisionPhase_spec hypot deltaTime rand p0 w
  have R4 := toCollisionPhase_kills hypot deltaTime rand p0 w ret w4 t4 h4
  cases ret with
  | true =>
    obtain ⟨haux, -⟩ := updateGameAux_returned hypot deltaTime rand w p0 w4 t4 hg hp h4
    obtain ⟨K, X, L, a1, a2, a3, a4, a5, -, -, a8⟩ := R4.log
    simp only [Tally.zero, List.nil_append, Nat.add_zero, Nat.zero_add] at a1 a2 a8
    refine ⟨w4, t4, X, haux, by rw [a1]; omega, by rw [a2, a1], by rw [a4, a1], a5,
      Or.inl ⟨(T.returned rfl).1, a3⟩⟩
  | false =>
    obtain ⟨haux, -⟩ := updateGameAux_completed hypot deltaTime rand w p0 w4 t4 hg hp h4
    generalize p0.update hypot w.keyState w.isTouching w.touchX w.touchY w.canvasWidth
      w.canvasHeight deltaTime = pl at haux T
    obtain ⟨w7, t7, hrun7, -⟩ := fromCollisionPhase_spec rand pl w4 t4 T.player
    obtain ⟨ret5, w5, t5, hres, -, g5, -⟩ :=
      resolveBullets_spec rand pl w4.bullets [] w4 t4 (by simp)
    have R5 := resolveBullets_kills rand pl _ w4 t4 ret5 w5 t5 hres
    obtain ⟨K, X, L, a1, a2, a3, a4, a5, -, -, a8⟩ := (R4.trans_kills R5).log
    simp only [Tally.zero, List.nil_append, Nat.add_zero, Nat.zero_add] at a1 a2 a8
    unfold fromCollisionPhase at hrun7
    rw [hres] at hrun7
    cases ret5 with
    | true =>
      simp only [Option.some.injEq, Prod.mk.injEq] at hrun7
      obtain ⟨rfl, rfl⟩ := hrun7
      refine ⟨w5, t5, X, haux.trans (by unfold fromCollisionPhase; rw [hres]),
        by rw [a1]; omega, by rw [a2, a1], by rw [a4, a1], a5, Or.inl ⟨(g5 rfl).1, a3⟩⟩
    | false =>
      simp only [] at hrun7
      have hx := updateExplosions_append w5.explosions []
      rw [List.append_nil] at hx
      rw [hx] at hrun7
      simp only [] at hrun7
      obtain ⟨b1, b2, b3, b4, -, P, b6⟩ := updatePowerUps_log rand _ _ _ _ _ hrun7
      have hkeep : (X.map Explosion.update).filter (fun ex => !ex.isDead) =
          X.map Explosion.update := by
        rw [List.filter_eq_self]
        intro ex hex
        obtain ⟨x, hx1, rfl⟩ := List.mem_map.1 hex
        have := a5 x hx1
        simp [Explosion.isDead, Explosion.update, this]
      have hfin : fromCollisionPhase rand pl w4 t4 = some (w7, t7) := by
        unfold fromCollisionPhase
        rw [hres]
        simp only []
        rw [hx]
        exact hrun7
      refine ⟨w7, t7, X, haux.trans hfin, by rw [b1, b3, b4, a1]; omega,
        by rw [b2, b1, a2, a1], by rw [b1, a4, a1], a5, Or.inr ⟨P, ?_⟩⟩
      rw [b6]
      show ((w5.explosions.map Explosion.update).filter (fun ex => !ex.isDead) ++ []) ++ P = _
      rw [List.append_nil, a3, List.map_append, List.filter_append, hkeep]

/-! ## Claims -/

/-- C1, as stated, fails: from a fresh session, after 232 frames in which the player
neither moves nor shoots, one more `updateGame(100)` leaves the stored `health` at
`-5`, below 0. -/
theorem health_below_zero_reachable :
    ∃ w, Reachable hypotQ w ∧
      (updateGame hypotQ 100 idleRand w).map (fun w1 => w1.health) = some (-5) := by
  have key := idle_run
  have hsplit : idleFrames 233 = idleFrames 232 ++ [Event.update 100 idleRand] :=
    List.replicate_succ' 232 _
  rw [hsplit, run_append] at key
  cases hw : run hypotQ (idleFrames 232) freshWorld with
  | none => simp [hw] at key
  | some w =>
    refine ⟨w, freshWorld_reachable.of_run _ hw, ?_⟩
    rw [hw] at key
    simp only [Option.some_bind, run, handle] at key
    cases hu : updateGame hypotQ 100 idleRand w with
    | none => simp [hu] at key
    | some w1 =>
      rw [hu] at key
      simp only [Option.map_some', Option.some.injEq, Prod.mk.injEq] at key
      simp [key.1]

/-- C1, amended: in every world reachable in a session (start and restart, any
`updateGame` steps with any `deltaTime` and random draws, any key, pointer and resize
events, any shots), `updateGame` returns and leaves the stored `health` within
`[-5, 100]`; the value `updateUI` displays is within `[0, 100]`. -/
theorem health_bounds (hypot : ℚ → ℚ → ℚ) (w : World) (deltaTime : ℚ) (rand : Nat → ℚ)
    (h : Reachable hypot w) :
    ∃ w1, updateGame hypot deltaTime rand w = some w1 ∧ -5 ≤ w1.health ∧ w1.health ≤ 100 ∧
      0 ≤ clampedHealth w1.health ∧ clampedHealth w1.health ≤ 100 := by
  have I := h.invariant
  obtain ⟨w1, t1, hrun⟩ := updateGameAux_total hypot deltaTime rand w
    (fun g => I.player (by simp [g]))
  have hu : updateGame hypot deltaTime rand w = some w1 := updateGame_eq_some.2 ⟨t1, hrun⟩
  have I1 := I.of_update hu
  refine ⟨w1, hu, I1.health_ge, I1.health_le, ?_, ?_⟩
  · simp [clampedHealth]
  · simp [clampedHealth]

/-- Witness of `health_bounds`: the first frame of a fresh session. -/
theorem health_bounds_witness :
    Reachable hypotQ freshWorld ∧
    ∃ w1, updateGame hypotQ 16 idleRand freshWorld = some w1 ∧ -5 ≤ w1.health ∧
      w1.health ≤ 100 ∧ 0 ≤ clampedHealth w1.health ∧ clampedHealth w1.health ≤ 100 :=
  ⟨freshWorld_reachable, health_bounds hypotQ freshWorld 16 idleRand freshWorld_reachable⟩

/-- C2: the start and restart commands reset the mode, `score`, `health`, the spawn
timer, the four pools, the player, the key flags and the pointer flag, but they leave
`enemySpawnInterval` as it is: restarting after the game over of `idle_run` gives a
session whose interval is 1760, not 2000. -/
theorem restart_keeps_spawn_interval :
    (∀ w : World,
      (startGame w).gameState = GameState.playing ∧ (startGame w).score = 0 ∧
      (startGame w).health = 100 ∧ (startGame w).enemySpawnTimer = 0 ∧
      (startGame w).bullets = [] ∧ (startGame w).enemies = [] ∧
      (startGame w).explosions = [] ∧ (startGame w).powerUps = [] ∧
      (startGame w).player = some (Player.new w.canvasWidth w.canvasHeight) ∧
      (Player.new w.canvasWidth w.canvasHeight).fireRate = 300 ∧
      (Player.new w.canvasWidth w.canvasHeight).dualShot = false ∧
      (startGame w).keyState = ⟨false, false, false, false⟩ ∧
      (startGame w).isTouching = false ∧
      (startGame w).enemySpawnInterval = w.enemySpawnInterval) ∧
    ∃ w, Reachable hypotQ w ∧ w.gameState = GameState.gameOver ∧
      handle hypotQ Event.start w = some (startGame w) ∧
      (startGame w).enemySpawnInterval = 1760 := by
  refine ⟨fun w => ⟨rfl, rfl, rfl, rfl, rfl, rfl, rfl, rfl, rfl, rfl, rfl, rfl, rfl, rfl⟩, ?_⟩
  have key := idle_run
  cases hw : run hypotQ (idleFrames 233) freshWorld with
  | none => simp [hw] at key
  | some w =>
    rw [hw] at key
    simp only [Option.map_some', Option.some.injEq, Prod.mk.injEq] at key
    exact ⟨w, freshWorld_reachable.of_run _ hw, key.2.1, rfl, key.2.2⟩

/-- C3: in a world whose mode is not `playing` (the menu or the game over),
`updateGame` returns the world unchanged, whatever `deltaTime` and the random draws;
hence any number of steps leaves it unchanged, and the game over persists. -/
theorem updateGame_noop_unless_playing (hypot : ℚ → ℚ → ℚ) (w : World)
    (h : w.gameState ≠ GameState.playing) :
    (∀ (deltaTime : ℚ) (rand : Nat → ℚ), updateGame hypot deltaTime rand w = some w) ∧
    ∀ steps : List (ℚ × (Nat → ℚ)),
      run hypot (steps.map fun s => Event.update s.1 s.2) w = some w := by
  have one : ∀ (deltaTime : ℚ) (rand : Nat → ℚ), updateGame hypot deltaTime rand w = some w := by
    intro deltaTime rand
    simp [updateGame, updateGameAux, h]
  refine ⟨one, fun steps => ?_⟩
  induction steps with
  | nil => rfl
  | cons s l ih =>
    simp only [List.map_cons, run, handle, one]
    exact ih

/-- Witness of `updateGame_noop_unless_playing`: the menu of the loaded script. -/
theorem updateGame_noop_unless_playing_witness :
    (World.initial 400 250).gameState ≠ GameState.playing ∧
    (∀ (deltaTime : ℚ) (rand : Nat → ℚ),
      updateGame hypotQ deltaTime rand (World.initial 400 250) = some (World.initial 400 250)) ∧
    ∀ steps : List (ℚ × (Nat → ℚ)),
      run hypotQ (steps.map fun s => Event.update s.1 s.2) (World.initial 400 250) =
        some (World.initial 400 250) :=
  ⟨by decide, updateGame_noop_unless_playing hypotQ (World.initial 400 250) (by decide)⟩

/-- C4: in a `playing` world with `health ≤ 10`, if some enemy of the pool the spawn
scheduler leaves overlaps the updated player once it has advanced, then `updateGame`
ends in mode `gameOver` with `health ≤ 0` and nothing after the enemy loop has run:
`score` is unchanged, the bullets are the advanced on-screen bullets followed by what
enemies fired in this step, and the explosions and power-ups of before are all there,
unchanged and in place, followed by those the enemy loop pushed. -/
theorem body_collision_ends_game (hypot : ℚ → ℚ → ℚ) (deltaTime : ℚ) (rand : Nat → ℚ)
    (w : World) (p0 : Player) (hg : w.gameState = GameState.playing)
    (hp : w.player = some p0) (hh : w.health ≤ 10)
    (hex : ∃ e ∈ (spawnEnemies rand deltaTime w Tally.zero).1.enemies,
      checkCollision
        (p0.update hypot w.keyState w.isTouching w.touchX w.touchY w.canvasWidth
          w.canvasHeight deltaTime).getBounds e.advancedBounds = true) :
    ∃ w1, updateGame hypot deltaTime rand w = some w1 ∧
      w1.gameState = GameState.gameOver ∧ w1.health ≤ 0 ∧ w1.score = w.score ∧
      (∃ l, w1.bullets =
        (w.bullets.map Bullet.update).filter (fun b => !b.isOffScreen w.canvasHeight) ++ l) ∧
      (∃ l, w1.explosions = w.explosions ++ l) ∧
      (∃ l, w1.powerUps = w.powerUps ++ l) := by
  obtain ⟨w4, t4, hret⟩ := toCollisionPhase_returns_of_hit hypot deltaTime rand p0 w hh hex
  obtain ⟨ret, w4a, t4a, hrun, T⟩ := toCollisionPhase_spec hypot deltaTime rand p0 w
  rw [hret] at hrun
  cases hrun
  obtain ⟨g, z, -⟩ := T.returned rfl
  refine ⟨w4, ?_, g, z, T.score, T.bullets, T.explosions, T.powerUps⟩
  simp [updateGame, updateGameAux, hg, hp, hret]

/-- Witness of `body_collision_ends_game`: with `health = 10`, the enemy right above
the player reaches it on this frame. -/
theorem body_collision_ends_game_witness :
    lastStandWorld.gameState = GameState.playing ∧
    lastStandWorld.player = some (Player.new 400 250) ∧ lastStandWorld.health ≤ 10 ∧
    ∃ w1, updateGame hypotQ 16 zeroRand lastStandWorld = some w1 ∧
      w1.gameState = GameState.gameOver ∧ w1.health ≤ 0 ∧ w1.score = lastStandWorld.score ∧
      (∃ l, w1.bullets = (lastStandWorld.bullets.map Bullet.update).filter
        (fun b => !b.isOffScreen lastStandWorld.canvasHeight) ++ l) ∧
      (∃ l, w1.explosions = lastStandWorld.explosions ++ l) ∧
      (∃ l, w1.powerUps = lastStandWorld.powerUps ++ l) :=
  ⟨rfl, rfl, by decide,
    body_collision_ends_game hypotQ 16 zeroRand lastStandWorld (Player.new 400 250) rfl rfl
      (by decide) ⟨sampleEnemy 155 16, by decide!, by decide!⟩⟩

/-- C5, as stated, fails: in `killWorld` (one player bullet, one enemy, no explosion,
no power-up; the bullet overlaps the enemy at the collision phase and the enemy does
not touch the player) the kill spawns a power-up at the enemy's centre, which the
power-up loop of the same step finds within reach of the player: it is collected and
a second explosion is pushed, so `explosions.length = 2`. -/
theorem kill_then_collect_two_explosions :
    killWorld.gameState = GameState.playing ∧
    killWorld.player = some (Player.new 400 250) ∧
    killWorld.bullets = [Bullet.new 200 190 (-1)] ∧
    killWorld.enemies = [sampleEnemy 149 1472] ∧
    killWorld.explosions = [] ∧ killWorld.powerUps = [] ∧
    (toCollisionPhase hypotQ 16 zeroRand (Player.new 400 250) killWorld).map
      (fun r => (r.1, r.2.1.bullets, r.2.1.enemies)) =
      some (false, [Bullet.new 200 182 (-1)], [sampleEnemy 151 1488]) ∧
    (toCollisionPhase hypotQ 16 zeroRand (Player.new 400 250) killWorld).map
      (fun r => (r.2.1.explosions, r.2.1.powerUps)) = some ([], []) ∧
    checkCollision (Bullet.new 200 182 (-1)).getBounds (sampleEnemy 151 1488).getBounds = true ∧
    checkCollision (Player.new 400 250).getBounds (sampleEnemy 151 1488).getBounds = false ∧
    (updateGame hypotQ 16 zeroRand killWorld).map (fun w1 => (w1.bullets, w1.enemies)) =
      some ([], []) ∧
    (updateGame hypotQ 16 zeroRand killWorld).map
      (fun w1 => (w1.score, w1.explosions.length, w1.powerUps.length)) = some (10, 2, 0) := by
  refine ⟨rfl, rfl, rfl, rfl, rfl, rfl, ?_, ?_, ?_, ?_, ?_, ?_⟩
  · decide!
  · decide!
  · decide!
  · decide!
  · decide!
  · decide!

/-- C5, amended: when the world the bullet-collision loop finds holds exactly one
bullet, a player bullet, and exactly one enemy, whose boxes overlap, and no explosion
and no power-up, then after `updateGame` the bullet and the enemy are both removed and
`score` has risen by exactly 10; the kill has pushed one explosion, and a power-up it
spawned is either still in the pool or was collected (or left the field) in the same
step, a collection pushing a second explosion: `explosions.length` is 1 or 2,
`powerUps.length` is 0 or 1, and they add up to at most 2. -/
theorem player_bullet_kill (hypot : ℚ → ℚ → ℚ) (deltaTime : ℚ) (rand : Nat → ℚ)
    (w : World) (p0 : Player) (w4 : World) (t4 : Tally) (b : Bullet) (e : Enemy)
    (hg : w.gameState = GameState.playing) (hp : w.player = some p0)
    (h4 : toCollisionPhase hypot deltaTime rand p0 w = some (false, w4, t4))
    (hb : w4.bullets = [b]) (hdir : b.direction = -1) (he : w4.enemies = [e])
    (hc : checkCollision b.getBounds e.getBounds = true)
    (hx : w4.explosions = []) (hu : w4.powerUps = []) :
    ∃ w1, updateGame hypot deltaTime rand w = some w1 ∧ w1.bullets = [] ∧ w1.enemies = [] ∧
      w1.score = w.score + 10 ∧ 1 ≤ w1.explosions.length ∧ w1.powerUps.length ≤ 1 ∧
      w1.explosions.length + w1.powerUps.length ≤ 2 := by
  obtain ⟨haux, T⟩ := updateGameAux_completed hypot deltaTime rand w p0 w4 t4 hg hp h4
  generalize p0.update hypot w.keyState w.isTouching w.touchX w.touchY w.canvasWidth
    w.canvasHeight deltaTime = pl at haux T
  have hhit : hitEnemies rand 0 b w4.enemies.length w4 t4 =
      some (bulletHit rand 0 0 e w4 t4) := by
    have := hitEnemies_highest rand 0 b [] e hc [] [] w4 t4 (by simpa using he) (by simp)
    simpa [he] using this
  have hres : resolveBullets rand pl w4.bullets.length w4 t4 =
      some (false, (bulletHit rand 0 0 e w4 t4).1, (bulletHit rand 0 0 e w4 t4).2) := by
    have h1 : w4.bullets.length = 0 + 1 := by rw [hb]; rfl
    rw [h1, resolveBullets]
    have h2 : w4.bullets[0]? = some b := by rw [hb]; rfl
    rw [h2]
    simp only []
    rw [if_pos hdir, hhit]
    rfl
  obtain ⟨m, hm, hmlen⟩ := spawnPowerUp_append rand (e.x + e.width / 2) (e.y + e.height / 2)
    w4.powerUps (Explosion.new (e.x + e.width / 2) (e.y + e.height / 2) rand t4).2
  have k1 : (bulletHit rand 0 0 e w4 t4).1.bullets = [] := by simp [bulletHit, hb]
  have k2 : (bulletHit rand 0 0 e w4 t4).1.enemies = [] := by simp [bulletHit, he]
  have k3 : (bulletHit rand 0 0 e w4 t4).1.score = w4.score + 10 := rfl
  have k4 : (bulletHit rand 0 0 e w4 t4).1.explosions =
      [(Explosion.new (e.x + e.width / 2) (e.y + e.height / 2) rand t4).1] := by
    simp [bulletHit, hx]
  have k5 : (bulletHit rand 0 0 e w4 t4).1.powerUps.length ≤ 1 := by
    simp only [bulletHit]
    rw [hm, hu]
    simpa using hmlen
  have k6 : (bulletHit rand 0 0 e w4 t4).1.player = some pl := T.player
  generalize bulletHit rand 0 0 e w4 t4 = r at hres k1 k2 k3 k4 k5 k6
  have hexp : updateExplosions r.1.explosions.length r.1.explosions =
      some [(Explosion.new (e.x + e.width / 2) (e.y + e.height / 2) rand t4).1.update] := by
    rw [k4]
    simp [updateExplosions, Explosion.update, Explosion.isDead, Explosion.new]
  obtain ⟨w7, t7, hrun7, P⟩ := updatePowerUps_spec rand r.1.powerUps []
    { r.1 with explosions :=
        [(Explosion.new (e.x + e.width / 2) (e.y + e.height / 2) rand t4).1.update] } r.2
    (by simp) ⟨pl, k6⟩
  have hfrom : fromCollisionPhase rand pl w4 t4 = some (w7, t7) := by
    unfold fromCollisionPhase
    rw [hres]
    simp only []
    rw [hexp]
    exact hrun7
  obtain ⟨l, hl, hlen⟩ := P.explosions
  have pb := P.bullets
  have pe := P.enemies
  have ps := P.score
  simp only [] at pb pe ps hl hlen
  refine ⟨w7, updateGame_eq_some.2 ⟨t7, haux.trans hfrom⟩, pb.trans k1, pe.trans k2, ?_, ?_, ?_, ?_⟩
  · rw [ps, k3, T.score]
  · rw [hl]; simp
  · omega
  · rw [hl]; simp; omega

/-- Witness of `player_bullet_kill`: the step from `killWorld`. -/
theorem player_bullet_kill_witness :
    ∃ w1, updateGame hypotQ 16 zeroRand killWorld = some w1 ∧ w1.bullets = [] ∧
      w1.enemies = [] ∧ w1.score = killWorld.score + 10 ∧ 1 ≤ w1.explosions.length ∧
      w1.powerUps.length ≤ 1 ∧ w1.explosions.length + w1.powerUps.length ≤ 2 :=
  player_bullet_kill hypotQ 16 zeroRand killWorld (Player.new 400 250) killWorldAtCollisions
    Tally.zero (Bullet.new 200 182 (-1)) (sampleEnemy 151 1488) rfl rfl (by decide!) rfl rfl rfl
    (by decide!) rfl rfl

/-- C6, as stated, fails when the game over aborts the collision phase before the
player bullet is reached: in `ambushWorld`, with `health = 5`, the player bullet
overlaps both enemies, but the enemy bullet of higher index hits the player first and
line 536 returns: no enemy is removed and `score` stays 0. -/
theorem aborted_step_kills_nothing :
    ambushWorld.gameState = GameState.playing ∧
    toCollisionPhase hypotQ 16 zeroRand (Player.new 400 250) ambushWorld =
      some (false, ambushWorldAtCollisions, Tally.zero) ∧
    checkCollision (Bullet.new 200 182 (-1)).getBounds (sampleEnemy 151 1488).getBounds = true ∧
    checkCollision (Bullet.new 200 182 (-1)).getBounds (sampleEnemy 153 1216).getBounds = true ∧
    (updateGame hypotQ 16 zeroRand ambushWorld).map
      (fun w1 => (w1.gameState, w1.score, w1.enemies)) =
      some (GameState.gameOver, 0, [sampleEnemy 151 1488, sampleEnemy 153 1216]) := by
  refine ⟨rfl, ?_, ?_, ?_, ?_⟩
  · decide!
  · decide!
  · decide!
  · decide!

/-- C6, amended: in every `updateGame` step that reaches the bullet-collision loop, with
`w4` the world that loop finds, the number of enemies the loop removes is at most the
number of player bullets in `w4`, and `score` rises by 10 times that number; when the
pool holds one player bullet, among any number of enemy bullets, that overlaps several
enemies, of which `e` is the one of highest index, then exactly `e` is removed and
`score` rises by exactly 10, unless the game over aborts the step before that bullet is
reached, in which case no enemy is removed and `score` is unchanged; in a step that
ends in mode `playing` it is the former. -/
theorem one_kill_per_player_bullet (hypot : ℚ → ℚ → ℚ) (deltaTime : ℚ) (rand : Nat → ℚ)
    (w : World) (p0 : Player) (w4 : World) (t4 : Tally)
    (hg : w.gameState = GameState.playing) (hp : w.player = some p0)
    (h4 : toCollisionPhase hypot deltaTime rand p0 w = some (false, w4, t4)) :
    ∃ w1, updateGame hypot deltaTime rand w = some w1 ∧
      w1.enemies.length ≤ w4.enemies.length ∧
      w4.enemies.length - w1.enemies.length ≤ w4.bullets.countP Bullet.isPlayerBullet ∧
      w1.score = w.score + 10 * ((w4.enemies.length - w1.enemies.length : Nat) : Int) ∧
      ∀ (B1 : List Bullet) (b : Bullet) (B2 : List Bullet) (E1 : List Enemy) (e : Enemy)
        (E2 : List Enemy),
        w4.bullets = B1 ++ b :: B2 → b.direction = -1 →
        (∀ y ∈ B1, y.direction ≠ -1) → (∀ y ∈ B2, y.direction ≠ -1) →
        w4.enemies = E1 ++ e :: E2 →
        checkCollision b.getBounds e.getBounds = true →
        (∀ x ∈ E2, checkCollision b.getBounds x.getBounds = false) →
        ((w1.enemies = E1 ++ E2 ∧ w1.score = w.score + 10) ∨
          (w1.gameState = GameState.gameOver ∧ w1.enemies = w4.enemies ∧
            w1.score = w.score)) ∧
        (w1.gameState = GameState.playing →
          w1.enemies = E1 ++ E2 ∧ w1.score = w.score + 10) := by
  obtain ⟨haux, T⟩ := updateGameAux_completed hypot deltaTime rand w p0 w4 t4 hg hp h4
  generalize p0.update hypot w.keyState w.isTouching w.touchX w.touchY w.canvasWidth
    w.canvasHeight deltaTime = pl at haux T
  obtain ⟨w7, t7, hrun7, F⟩ := fromCollisionPhase_spec rand pl w4 t4 T.player
  have f1 := F.enemies
  have f2 := F.kills_le
  have f3 := F.score
  have t1 := T.bulletKills
  have t2 := T.score
  rw [t1] at f1 f2 f3
  refine ⟨w7, updateGame_eq_some.2 ⟨t7, haux.trans hrun7⟩, by omega, by omega, ?_, ?_⟩
  · have : w4.enemies.length - w7.enemies.length = t7.bulletKills := by omega
    rw [this]
    omega
  · intro B1 b B2 E1 e E2 hb hdir hB1 hB2 he hc hno
    obtain ⟨ret, w5, t5, hres, hpl5, hcase⟩ :=
      resolveBullets_one_up rand pl w4 t4 B1 b B2 E1 e E2 hb hdir hB1 hB2 he hc hno
    have key : (w7.enemies = E1 ++ E2 ∧ w7.score = w.score + 10 ∧
          (ret = false → w7.gameState = GameState.playing)) ∨
        (w7.gameState = GameState.gameOver ∧ w7.enemies = w4.enemies ∧ w7.score = w.score) := by
      unfold fromCollisionPhase at hrun7
      rw [hres] at hrun7
      cases ret with
      | true =>
        simp only [Option.some.injEq, Prod.mk.injEq] at hrun7
        obtain ⟨rfl, rfl⟩ := hrun7
        rcases hcase with ⟨c1, c2, -⟩ | ⟨-, c2, c3, c4⟩
        · exact Or.inl ⟨c1, by rw [c2, t2], fun h => by cases h⟩
        · exact Or.inr ⟨c2, c3, by rw [c4, t2]⟩
      | false =>
        simp only [] at hrun7
        have hx := updateExplosions_append w5.explosions []
        rw [List.append_nil] at hx
        rw [hx] at hrun7
        simp only [] at hrun7
        obtain ⟨w8, t8, hrun8, P⟩ := updatePowerUps_spec rand w5.powerUps []
          { w5 with explosions :=
              (w5.explosions.map Explosion.update).filter (fun ex => !ex.isDead) ++ [] }
          t5 (by simp) ⟨pl, hpl5.trans T.player⟩
        rw [hrun8] at hrun7
        simp only [Option.some.injEq, Prod.mk.injEq] at hrun7
        obtain ⟨rfl, rfl⟩ := hrun7
        rcases hcase with ⟨c1, c2, c3⟩ | ⟨c0, -⟩
        · refine Or.inl ⟨P.enemies.trans c1, ?_, fun _ => ?_⟩
          · rw [P.score]
            show w5.score = w.score + 10
            rw [c2, t2]
          · rw [P.gameState]
            show w5.gameState = GameState.playing
            rw [c3 rfl, (T.completed rfl).1, hg]
        · cases c0
    rcases key with ⟨k1, k2, -⟩ | ⟨k1, k2, k3⟩
    · exact ⟨Or.inl ⟨k1, k2⟩, fun _ => ⟨k1, k2⟩⟩
    · refine ⟨Or.inr ⟨k1, k2, k3⟩, fun h => ?_⟩
      rw [k1] at h
      cases h

/-- Witness of `one_kill_per_player_bullet`: in `strayWorld` the player bullet overlaps
both enemies and an enemy bullet passes far from the player; the step ends in mode
`playing`, the enemy of index 1 is removed, the one of index 0 stays, and `score` is
10. -/
theorem one_kill_per_player_bullet_witness :
    checkCollision (Bullet.new 200 182 (-1)).getBounds (sampleEnemy 151 1488).getBounds = true ∧
    checkCollision (Bullet.new 200 182 (-1)).getBounds (sampleEnemy 153 1216).getBounds = true ∧
    ∃ w1, updateGame hypotQ 16 zeroRand strayWorld = some w1 ∧
      w1.enemies = [sampleEnemy 151 1488] ∧ w1.score = 10 := by
  obtain ⟨w1, h1, -, -, -, h5⟩ :=
    one_kill_per_player_bullet hypotQ 16 zeroRand strayWorld (Player.new 400 250)
      strayWorldAtCollisions Tally.zero rfl rfl (by decide!)
  have hmode : (updateGame hypotQ 16 zeroRand strayWorld).map (fun v => v.gameState) =
      some GameState.playing := by decide!
  rw [h1] at hmode
  obtain ⟨k1, k2⟩ := (h5 [] (Bullet.new 200 182 (-1)) [Bullet.new 100 108 1]
    [sampleEnemy 151 1488] (sampleEnemy 153 1216) [] rfl rfl (by simp) (by decide!) rfl
    (by decide!) (by simp)).2 (by simpa using hmode)
  exact ⟨by decide!, by decide!, w1, h1, k1, k2⟩

/-- C7: every `updateGame` call returns, completed or aborted, and with `bulletKills`,
`bodyKills` and `playerHits` the numbers of times it took the branches of lines
517-527, 490-503 and 530-538, `score` has risen by `10 * bulletKills` and `health` has
fallen by `10 * bodyKills + 5 * playerHits`.  These counts are the visible ones: the
enemy loop pushes `bodyKills` explosions, and when the step reaches the
bullet-collision loop, that loop removes `bulletKills` enemies and `playerHits` of the
enemy bullets that overlap the player. -/
theorem collision_accounting (hypot : ℚ → ℚ → ℚ) (deltaTime : ℚ) (rand : Nat → ℚ)
    (w : World) (h : w.gameState = GameState.playing → ∃ q, w.player = some q) :
    ∃ w1 t1, updateGameAux hypot deltaTime rand w = some (w1, t1) ∧
      updateGame hypot deltaTime rand w = some w1 ∧
      w1.score - w.score = 10 * (t1.bulletKills : Int) ∧
      w.health - w1.health = 10 * (t1.bodyKills : Int) + 5 * (t1.playerHits : Int) ∧
      (∀ p0 w4 t4, w.gameState = GameState.playing → w.player = some p0 →
        toCollisionPhase hypot deltaTime rand p0 w = some (true, w4, t4) →
        w1 = w4 ∧ t1.bulletKills = 0 ∧ t1.playerHits = 0 ∧
        w1.explosions.length = w.explosions.length + t1.bodyKills) ∧
      (∀ p0 w4 t4, w.gameState = GameState.playing → w.player = some p0 →
        toCollisionPhase hypot deltaTime rand p0 w = some (false, w4, t4) →
        w4.explosions.length = w.explosions.length + t1.bodyKills ∧
        w1.enemies.length + t1.bulletKills = w4.enemies.length ∧
        w1.bullets.countP
            (Bullet.hitsPlayer (p0.update hypot w.keyState w.isTouching w.touchX w.touchY
              w.canvasWidth w.canvasHeight deltaTime)) + t1.playerHits =
          w4.bullets.countP
            (Bullet.hitsPlayer (p0.update hypot w.keyState w.isTouching w.touchX w.touchY
              w.canvasWidth w.canvasHeight deltaTime))) := by
  by_cases hg : w.gameState = GameState.playing
  · obtain ⟨q, hq⟩ := h hg
    obtain ⟨w1, t1, hrun, S⟩ := updateGameAux_playing hypot deltaTime rand w q hg hq
    have s1 := S.score
    have s2 := S.health
    refine ⟨w1, t1, hrun, updateGame_eq_some.2 ⟨t1, hrun⟩, by omega, by omega, ?_, ?_⟩
    · intro p0 w4 t4 _ hp h4
      obtain ⟨haux, T⟩ := updateGameAux_returned hypot deltaTime rand w p0 w4 t4 hg hp h4
      rw [hrun] at haux
      cases haux
      exact ⟨rfl, T.bulletKills, T.playerHits, T.blasts⟩
    · intro p0 w4 t4 _ hp h4
      obtain ⟨haux, T⟩ := updateGameAux_completed hypot deltaTime rand w p0 w4 t4 hg hp h4
      generalize p0.update hypot w.keyState w.isTouching w.touchX w.touchY w.canvasWidth
        w.canvasHeight deltaTime = pl at haux T ⊢
      obtain ⟨w7, t7, hrun7, F⟩ := fromCollisionPhase_spec rand pl w4 t4 T.player
      rw [hrun, hrun7] at haux
      cases haux
      have f1 := F.enemies
      have f2 := F.hitters
      have f3 := F.bodyKills
      have t1 := T.bulletKills
      have t2 := T.playerHits
      have t3 := T.blasts
      refine ⟨by omega, by omega, by omega⟩
  · have hrun : updateGameAux hypot deltaTime rand w = some (w, Tally.zero) := by
      simp [updateGameAux, hg]
    refine ⟨w, Tally.zero, hrun, updateGame_eq_some.2 ⟨_, hrun⟩, by simp [Tally.zero],
      by simp [Tally.zero], ?_, ?_⟩
    · intro p0 w4 t4 hg1
      exact absurd hg1 hg
    · intro p0 w4 t4 hg1
      exact absurd hg1 hg

/-- Witness of `collision_accounting`: the step from `crossfireWorld`, with one bullet
kill and one hit of the player, gives `score = 10` and `health = 95`. -/
theorem collision_accounting_witness :
    (updateGameAux hypotQ 16 zeroRand crossfireWorld).map
      (fun r => (r.2.bodyKills, r.2.bulletKills, r.2.playerHits)) = some (0, 1, 1) ∧
    ∃ w1 t1, updateGameAux hypotQ 16 zeroRand crossfireWorld = some (w1, t1) ∧
      updateGame hypotQ 16 zeroRand crossfireWorld = some w1 ∧
      w1.score - crossfireWorld.score = 10 * (t1.bulletKills : Int) ∧
      crossfireWorld.health - w1.health =
        10 * (t1.bodyKills : Int) + 5 * (t1.playerHits : Int) := by
  obtain ⟨w1, t1, h1, h2, h3, h4, -⟩ :=
    collision_accounting hypotQ 16 zeroRand crossfireWorld (fun _ => ⟨_, rfl⟩)
  exact ⟨by decide!, w1, t1, h1, h2, h3, h4⟩

/-- C8, as stated, fails: in `crossfireWorld` exactly one enemy bullet overlaps the
player at the collision phase and no enemy touches the player, yet `score` changes,
from 0 to 10, because a player bullet destroys an enemy in the same step (while
`health` falls from 100 to 95 and the mode stays `playing`). -/
theorem enemy_bullet_hit_score_changes :
    crossfireWorld.gameState = GameState.playing ∧
    crossfireWorld.player = some (Player.new 400 250) ∧
    crossfireWorld.score = 0 ∧ crossfireWorld.health = 100 ∧
    (∀ e ∈ (spawnEnemies zeroRand 16 crossfireWorld Tally.zero).1.enemies,
      checkCollision (Player.new 400 250).getBounds e.advancedBounds = false) ∧
    toCollisionPhase hypotQ 16 zeroRand (Player.new 400 250) crossfireWorld =
      some (false, crossfireWorldAtCollisions, Tally.zero) ∧
    crossfireWorldAtCollisions.player = some (Player.new 400 250) ∧
    crossfireWorldAtCollisions.bullets.countP (Bullet.hitsPlayer (Player.new 400 250)) = 1 ∧
    (updateGame hypotQ 16 zeroRand crossfireWorld).map
      (fun w1 => (w1.health, w1.score, w1.gameState)) =
      some (95, 10, GameState.playing) := by
  refine ⟨rfl, rfl, rfl, rfl, ?_, ?_, ?_, ?_, ?_⟩
  · decide!
  · decide!
  · decide!
  · decide!
  · decide!

/-- C8, amended: in a `playing` world where no enemy of the pool the spawn scheduler
leaves overlaps the updated player once advanced, and where exactly one bullet of the
pool the bullet-collision loop finds is an enemy bullet overlapping the player, after
`updateGame` the `health` has fallen by exactly 5, every such bullet is gone from the
pool (which only lost bullets), the mode is `playing` exactly when the new `health` is
positive, and `score` has risen by 10 for each enemy the loop removed: it is unchanged
when the pool held no player bullet. -/
theorem enemy_bullet_hit (hypot : ℚ → ℚ → ℚ) (deltaTime : ℚ) (rand : Nat → ℚ)
    (w : World) (p0 : Player) (w4 : World) (t4 : Tally)
    (hg : w.gameState = GameState.playing) (hp : w.player = some p0)
    (hno : ∀ e ∈ (spawnEnemies rand deltaTime w Tally.zero).1.enemies,
      checkCollision
        (p0.update hypot w.keyState w.isTouching w.touchX w.touchY w.canvasWidth
          w.canvasHeight deltaTime).getBounds e.advancedBounds = false)
    (h4 : toCollisionPhase hypot deltaTime rand p0 w = some (false, w4, t4))
    (hone : w4.bullets.countP
      (Bullet.hitsPlayer (p0.update hypot w.keyState w.isTouching w.touchX w.touchY
        w.canvasWidth w.canvasHeight deltaTime)) = 1) :
    ∃ w1, updateGame hypot deltaTime rand w = some w1 ∧ w1.health = w.health - 5 ∧
      w1.bullets.Sublist w4.bullets ∧
      (∀ d ∈ w4.bullets,
        Bullet.hitsPlayer (p0.update hypot w.keyState w.isTouching w.touchX w.touchY
          w.canvasWidth w.canvasHeight deltaTime) d = true → d ∉ w1.bullets) ∧
      (w1.gameState = GameState.playing ↔ 0 < w1.health) ∧
      w1.score = w.score + 10 * ((w4.enemies.length - w1.enemies.length : Nat) : Int) ∧
      (w4.bullets.countP Bullet.isPlayerBullet = 0 → w1.score = w.score) := by
  obtain ⟨w4a, t4a, hrun, hzero⟩ := toCollisionPhase_no_hit hypot deltaTime rand p0 w hno
  rw [h4] at hrun
  cases hrun
  obtain ⟨haux, T⟩ := updateGameAux_completed hypot deltaTime rand w p0 w4 t4 hg hp h4
  generalize p0.update hypot w.keyState w.isTouching w.touchX w.touchY w.canvasWidth
    w.canvasHeight deltaTime = pl at haux T hone ⊢
  obtain ⟨w7, t7, hrun7, F⟩ := fromCollisionPhase_spec rand pl w4 t4 T.player
  have f1 := F.enemies
  have f2 := F.hitters
  have f3 := F.health
  have f4 := F.hits_le
  have f5 := F.score
  have f6 := F.kills_le
  have t1 := T.bulletKills
  have t2 := T.playerHits
  have t3 := T.health
  have t5 := T.score
  rw [hzero] at t3
  rw [t1] at f1 f5 f6
  rw [t2, hone] at f2 f4
  rw [t2] at f3
  have hits : t7.playerHits = 1 := by
    rcases F.mode with ⟨-, -, m, -⟩ | ⟨-, -, m⟩
    · rw [m, t2, hone]
    · omega
  have hcount : w7.bullets.countP (Bullet.hitsPlayer pl) = 0 := by omega
  refine ⟨w7, updateGame_eq_some.2 ⟨t7, haux.trans hrun7⟩, ?_, F.bullets, ?_, ?_, ?_, ?_⟩
  · rw [hits] at f3
    simp only [Nat.cast_zero, Nat.cast_one] at f3 t3
    omega
  · intro d _ hd hmem
    have := List.countP_eq_zero.1 hcount d hmem
    exact this hd
  · rcases F.mode with ⟨m1, -, -, m4⟩ | ⟨m1, m2, -⟩
    · have g : w7.gameState = GameState.playing := by
        rw [m1, (T.completed rfl).1, hg]
      exact ⟨fun _ => m4 (by omega), fun _ => g⟩
    · constructor
      · intro g
        rw [m1] at g
        cases g
      · intro hpos
        omega
  · have : w4.enemies.length - w7.enemies.length = t7.bulletKills := by omega
    rw [this]
    omega
  · intro hnone
    have : t7.bulletKills = 0 := by omega
    rw [this] at f5
    omega

/-- Witness of `enemy_bullet_hit`: in `grazedWorld`, with `health = 10`, the enemy
bullet hits; `health` becomes 5 and the mode remains `playing`. -/
theorem enemy_bullet_hit_witness :
    ∃ w1, updateGame hypotQ 16 zeroRand grazedWorld = some w1 ∧ w1.health = 5 ∧
      w1.gameState = GameState.playing ∧ w1.score = grazedWorld.score ∧
      Bullet.new 200 203 1 ∉ w1.bullets := by
  have hpl : (Player.new 400 250).update hypotQ grazedWorld.keyState grazedWorld.isTouching
      grazedWorld.touchX grazedWorld.touchY grazedWorld.canvasWidth grazedWorld.canvasHeight 16 =
      Player.new 400 250 := by decide!
  obtain ⟨w1, h1, h2, -, h4, h5, -, h7⟩ :=
    enemy_bullet_hit hypotQ 16 zeroRand grazedWorld (Player.new 400 250)
      grazedWorldAtCollisions Tally.zero rfl rfl (by decide!) (by decide!)
      (by rw [hpl]; decide!)
  rw [hpl] at h4
  have hh : w1.health = 5 := by rw [h2]; rfl
  exact ⟨w1, h1, hh, h5.2 (by omega), h7 (by decide!),
    h4 (Bullet.new 200 203 1) (by decide!) (by decide!)⟩

/-- C9: in a `playing` step with spawn timer `t`, interval `I` and elapsed time `dt`,
if `t + dt ≥ I` the scheduler constructs exactly one `Enemy` (four random draws) and
appends it to the enemy pool, and `updateGame` leaves the timer at 0 and the interval
at `max 800 (I - 20)`; otherwise it constructs none (no draw, the pool as it was), the
timer is `t + dt` and the interval is unchanged. -/
theorem spawn_scheduler (hypot : ℚ → ℚ → ℚ) (deltaTime : ℚ) (rand : Nat → ℚ)
    (w : World) (p0 : Player) (hg : w.gameState = GameState.playing)
    (hp : w.player = some p0) :
    (∀ q : Option Player,
      (spawnEnemies rand deltaTime { w with player := q } Tally.zero).1.enemies =
        (if w.enemySpawnTimer + deltaTime ≥ w.enemySpawnInterval then
          w.enemies ++ [(Enemy.new w.canvasWidth rand Tally.zero).1]
        else w.enemies) ∧
      (spawnEnemies rand deltaTime { w with player := q } Tally.zero).2.draws =
        (if w.enemySpawnTimer + deltaTime ≥ w.enemySpawnInterval then 4 else 0)) ∧
    ∃ w1, updateGame hypot deltaTime rand w = some w1 ∧
      w1.enemySpawnTimer =
        (if w.enemySpawnTimer + deltaTime ≥ w.enemySpawnInterval then 0
         else w.enemySpawnTimer + deltaTime) ∧
      w1.enemySpawnInterval =
        (if w.enemySpawnTimer + deltaTime ≥ w.enemySpawnInterval then
          max 800 (w.enemySpawnInterval - 20)
         else w.enemySpawnInterval) ∧
      w1.enemies.length ≤ w.enemies.length +
        (if w.enemySpawnTimer + deltaTime ≥ w.enemySpawnInterval then 1 else 0) := by
  constructor
  · intro q
    unfold spawnEnemies
    dsimp only
    split <;> simp [Enemy.new, Tally.zero]
  · obtain ⟨w1, t1, hrun, S⟩ := updateGameAux_playing hypot deltaTime rand w p0 hg hp
    have := S.enemies
    exact ⟨w1, updateGame_eq_some.2 ⟨t1, hrun⟩, S.timer, S.interval, by omega⟩

/-- Witness of `spawn_scheduler`: from a fresh session with interval 2000,
`updateGame(2000)` with no input spawns exactly one enemy, leaves the timer at 0 and
the interval at 1980. -/
theorem spawn_scheduler_witness :
    freshWorld.enemySpawnTimer = 0 ∧ freshWorld.enemySpawnInterval = 2000 ∧
    freshWorld.enemies = [] ∧
    (spawnEnemies idleRand 2000 freshWorld Tally.zero).1.enemies =
      [(Enemy.new 400 idleRand Tally.zero).1] ∧
    ∃ w1, updateGame hypotQ 2000 idleRand freshWorld = some w1 ∧ w1.enemySpawnTimer = 0 ∧
      w1.enemySpawnInterval = 1980 ∧ w1.enemies.length = 1 := by
  obtain ⟨-, w1, h1, h2, h3, -⟩ :=
    spawn_scheduler hypotQ 2000 idleRand freshWorld (Player.new 400 250) rfl rfl
  have hlen : (updateGame hypotQ 2000 idleRand freshWorld).map (fun v => v.enemies.length) =
      some 1 := by decide!
  rw [h1] at hlen
  have hspawn : freshWorld.enemySpawnTimer + 2000 ≥ freshWorld.enemySpawnInterval := by
    decide!
  rw [if_pos hspawn] at h2 h3
  refine ⟨rfl, rfl, rfl, by decide!, w1, h1, h2, ?_, by simpa using hlen⟩
  rw [h3]
  decide!

/-- C10: in every world reachable in a session every event returns, the spawn
interval is at least 800 afterwards, and it either is unchanged or has fallen by
exactly 20.  An `updateGame` step that spawns (mode `playing`, timer plus `deltaTime`
at least the interval) sets it to `max 800 (interval - 20)`, which is `interval - 20`
as long as the interval is above 800 and leaves it at the floor 800 otherwise; a step
that does not spawn, and every other event, leaves it unchanged. -/
theorem spawn_interval_ramp (hypot : ℚ → ℚ → ℚ) (w : World) (ev : Event)
    (hr : Reachable hypot w) :
    ∃ w1, handle hypot ev w = some w1 ∧ 800 ≤ w1.enemySpawnInterval ∧
      w1.enemySpawnInterval ≤ w.enemySpawnInterval ∧
      (w1.enemySpawnInterval = w.enemySpawnInterval ∨
        w1.enemySpawnInterval = w.enemySpawnInterval - 20) ∧
      (∀ deltaTime rand, ev = Event.update deltaTime rand →
        ((w.gameState = GameState.playing ∧
            w.enemySpawnTimer + deltaTime ≥ w.enemySpawnInterval) →
          w1.enemySpawnInterval = max 800 (w.enemySpawnInterval - 20) ∧
          (800 < w.enemySpawnInterval →
            w1.enemySpawnInterval = w.enemySpawnInterval - 20)) ∧
        (¬ (w.gameState = GameState.playing ∧
            w.enemySpawnTimer + deltaTime ≥ w.enemySpawnInterval) →
          w1.enemySpawnInterval = w.enemySpawnInterval)) ∧
      ((∀ deltaTime rand, ev ≠ Event.update deltaTime rand) →
        w1.enemySpawnInterval = w.enemySpawnInterval) := by
  have I := hr.invariant
  obtain ⟨w1, hstep⟩ := handle_total hypot ev w (fun g => I.player (by simp [g]))
  have I1 := I.of_handle hstep
  obtain ⟨k, hk, hI⟩ := I.interval
  obtain ⟨k1, hk1, hI1⟩ := I1.interval
  have hk1q : (k1 : ℚ) ≤ 60 := by exact_mod_cast hk1
  have hkq : (k : ℚ) ≤ 60 := by exact_mod_cast hk
  have hfloor : (800 : ℚ) ≤ w1.enemySpawnInterval := by rw [hI1]; linarith
  have key : ∀ deltaTime rand, ev = Event.update deltaTime rand →
      ((w.gameState = GameState.playing ∧
          w.enemySpawnTimer + deltaTime ≥ w.enemySpawnInterval) →
        w1.enemySpawnInterval = max 800 (w.enemySpawnInterval - 20) ∧
        (800 < w.enemySpawnInterval →
          w1.enemySpawnInterval = w.enemySpawnInterval - 20)) ∧
      (¬ (w.gameState = GameState.playing ∧
          w.enemySpawnTimer + deltaTime ≥ w.enemySpawnInterval) →
        w1.enemySpawnInterval = w.enemySpawnInterval) := by
    intro deltaTime rand hev
    subst hev
    simp only [handle] at hstep
    obtain ⟨t1, haux⟩ := updateGame_eq_some.1 hstep
    by_cases hg : w.gameState = GameState.playing
    · obtain ⟨q, hq⟩ := I.player (by simp [hg])
      obtain ⟨w2, t2, hrun, S⟩ := updateGameAux_playing hypot deltaTime rand w q hg hq
      rw [hrun] at haux
      cases haux
      have hS := S.interval
      constructor
      · rintro ⟨-, hsp⟩
        rw [if_pos hsp] at hS
        refine ⟨hS, fun habove => ?_⟩
        rw [hS]
        have hlt : (k : ℚ) < 60 := by rw [hI] at habove; linarith
        have hlt1 : k < 60 := by exact_mod_cast hlt
        have hle : (k : ℚ) + 1 ≤ 60 := by exact_mod_cast hlt1
        exact max_eq_right (by rw [hI]; linarith)
      · intro hnot
        rw [if_neg (fun hsp => hnot ⟨hg, hsp⟩)] at hS
        exact hS
    · have : updateGameAux hypot deltaTime rand w = some (w, Tally.zero) := by
        simp [updateGameAux, hg]
      rw [this] at haux
      cases haux
      exact ⟨fun h => absurd h.1 hg, fun _ => rfl⟩
  have other : (∀ deltaTime rand, ev ≠ Event.update deltaTime rand) →
      w1.enemySpawnInterval = w.enemySpawnInterval :=
    fun hne => handle_interval hypot ev w w1 hne hstep
  have dich : w1.enemySpawnInterval = w.enemySpawnInterval ∨
      w1.enemySpawnInterval = w.enemySpawnInterval - 20 := by
    by_cases hupd : ∃ deltaTime rand, ev = Event.update deltaTime rand
    · obtain ⟨deltaTime, rand, hev⟩ := hupd
      obtain ⟨ksp, kno⟩ := key deltaTime rand hev
      by_cases hsp : w.gameState = GameState.playing ∧
          w.enemySpawnTimer + deltaTime ≥ w.enemySpawnInterval
      · obtain ⟨e1, e2⟩ := ksp hsp
        by_cases habove : 800 < w.enemySpawnInterval
        · exact Or.inr (e2 habove)
        · left
          have h800 : w.enemySpawnInterval = 800 := by
            have : (800 : ℚ) ≤ w.enemySpawnInterval := by rw [hI]; linarith
            linarith
          rw [e1, h800]
          norm_num
      · exact Or.inl (kno hsp)
    · exact Or.inl (other fun deltaTime rand hev => hupd ⟨deltaTime, rand, hev⟩)
  refine ⟨w1, hstep, hfloor, ?_, dich, key, other⟩
  rcases dich with h | h
  · rw [h]
  · rw [h]
    linarith

/-- Witness of `spawn_interval_ramp`: the first spawning step of a fresh session
lowers the interval from 2000 to 1980. -/
theorem spawn_interval_ramp_witness :
    Reachable hypotQ freshWorld ∧ freshWorld.enemySpawnInterval = 2000 ∧
    ∃ w1, handle hypotQ (Event.update 2000 idleRand) freshWorld = some w1 ∧
      w1.enemySpawnInterval = 1980 := by
  obtain ⟨w1, h1, -, -, -, h5, -⟩ :=
    spawn_interval_ramp hypotQ freshWorld (Event.update 2000 idleRand) freshWorld_reachable
  obtain ⟨-, h6⟩ := (h5 2000 idleRand rfl).1 ⟨rfl, by decide!⟩
  refine ⟨freshWorld_reachable, rfl, w1, h1, ?_⟩
  rw [h6 (by decide!)]
  decide!

/-- C12: the test of lines 574-577 is `checkCollision` on the two boxes each expanded
by 5 on every side; it holds exactly when on each axis each box starts less than 10
beyond the end of the other; and whenever the raw boxes collide, the expanded test
holds too. -/
theorem expandedCollision_refines (a b : Rect) :
    expandedCollision a b = checkCollision a.expanded b.expanded ∧
    (expandedCollision a b = true ↔
      a.x < b.x + b.width + 10 ∧ b.x < a.x + a.width + 10 ∧
      a.y < b.y + b.height + 10 ∧ b.y < a.y + a.height + 10) ∧
    (checkCollision a b = true → expandedCollision a b = true) := by
  refine ⟨rfl, ?_, ?_⟩
  · simp only [expandedCollision, Bool.and_eq_true, decide_eq_true_eq]
    constructor
    · rintro ⟨⟨⟨h1, h2⟩, h3⟩, h4⟩
      exact ⟨by linarith, by linarith, by linarith, by linarith⟩
    · rintro ⟨h1, h2, h3, h4⟩
      exact ⟨⟨⟨by linarith, by linarith⟩, by linarith⟩, by linarith⟩
  · simp only [expandedCollision, checkCollision, Bool.and_eq_true, decide_eq_true_eq]
    rintro ⟨⟨⟨h1, h2⟩, h3⟩, h4⟩
    exact ⟨⟨⟨by linarith, by linarith⟩, by linarith⟩, by linarith⟩

/-- Witness of `expandedCollision_refines`: a power-up 8 units to the right of the
player is out of the raw test and within the expanded one; one that overlaps the
player passes both. -/
theorem expandedCollision_refines_witness :
    checkCollision (PowerUp.new 233 190 PowerUpType.fireRate).getBounds
      (Player.new 400 250).getBounds = false ∧
    expandedCollision (PowerUp.new 233 190 PowerUpType.fireRate).getBounds
      (Player.new 400 250).getBounds = true ∧
    checkCollision (PowerUp.new 200 190 PowerUpType.fireRate).getBounds
      (Player.new 400 250).getBounds = true ∧
    expandedCollision (PowerUp.new 200 190 PowerUpType.fireRate).getBounds
      (Player.new 400 250).getBounds = true :=
  ⟨by decide!, by decide!, by decide!,
    (expandedCollision_refines (PowerUp.new 200 190 PowerUpType.fireRate).getBounds
      (Player.new 400 250).getBounds).2.2 (by decide!)⟩

/-- C19: `Player.shoot` returns the pool it is given followed by one bullet at
`(x + width/2, y)` when `dualShot` is off, and by two bullets at `(x + width/2 - 12, y)`
and `(x + width/2 + 12, y)` when it is on, all of direction `-1`; the guarded call
changes no global but `bullets`. -/
theorem shoot_appends (p : Player) (bullets : List Bullet) (w : World) :
    p.shoot bullets = bullets ++
      (if p.dualShot then
        [Bullet.new (p.x + p.width / 2 - 12) p.y (-1),
         Bullet.new (p.x + p.width / 2 + 12) p.y (-1)]
       else [Bullet.new (p.x + p.width / 2) p.y (-1)]) ∧
    (∀ x y : ℚ, (Bullet.new x y (-1)).x = x ∧ (Bullet.new x y (-1)).y = y ∧
      (Bullet.new x y (-1)).direction = -1) ∧
    shootCommand w = { w with bullets := (shootCommand w).bullets } ∧
    (shootCommand w).bullets =
      (if w.gameState = GameState.playing then
        match w.player with
        | some q => q.shoot w.bullets
        | none => w.bullets
       else w.bullets) := by
  refine ⟨?_, fun x y => ⟨rfl, rfl, rfl⟩, ?_, ?_⟩
  · unfold Player.shoot
    dsimp only
    split <;> simp
  · unfold shootCommand
    split
    · split <;> rfl
    · rfl
  · unfold shootCommand
    split
    · split <;> rfl
    · rfl

/-- C20: the bullet loop, entered at the last index as `updateGame` does, returns
exactly the list of the specification: every bullet advanced once (`y + 8 * direction`
for a bullet as the constructor makes it), those with `0 ≤ y ≤ fieldHeight` kept in
their order; and the explosion loop returns every explosion ticked once (`life - 1`),
those with `life ≤ 0` removed, in their order. -/
theorem reverse_loops_refine (fieldHeight : ℚ) (bullets : List Bullet)
    (explosions : List Explosion) :
    updateBullets fieldHeight bullets.length bullets =
      some (bulletPhaseSpec fieldHeight bullets) ∧
    updateExplosions explosions.length explosions = some (explosionPhaseSpec explosions) ∧
    (∀ (x y : ℚ) (d : Int), (Bullet.new x y d).update.y = y + 8 * d) ∧
    (∀ ex : Explosion, ex.update.life = ex.life - 1) := by
  refine ⟨?_, ?_, fun x y d => rfl, fun ex => rfl⟩
  · have h := updateBullets_append fieldHeight bullets []
    rw [List.append_nil, List.append_nil] at h
    rw [h, bulletPhaseSpec]
    congr 1
    apply List.filter_congr
    intro b _
    have e1 : decide (b.y < 0) = !decide (0 ≤ b.y) := by
      by_cases h0 : 0 ≤ b.y
      · simp [h0]
      · simp [h0, not_le.1 h0]
    have e2 : decide (b.y > fieldHeight) = !decide (b.y ≤ fieldHeight) := by
      by_cases h0 : b.y ≤ fieldHeight
      · simp [h0]
      · simp [h0, not_le.1 h0]
    simp only [Bullet.isOffScreen, e1, e2, Bool.decide_and]
    cases decide (0 ≤ b.y) <;> cases decide (b.y ≤ fieldHeight) <;> rfl
  · have h := updateExplosions_append explosions []
    rw [List.append_nil, List.append_nil] at h
    rw [h, explosionPhaseSpec]
    congr 1
    apply List.filter_congr
    intro ex _
    by_cases hl : 0 < ex.life
    · simp [Explosion.isDead, hl]
    · simp [Explosion.isDead, hl, not_lt.1 hl]

/-- C16: for a player of the constructor's size (50 by 40), any position, key and
pointer state and `deltaTime`, in a field at least 50 wide and 40 high, after
`Player.update` the box lies inside the field: `0 ≤ x ≤ fieldWidth - 50` and
`0 ≤ y ≤ fieldHeight - 40`; and after a whole `updateGame` step in mode `playing` the
player lies inside the field as the canvas size is at that call. -/
theorem player_stays_in_field (hypot : ℚ → ℚ → ℚ) (k : KeyState) (it : Bool)
    (tx ty cw ch dt : ℚ) (p : Player) (hw : p.width = 50) (hh : p.height = 40)
    (hcw : 50 ≤ cw) (hch : 40 ≤ ch) :
    (0 ≤ (p.update hypot k it tx ty cw ch dt).x ∧
      (p.update hypot k it tx ty cw ch dt).x ≤ cw - 50 ∧
      0 ≤ (p.update hypot k it tx ty cw ch dt).y ∧
      (p.update hypot k it tx ty cw ch dt).y ≤ ch - 40 ∧
      (p.update hypot k it tx ty cw ch dt).width = 50 ∧
      (p.update hypot k it tx ty cw ch dt).height = 40) ∧
    ∀ (w : World) (rand : Nat → ℚ), w.gameState = GameState.playing → w.player = some p →
      w.canvasWidth = cw → w.canvasHeight = ch →
      ∃ w1 q1, updateGame hypot dt rand w = some w1 ∧ w1.player = some q1 ∧
        w1.canvasWidth = cw ∧ w1.canvasHeight = ch ∧
        0 ≤ q1.x ∧ q1.x ≤ cw - 50 ∧ 0 ≤ q1.y ∧ q1.y ≤ ch - 40 ∧
        q1.width = 50 ∧ q1.height = 40 := by
  have key : ∀ (k : KeyState) (it : Bool) (tx ty : ℚ),
      0 ≤ (p.update hypot k it tx ty cw ch dt).x ∧
      (p.update hypot k it tx ty cw ch dt).x ≤ cw - 50 ∧
      0 ≤ (p.update hypot k it tx ty cw ch dt).y ∧
      (p.update hypot k it tx ty cw ch dt).y ≤ ch - 40 ∧
      (p.update hypot k it tx ty cw ch dt).width = 50 ∧
      (p.update hypot k it tx ty cw ch dt).height = 40 := by
    intro k it tx ty
    obtain ⟨h1, h2, h3, h4⟩ := Player.update_in_field hypot k it tx ty cw ch dt p
      (by rw [hw]; exact hcw) (by rw [hh]; exact hch)
    rw [hw] at h2
    rw [hh] at h4
    exact ⟨h1, h2, h3, h4, hw, hh⟩
  refine ⟨key k it tx ty, ?_⟩
  intro w rand hg hp hcw1 hch1
  obtain ⟨w1, t1, hrun, S⟩ := updateGameAux_playing hypot dt rand w p hg hp
  obtain ⟨q1, hq1, u⟩ := S.player
  rw [hcw1, hch1] at u
  obtain ⟨h1, h2, h3, h4, h5, h6⟩ := key w.keyState w.isTouching w.touchX w.touchY
  refine ⟨w1, q1, updateGame_eq_some.2 ⟨t1, hrun⟩, hq1, S.canvasWidth.trans hcw1,
    S.canvasHeight.trans hch1, ?_, ?_, ?_, ?_, u.width.trans h5, u.height.trans h6⟩
  · rw [u.x]; exact h1
  · rw [u.x]; exact h2
  · rw [u.y]; exact h3
  · rw [u.y]; exact h4

/-- Witness of `player_stays_in_field`: after the window has shrunk from 400 by 250 to
100 by 80, the next step brings the player from `(175, 190)` to `(50, 40)`. -/
theorem player_stays_in_field_witness :
    shrunkWorld.player = some (Player.new 400 250) ∧ (Player.new 400 250).x = 175 ∧
    (Player.new 400 250).y = 190 ∧
    (updateGame hypotQ 16 zeroRand shrunkWorld).map
      (fun w1 => w1.player.map fun q => (q.x, q.y)) = some (some (50, 40)) ∧
    ∃ w1 q1, updateGame hypotQ 16 zeroRand shrunkWorld = some w1 ∧ w1.player = some q1 ∧
      w1.canvasWidth = 100 ∧ w1.canvasHeight = 80 ∧
      0 ≤ q1.x ∧ q1.x ≤ 100 - 50 ∧ 0 ≤ q1.y ∧ q1.y ≤ 80 - 40 ∧
      q1.width = 50 ∧ q1.height = 40 :=
  ⟨rfl, by decide!, by decide!, by decide!,
    (player_stays_in_field hypotQ shrunkWorld.keyState shrunkWorld.isTouching 0 0 100 80 16
      (Player.new 400 250) rfl rfl (by decide!) (by decide!)).2 shrunkWorld zeroRand rfl rfl
      rfl rfl⟩

/-- C17, as stated, fails: with the left and the right key both held, a directional
flag is active but `moveX` and `moveY` are both 0, so line 79 consults the pointer: the
player at `(175, 190)` goes up to `y = 145` when the pointer is down at `(200, 20)` and
stays at `y = 190` when it is not; the same happens in a session after the events
key left, key right, pointer down. -/
theorem opposing_keys_follow_pointer :
    opposingKeys.left = true ∧ opposingKeys.right = true ∧
    ((Player.new 400 250).update hypotQ opposingKeys true 200 20 400 250 100).y = 145 ∧
    ((Player.new 400 250).update hypotQ opposingKeys false 200 20 400 250 100).y = 190 ∧
    (run hypotQ
      [Event.start, Event.key Action.left true, Event.key Action.right true,
        Event.pointerDown 200 20, Event.update 100 zeroRand]
      (World.initial 400 250)).map (fun w => w.player.map fun q => q.y) = some (some 145) ∧
    (run hypotQ
      [Event.start, Event.key Action.left true, Event.key Action.right true,
        Event.update 100 zeroRand]
      (World.initial 400 250)).map (fun w => w.player.map fun q => q.y) = some (some 190) := by
  refine ⟨rfl, rfl, ?_, ?_, ?_, ?_⟩
  · decide!
  · decide!
  · decide!
  · decide!

/-- C17, amended: in every `Player.update` call in which the directional flags do not
cancel out (left differs from right, or up differs from down), the result does not
depend on the pointer state: the player moves by `speed * deltaTime` along the intent
vector `(moveX, moveY)` divided by `Math.hypot(moveX, moveY) || 1`, and is then
clamped.  With flags that cancel out (left equal to right and up equal to down) the
call does what it does with no flag active: it follows the pointer if it is active. -/
theorem keys_override_pointer (hypot : ℚ → ℚ → ℚ) (k : KeyState) (cw ch dt : ℚ) (p : Player)
    (h : k.left ≠ k.right ∨ k.up ≠ k.down) (it it1 : Bool) (tx ty tx1 ty1 : ℚ) :
    p.update hypot k it tx ty cw ch dt = p.update hypot k it1 tx1 ty1 cw ch dt ∧
    p.update hypot k it tx ty cw ch dt =
      { p with
        x := max 0 (min (cw - p.width)
          (p.x + k.moveX / (if hypot k.moveX k.moveY = 0 then 1 else hypot k.moveX k.moveY) *
            (p.speed * dt)))
        y := max 0 (min (ch - p.height)
          (p.y + k.moveY / (if hypot k.moveX k.moveY = 0 then 1 else hypot k.moveX k.moveY) *
            (p.speed * dt))) } ∧
    ∀ k1 : KeyState, k1.left = k1.right → k1.up = k1.down →
      p.update hypot k1 it tx ty cw ch dt =
        p.update hypot ⟨false, false, false, false⟩ it tx ty cw ch dt := by
  have hnet := k.net_intent h
  have key : ∀ (it : Bool) (tx ty : ℚ), p.update hypot k it tx ty cw ch dt =
      { p with
        x := max 0 (min (cw - p.width)
          (p.x + k.moveX / (if hypot k.moveX k.moveY = 0 then 1 else hypot k.moveX k.moveY) *
            (p.speed * dt)))
        y := max 0 (min (ch - p.height)
          (p.y + k.moveY / (if hypot k.moveX k.moveY = 0 then 1 else hypot k.moveX k.moveY) *
            (p.speed * dt))) } := by
    intro it tx ty
    unfold Player.update
    simp only [KeyState.moveX, KeyState.moveY]
    rw [if_pos hnet]
  refine ⟨(key it tx ty).trans (key it1 tx1 ty1).symm, key it tx ty, ?_⟩
  intro k1 hl hu
  obtain ⟨l, r, u, d⟩ := k1
  simp only at hl hu
  subst hl
  subst hu
  cases l <;> cases u <;> simp [Player.update]

/-- Witness of `keys_override_pointer`: with only the up key held, the player goes up
by 45 whether the pointer is down or not. -/
theorem keys_override_pointer_witness :
    ((Player.new 400 250).update hypotQ ⟨false, false, true, false⟩ true 0 0 400 250 100).y =
      145 ∧
    (Player.new 400 250).update hypotQ ⟨false, false, true, false⟩ true 0 0 400 250 100 =
      (Player.new 400 250).update hypotQ ⟨false, false, true, false⟩ false 7 9 400 250 100 :=
  ⟨by decide!,
    (keys_override_pointer hypotQ ⟨false, false, true, false⟩ 400 250 100 (Player.new 400 250)
      (Or.inr (by decide)) true false 0 0 7 9).1⟩

/-- C18: for a player as the constructor makes it (50 by 40, speed 0.45), with no
directional flag active, the pointer active and `deltaTime ≥ 0`, let the target be
`(touchX - 25, touchY - 20)`, `d` the value of `Math.hypot` for the vector to the target
and `step = 0.45 * deltaTime`.  The position before clamping is the target when
`d ≤ step`.  Otherwise it is the old position plus `step / d` times the vector to the
target, with `0 ≤ step / d < 1`: a point of the segment, short of the target; and when
`d` is the Euclidean distance (`0 ≤ d`, `d² = dx² + dy²`) that point is at distance
`step` from the old position and at distance `d - step > 0` from the target. -/
theorem pointer_no_overshoot (hypot : ℚ → ℚ → ℚ) (k : KeyState) (tx ty dt : ℚ) (p : Player)
    (hk : k.left = false ∧ k.right = false ∧ k.up = false ∧ k.down = false)
    (hdt : 0 ≤ dt) (hw : p.width = 50) (hh : p.height = 40) (hs : p.speed = 9 / 20) :
    (hypot (tx - 25 - p.x) (ty - 20 - p.y) ≤ 9 / 20 * dt →
      p.moved hypot k true tx ty dt = (tx - 25, ty - 20)) ∧
    (9 / 20 * dt < hypot (tx - 25 - p.x) (ty - 20 - p.y) →
      0 ≤ 9 / 20 * dt / hypot (tx - 25 - p.x) (ty - 20 - p.y) ∧
      9 / 20 * dt / hypot (tx - 25 - p.x) (ty - 20 - p.y) < 1 ∧
      (p.moved hypot k true tx ty dt).1 =
        p.x + 9 / 20 * dt / hypot (tx - 25 - p.x) (ty - 20 - p.y) * (tx - 25 - p.x) ∧
      (p.moved hypot k true tx ty dt).2 =
        p.y + 9 / 20 * dt / hypot (tx - 25 - p.x) (ty - 20 - p.y) * (ty - 20 - p.y)) ∧
    (9 / 20 * dt < hypot (tx - 25 - p.x) (ty - 20 - p.y) →
      hypot (tx - 25 - p.x) (ty - 20 - p.y) ^ 2 = (tx - 25 - p.x) ^ 2 + (ty - 20 - p.y) ^ 2 →
      ((p.moved hypot k true tx ty dt).1 - p.x) ^ 2 +
          ((p.moved hypot k true tx ty dt).2 - p.y) ^ 2 = (9 / 20 * dt) ^ 2 ∧
      (tx - 25 - (p.moved hypot k true tx ty dt).1) ^ 2 +
          (ty - 20 - (p.moved hypot k true tx ty dt).2) ^ 2 =
        (hypot (tx - 25 - p.x) (ty - 20 - p.y) - 9 / 20 * dt) ^ 2 ∧
      0 < hypot (tx - 25 - p.x) (ty - 20 - p.y) - 9 / 20 * dt) ∧
    ∀ cw ch : ℚ, p.update hypot k true tx ty cw ch dt =
      { p with
        x := max 0 (min (cw - p.width) (p.moved hypot k true tx ty dt).1)
        y := max 0 (min (ch - p.height) (p.moved hypot k true tx ty dt).2) } := by
  obtain ⟨k1, k2, k3, k4⟩ := hk
  have hm : p.moved hypot k true tx ty dt =
      if hypot (tx - 25 - p.x) (ty - 20 - p.y) > 9 / 20 * dt then
        (p.x + (tx - 25 - p.x) / hypot (tx - 25 - p.x) (ty - 20 - p.y) * (9 / 20 * dt),
          p.y + (ty - 20 - p.y) / hypot (tx - 25 - p.x) (ty - 20 - p.y) * (9 / 20 * dt))
      else (tx - 25, ty - 20) := by
    unfold Player.moved
    simp only [k1, k2, k3, k4, hw, hh, hs]
    norm_num
  have hstep : (0 : ℚ) ≤ 9 / 20 * dt := by positivity
  refine ⟨?_, ?_, ?_, fun cw ch => rfl⟩
  · intro hle
    rw [hm, if_neg (not_lt.2 hle)]
  · intro hlt
    have hd : 0 < hypot (tx - 25 - p.x) (ty - 20 - p.y) := lt_of_le_of_lt hstep hlt
    rw [hm, if_pos hlt]
    refine ⟨div_nonneg hstep hd.le, (div_lt_one hd).2 hlt, ?_, ?_⟩
    · show p.x + _ = _
      field_simp
      ring
    · show p.y + _ = _
      field_simp
      ring
  · intro hlt hsq
    have hd : 0 < hypot (tx - 25 - p.x) (ty - 20 - p.y) := lt_of_le_of_lt hstep hlt
    rw [hm, if_pos hlt]
    generalize hypot (tx - 25 - p.x) (ty - 20 - p.y) = d at hlt hsq hd ⊢
    have hne : d ≠ 0 := hd.ne'
    have hne2 : d ^ 2 ≠ 0 := pow_ne_zero 2 hne
    refine ⟨?_, ?_, by linarith⟩
    · show (p.x + (tx - 25 - p.x) / d * (9 / 20 * dt) - p.x) ^ 2 +
        (p.y + (ty - 20 - p.y) / d * (9 / 20 * dt) - p.y) ^ 2 = _
      have : (p.x + (tx - 25 - p.x) / d * (9 / 20 * dt) - p.x) ^ 2 +
          (p.y + (ty - 20 - p.y) / d * (9 / 20 * dt) - p.y) ^ 2 =
          ((tx - 25 - p.x) ^ 2 + (ty - 20 - p.y) ^ 2) / d ^ 2 * (9 / 20 * dt) ^ 2 := by
        field_simp
        ring
      rw [this, ← hsq, div_self hne2, one_mul]
    · show (tx - 25 - (p.x + (tx - 25 - p.x) / d * (9 / 20 * dt))) ^ 2 +
        (ty - 20 - (p.y + (ty - 20 - p.y) / d * (9 / 20 * dt))) ^ 2 = _
      have : (tx - 25 - (p.x + (tx - 25 - p.x) / d * (9 / 20 * dt))) ^ 2 +
          (ty - 20 - (p.y + (ty - 20 - p.y) / d * (9 / 20 * dt))) ^ 2 =
          ((tx - 25 - p.x) ^ 2 + (ty - 20 - p.y) ^ 2) / d ^ 2 * (d - 9 / 20 * dt) ^ 2 := by
        field_simp
        ring
      rw [this, ← hsq, div_self hne2, one_mul]

/-- Witness of `pointer_no_overshoot`: the player at `(175, 190)` with the pointer at
`(200, 120)`, straight above at distance 90, goes 45 up in 100 ms, to `(175, 145)`,
which is 45 short of the target `(175, 100)`. -/
theorem pointer_no_overshoot_witness :
    hypotQ (200 - 25 - (Player.new 400 250).x) (120 - 20 - (Player.new 400 250).y) = 90 ∧
    (Player.new 400 250).moved hypotQ ⟨false, false, false, false⟩ true 200 120 100 =
      (175, 145) ∧
    ((175 : ℚ) - 175) ^ 2 + ((145 : ℚ) - 190) ^ 2 = (9 / 20 * 100) ^ 2 ∧
    ((Player.new 400 250).moved hypotQ ⟨false, false, false, false⟩ true 200 120 100).1 =
      (Player.new 400 250).x + 9 / 20 * 100 /
        hypotQ (200 - 25 - (Player.new 400 250).x) (120 - 20 - (Player.new 400 250).y) *
        (200 - 25 - (Player.new 400 250).x) :=
  ⟨by decide!, by decide!, by norm_num,
    ((pointer_no_overshoot hypotQ ⟨false, false, false, false⟩ 200 120 100 (Player.new 400 250)
      ⟨rfl, rfl, rfl, rfl⟩ (by norm_num) rfl rfl rfl).2.1 (by decide!)).2.2.1⟩

/-- C13: in every `updateGame` step in mode `playing`, completed or aborted, with
`kills` the enemies removed by a collision (by the player's body, line 496, or by a
player bullet, line 522) in the order of their removal: there are as many of them as
collisions counted, `spawnPowerUp` has been called exactly once per removed enemy, with
its centre `(x + width/2, y + height/2)`, in that order, and the two collision loops
have pushed exactly one explosion per removed enemy, at its centre, in that order (in a
completed step these explosions have been ticked once by the explosion loop, which
keeps their position).  The enemy loop and the bullet-collision loop have this property
from any world and index, together with the power-ups they push: at most one per
removed enemy, at its centre.  With draws `r1` and `r2`, `r2` in `[0, 1)`, a call of
`spawnPowerUp` appends one power-up at its argument when `r1 < 0.6`, of kind `fireRate`
when `r2 < 0.5` and `dualShot` otherwise, and leaves the pool as it is when
`r1 ≥ 0.6`. -/
theorem destruction_spawns (hypot : ℚ → ℚ → ℚ) (deltaTime : ℚ) (rand : Nat → ℚ)
    (w : World) (p0 : Player) (hg : w.gameState = GameState.playing)
    (hp : w.player = some p0) :
    (∃ w1 t1 X, updateGameAux hypot deltaTime rand w = some (w1, t1) ∧
      updateGame hypot deltaTime rand w = some w1 ∧
      t1.kills.length = t1.bodyKills + t1.bulletKills ∧
      w1.enemies.length + t1.kills.length ≤ w.enemies.length +
        (if w.enemySpawnTimer + deltaTime ≥ w.enemySpawnInterval then 1 else 0) ∧
      t1.spawnCalls = t1.kills.map Enemy.centre ∧
      X.map (fun ex => (ex.x, ex.y)) = t1.kills.map Enemy.centre ∧
      (∀ ex ∈ X, ex.life = 30) ∧
      ((w1.gameState = GameState.gameOver ∧ w1.explosions = w.explosions ++ X) ∨
        ∃ P, w1.explosions =
          (w.explosions.map Explosion.update).filter (fun ex => !ex.isDead) ++
            X.map Explosion.update ++ P)) ∧
    (∀ (q : Player) (i : Nat) (v : World) (t : Tally) (ret : Bool) (v1 : World) (t1 : Tally),
      updateEnemies rand q i v t = some (ret, v1, t1) → KillsRel v t v1 t1) ∧
    (∀ (q : Player) (i : Nat) (v : World) (t : Tally) (ret : Bool) (v1 : World) (t1 : Tally),
      resolveBullets rand q i v t = some (ret, v1, t1) → KillsRel v t v1 t1) ∧
    (∀ e : Enemy, e.centre = (e.x + e.width / 2, e.y + e.height / 2)) ∧
    (∀ ex : Explosion, ex.update.x = ex.x ∧ ex.update.y = ex.y) ∧
    (∀ (x y : ℚ) (l : List PowerUp) (t : Tally),
      0 ≤ rand (t.draws + 1) → rand (t.draws + 1) < 1 →
      (spawnPowerUp rand x y l t).1 =
        if rand t.draws < 3 / 5 then
          l ++ [PowerUp.new x y
            (if rand (t.draws + 1) < 1 / 2 then PowerUpType.fireRate
             else PowerUpType.dualShot)]
        else l) ∧
    ∀ (x y : ℚ) (type : PowerUpType),
      (PowerUp.new x y type).x = x ∧ (PowerUp.new x y type).y = y ∧
      (PowerUp.new x y type).type = type := by
  refine ⟨?_, fun q i v t ret v1 t1 h => updateEnemies_kills rand q i v t ret v1 t1 h,
    fun q i v t ret v1 t1 h => resolveBullets_kills rand q i v t ret v1 t1 h,
    fun _ => rfl, fun _ => ⟨rfl, rfl⟩, fun x y l t h0 h1 => spawnPowerUp_eq rand x y l t h0 h1,
    fun _ _ _ => ⟨rfl, rfl, rfl⟩⟩
  obtain ⟨w1, t1, X, hrun, k1, k2, k3, k4, k5⟩ :=
    updateGameAux_kills hypot deltaTime rand w p0 hg hp
  obtain ⟨w2, t2, hrun2, S⟩ := updateGameAux_playing hypot deltaTime rand w p0 hg hp
  rw [hrun] at hrun2
  cases hrun2
  have s1 := S.enemies
  exact ⟨w1, t1, X, hrun, updateGame_eq_some.2 ⟨t1, hrun⟩, k1, by omega, k2, k3, k4, k5⟩

/-- Witness of `destruction_spawns`: in the step from `killWorld` the player bullet
removes the enemy, whose centre is `(200, 168.5)`: one call of `spawnPowerUp` and one
explosion there; in the step from `lastStandWorld` the enemy is removed by the
collision with the player, at `(200, 174.5)`, and the game is over. -/
theorem destruction_spawns_witness :
    (∃ (w1 : World) (t1 : Tally) (X : List Explosion),
      updateGameAux hypotQ 16 zeroRand killWorld = some (w1, t1) ∧
      t1.kills = [sampleEnemy 151 1488] ∧ t1.spawnCalls = [(200, 337 / 2)] ∧
      X.map (fun ex => (ex.x, ex.y)) = [(200, 337 / 2)]) ∧
    (∃ (w1 : World) (t1 : Tally) (X : List Explosion),
      updateGameAux hypotQ 16 zeroRand lastStandWorld = some (w1, t1) ∧
      t1.kills = [sampleEnemy 157 32] ∧ t1.spawnCalls = [(200, 349 / 2)] ∧
      X.map (fun ex => (ex.x, ex.y)) = [(200, 349 / 2)] ∧
      w1.gameState = GameState.gameOver) := by
  constructor
  · obtain ⟨⟨w1, t1, X, h1, -, -, -, h5, h6, -, -⟩, -⟩ :=
      destruction_spawns hypotQ 16 zeroRand killWorld (Player.new 400 250) rfl rfl
    have hk : (updateGameAux hypotQ 16 zeroRand killWorld).map (fun r => r.2.kills) =
        some [sampleEnemy 151 1488] := by decide!
    rw [h1] at hk
    simp only [Option.map_some', Option.some.injEq] at hk
    rw [hk] at h5 h6
    exact ⟨w1, t1, X, h1, hk, by rw [h5]; decide!, by rw [h6]; decide!⟩
  · obtain ⟨⟨w1, t1, X, h1, -, -, -, h5, h6, -, -⟩, -⟩ :=
      destruction_spawns hypotQ 16 zeroRand lastStandWorld (Player.new 400 250) rfl rfl
    have hk : (updateGameAux hypotQ 16 zeroRand lastStandWorld).map
        (fun r => (r.2.kills, r.1.gameState)) =
        some ([sampleEnemy 157 32], GameState.gameOver) := by decide!
    rw [h1] at hk
    simp only [Option.map_some', Option.some.injEq, Prod.mk.injEq] at hk
    obtain ⟨hk1, hk2⟩ := hk
    rw [hk1] at h5 h6
    exact ⟨w1, t1, X, h1, hk1, by rw [h5]; decide!, by rw [h6]; decide!, hk2⟩

/-- C14: `upgradeFireRate` sets `fireRate` to `max 100 (fireRate - 50)`; in every world
reachable in a session the player's `fireRate` is within `[100, 300]`, and every event
other than the start command (an `updateGame` step with its power-up collections, a
shot, an input or resize event) returns and leaves a player whose `fireRate` is not
larger than before and not below 100. -/
theorem fireRate_monotone (hypot : ℚ → ℚ → ℚ) (w : World) (ev : Event) (q : Player)
    (hr : Reachable hypot w) (hq : w.player = some q) :
    (∀ p : Player, p.upgradeFireRate.fireRate = max 100 (p.fireRate - 50)) ∧
    100 ≤ q.fireRate ∧ q.fireRate ≤ 300 ∧
    (ev ≠ Event.start →
      ∃ w1 q1, handle hypot ev w = some w1 ∧ w1.player = some q1 ∧
        q1.fireRate ≤ q.fireRate ∧ 100 ≤ q1.fireRate) := by
  obtain ⟨f1, f2⟩ := hr.invariant.fireRate q hq
  refine ⟨fun p => rfl, f1, f2, fun hne => ?_⟩
  obtain ⟨w1, q1, h1, h2, h3, -⟩ := handle_player_upgrades hypot ev w q hq hne
  exact ⟨w1, q1, h1, h2, (h3 f1).2, (h3 f1).1⟩

/-- C15: `enableDualShot` is idempotent and turns `dualShot` on; and from any world
whose player has `dualShot` on, every event other than the start command (an
`updateGame` step with its power-up collections, a shot, an input or resize event)
returns and leaves a player with `dualShot` on. -/
theorem dualShot_monotone (hypot : ℚ → ℚ → ℚ) (w : World) (ev : Event) (q : Player)
    (hq : w.player = some q) (hd : q.dualShot = true) (hne : ev ≠ Event.start) :
    (∀ p : Player, p.enableDualShot.enableDualShot = p.enableDualShot ∧
      p.enableDualShot.dualShot = true) ∧
    ∃ w1 q1, handle hypot ev w = some w1 ∧ w1.player = some q1 ∧ q1.dualShot = true := by
  refine ⟨fun p => ⟨rfl, rfl⟩, ?_⟩
  obtain ⟨w1, q1, h1, h2, -, h4⟩ := handle_player_upgrades hypot ev w q hq hne
  exact ⟨w1, q1, h1, h2, h4 hd⟩

/-- Witness of `dualShot_monotone`: a step from `upgradedWorld`. -/
theorem dualShot_monotone_witness :
    (∀ p : Player, p.enableDualShot.enableDualShot = p.enableDualShot ∧
      p.enableDualShot.dualShot = true) ∧
    ∃ w1 q1, handle hypotQ (Event.update 16 zeroRand) upgradedWorld = some w1 ∧
      w1.player = some q1 ∧ q1.dualShot = true :=
  dualShot_monotone hypotQ upgradedWorld (Event.update 16 zeroRand)
    { Player.new 400 250 with fireRate := 200, dualShot := true } rfl rfl
    (fun h => Event.noConfusion h)

/-- Witness of `fireRate_monotone`: a step from `freshWorld`, whose player has
`fireRate` 300. -/
theorem fireRate_monotone_witness :
    Reachable hypotQ freshWorld ∧ freshWorld.player = some (Player.new 400 250) ∧
    (100 : Int) ≤ (Player.new 400 250).fireRate ∧ (Player.new 400 250).fireRate ≤ 300 ∧
    ∃ w1 q1, handle hypotQ (Event.update 16 zeroRand) freshWorld = some w1 ∧
      w1.player = some q1 ∧ q1.fireRate ≤ (Player.new 400 250).fireRate ∧
      100 ≤ q1.fireRate :=
  ⟨freshWorld_reachable, rfl,
    (fireRate_monotone hypotQ freshWorld (Event.update 16 zeroRand) (Player.new 400 250)
      freshWorld_reachable rfl).2.1,
    (fireRate_monotone hypotQ freshWorld (Event.update 16 zeroRand) (Player.new 400 250)
      freshWorld_reachable rfl).2.2.1,
    (fireRate_monotone hypotQ freshWorld (Event.update 16 zeroRand) (Player.new 400 250)
      freshWorld_reachable rfl).2.2.2 (fun h => Event.noConfusion h)⟩

/-- C11, as stated, fails for a step that the game over aborts: in `doomedWorld`, which
is in mode `playing`, the power-up would be within reach of the player after its
advance, but the enemy bullet brings `health` from 5 to 0 and line 536 returns: the
power-up is still in the pool, not advanced, `fireRate` is still 300 and no explosion
has been pushed. -/
theorem aborted_step_collects_nothing :
    doomedWorld.gameState = GameState.playing ∧
    doomedWorld.player = some (Player.new 400 250) ∧
    (PowerUp.new 200 170 PowerUpType.fireRate).reaches (Player.new 400 250).getBounds = true ∧
    (updateGame hypotQ 16 zeroRand doomedWorld).map
      (fun w1 => (w1.gameState, w1.health, w1.powerUps)) =
      some (GameState.gameOver, 0, [PowerUp.new 200 170 PowerUpType.fireRate]) ∧
    (updateGame hypotQ 16 zeroRand doomedWorld).map
      (fun w1 => (w1.player.map fun q => q.fireRate, w1.explosions)) =
      some (some 300, []) := by
  refine ⟨rfl, rfl, ?_, ?_, ?_⟩
  · decide!
  · decide!
  · decide!

/-- C11, amended: in every `updateGame` step that reaches the power-up loop, with `w4` the world
the bullet-collision loop finds, `pl` its player and `w5` the world that loop leaves:
the step returns; the pool it leaves holds, in their order and advanced once, exactly
the power-ups of `w5` that after their advance are neither within reach of the player
(the two boxes grown by 5 on every side overlap) nor below the field (`y > height`);
the player is `pl` after the effect of each power-up within reach, applied once each,
so that its box is unchanged, `fireRate` has gone through `max 100 (fireRate - 50)` once
per collected power-up of type `fireRate`, and `dualShot` is on iff it was or a power-up
of type `dualShot` was collected; and the explosions are those of `w5` after the
explosion loop, followed by one explosion of life 30 per collected power-up at its
centre, which for a power-up as constructed is `(x + 20, y + 20)` with `y` the ordinate
after the advance of 2. -/
theorem pickup_collection (hypot : ℚ → ℚ → ℚ) (deltaTime : ℚ) (rand : Nat → ℚ)
    (w : World) (p0 pl : Player) (w4 w5 : World) (t4 t5 : Tally)
    (hg : w.gameState = GameState.playing) (hp : w.player = some p0)
    (h4 : toCollisionPhase hypot deltaTime rand p0 w = some (false, w4, t4))
    (hpl : w4.player = some pl)
    (h5 : resolveBullets rand pl w4.bullets.length w4 t4 = some (false, w5, t5)) :
    ∃ w1 q1 l, updateGame hypot deltaTime rand w = some w1 ∧
      w1.powerUps = (w5.powerUps.map PowerUp.update).filter
        (fun u => !checkCollision u.getBounds.expanded pl.getBounds.expanded &&
          !decide (u.y > w.canvasHeight)) ∧
      w1.player = some q1 ∧
      q1 = w5.powerUps.foldr
        (fun u q => if u.reaches pl.getBounds then applyPowerUp u.type q else q) pl ∧
      q1.getBounds = pl.getBounds ∧
      q1.fireRate = (fun r : Int => max 100 (r - 50))^[w5.powerUps.countP
        (PowerUp.collectedAs PowerUpType.fireRate pl.getBounds)] pl.fireRate ∧
      q1.dualShot = (pl.dualShot ||
        w5.powerUps.any (PowerUp.collectedAs PowerUpType.dualShot pl.getBounds)) ∧
      w1.explosions =
        (w5.explosions.map Explosion.update).filter (fun ex => !ex.isDead) ++ l ∧
      l.map (fun ex => (ex.x, ex.y)) =
        (w5.powerUps.reverse.filter (PowerUp.reaches pl.getBounds)).map PowerUp.blastSite ∧
      (∀ ex ∈ l, ex.life = 30) ∧
      (∀ (x y : ℚ) (type : PowerUpType),
        (PowerUp.new x y type).update.y = y + 2 ∧
        (PowerUp.new x y type).blastSite = (x + 20, (y + 2) + 20)) := by
  obtain ⟨haux, T⟩ := updateGameAux_completed hypot deltaTime rand w p0 w4 t4 hg hp h4
  have hpl2 := T.player
  rw [hpl] at hpl2
  cases hpl2
  generalize p0.update hypot w.keyState w.isTouching w.touchX w.touchY w.canvasWidth
    w.canvasHeight deltaTime = pl at haux T hpl h5 ⊢
  obtain ⟨ret, w5a, t5a, hrun5, R, -⟩ := resolveBullets_spec rand pl w4.bullets [] w4 t4 (by simp)
  rw [h5] at hrun5
  cases hrun5
  have hch : w5.canvasHeight = w.canvasHeight := by
    have h := congrArg (fun x => x.2.1) R.fixed
    exact h.trans T.canvasHeight
  have hq5 : w5.player = some pl := R.player.trans hpl
  have hex := updateExplosions_append w5.explosions []
  rw [List.append_nil] at hex
  obtain ⟨w1, t1, l, hrun, k1, k2, k3, k4, k5⟩ :=
    updatePowerUps_exact rand pl.getBounds w.canvasHeight w5.powerUps []
      { w5 with explosions :=
          (w5.explosions.map Explosion.update).filter (fun ex => !ex.isDead) ++ [] }
      t5 pl (by simp) hq5 rfl hch
  obtain ⟨c1, c2, c3⟩ := collected_player pl.getBounds w5.powerUps pl
  refine ⟨w1, _, l, updateGame_eq_some.2 ⟨t1, ?_⟩, ?_, k2, rfl, c1, c2, c3, ?_, k4, k5, ?_⟩
  · rw [haux, fromCollisionPhase, h5]
    simp only []
    rw [hex]
    exact hrun
  · rw [k1, List.append_nil]
    rfl
  · rw [k3, List.append_nil]
  · intro x y type
    refine ⟨rfl, ?_⟩
    simp only [PowerUp.blastSite, PowerUp.update, PowerUp.new, Prod.mk.injEq, true_and]
    constructor <;> norm_num

/-- Witness of `pickup_collection`: in `pickupWorld` the power-up far from the player
stays, advanced by 2; the one just above the player is collected, which takes
`fireRate` from 300 to 250 and appends one explosion at `(220, 192)`; the one that
leaves the field is removed without effect. -/
theorem pickup_collection_witness :
    ∃ w1 q1 l, updateGame hypotQ 16 zeroRand pickupWorld = some w1 ∧
      w1.powerUps = [(PowerUp.new 0 0 PowerUpType.dualShot).update] ∧
      w1.player = some q1 ∧
      q1.getBounds = (Player.new 400 250).getBounds ∧
      q1.fireRate = 250 ∧ q1.dualShot = false ∧
      w1.explosions = l ∧ l.map (fun ex => (ex.x, ex.y)) = [(220, 192)] := by
  obtain ⟨w1, q1, l, h1, h2, h3, -, h5, h6, h7, h8, h9, -, -⟩ :=
    pickup_collection hypotQ 16 zeroRand pickupWorld (Player.new 400 250) (Player.new 400 250)
      pickupWorldAtCollisions pickupWorldAtCollisions Tally.zero Tally.zero rfl rfl
      (by decide!) rfl (by decide!)
  refine ⟨w1, q1, l, h1, ?_, h3, h5, ?_, ?_, ?_, ?_⟩
  · rw [h2]
    decide!
  · rw [h6]
    decide!
  · rw [h7]
    decide!
  · rw [h8]
    rfl
  · rw [h9]
    decide!

/-- C21: for boxes of positive width and height, `checkCollision a b` holds exactly when
the two rectangles share an interior point, which is exactly when their intersection
has positive width and positive height; rectangles that touch along an edge or at a
corner do not collide; and `checkCollision a b = checkCollision b a` for all boxes. -/
theorem checkCollision_overlap (a b : Rect) (haw : 0 < a.width) (hah : 0 < a.height)
    (hbw : 0 < b.width) (hbh : 0 < b.height) :
    (checkCollision a b = true ↔
      ∃ px py : ℚ, a.hasInside px py = true ∧ b.hasInside px py = true) ∧
    (checkCollision a b = true ↔ 0 < a.overlapWidth b ∧ 0 < a.overlapHeight b) ∧
    (a.touches b = true → checkCollision a b = false) ∧
    (∀ r1 r2 : Rect, checkCollision r1 r2 = checkCollision r2 r1) := by
  have area : checkCollision a b = true ↔ 0 < a.overlapWidth b ∧ 0 < a.overlapHeight b := by
    simp only [checkCollision, Rect.overlapWidth, Rect.overlapHeight, Bool.and_eq_true,
      decide_eq_true_eq, sub_pos, max_lt_iff, lt_min_iff]
    constructor
    · rintro ⟨⟨⟨h1, h2⟩, h3⟩, h4⟩
      exact ⟨⟨⟨by linarith, by linarith⟩, ⟨by linarith, by linarith⟩⟩,
        ⟨⟨by linarith, by linarith⟩, ⟨by linarith, by linarith⟩⟩⟩
    · rintro ⟨⟨⟨-, h1⟩, ⟨h2, -⟩⟩, ⟨⟨-, h3⟩, ⟨h4, -⟩⟩⟩
      exact ⟨⟨⟨by linarith, by linarith⟩, by linarith⟩, by linarith⟩
  refine ⟨?_, area, ?_, ?_⟩
  · constructor
    · intro h
      obtain ⟨hx, hy⟩ := area.1 h
      simp only [Rect.overlapWidth, Rect.overlapHeight, sub_pos] at hx hy
      refine ⟨(max a.x b.x + min (a.x + a.width) (b.x + b.width)) / 2,
        (max a.y b.y + min (a.y + a.height) (b.y + b.height)) / 2, ?_, ?_⟩
      · simp only [Rect.hasInside, decide_eq_true_eq]
        have := le_max_left a.x b.x
        have := min_le_left (a.x + a.width) (b.x + b.width)
        have := le_max_left a.y b.y
        have := min_le_left (a.y + a.height) (b.y + b.height)
        refine ⟨by linarith, by linarith, by linarith, by linarith⟩
      · simp only [Rect.hasInside, decide_eq_true_eq]
        have := le_max_right a.x b.x
        have := min_le_right (a.x + a.width) (b.x + b.width)
        have := le_max_right a.y b.y
        have := min_le_right (a.y + a.height) (b.y + b.height)
        refine ⟨by linarith, by linarith, by linarith, by linarith⟩
    · rintro ⟨px, py, h1, h2⟩
      simp only [Rect.hasInside, decide_eq_true_eq] at h1 h2
      obtain ⟨a1, a2, a3, a4⟩ := h1
      obtain ⟨b1, b2, b3, b4⟩ := h2
      simp only [checkCollision, Bool.and_eq_true, decide_eq_true_eq]
      exact ⟨⟨⟨by linarith, by linarith⟩, by linarith⟩, by linarith⟩
  · intro ht
    simp only [Rect.touches, decide_eq_true_eq] at ht
    cases hc : checkCollision a b with
    | false => rfl
    | true =>
      simp only [checkCollision, Bool.and_eq_true, decide_eq_true_eq] at hc
      obtain ⟨⟨⟨h1, h2⟩, h3⟩, h4⟩ := hc
      rcases ht with h | h | h | h <;> linarith
  · intro r1 r2
    rw [Bool.eq_iff_iff]
    simp only [checkCollision, Bool.and_eq_true, decide_eq_true_eq]
    constructor
    · rintro ⟨⟨⟨h1, h2⟩, h3⟩, h4⟩
      exact ⟨⟨⟨by linarith, by linarith⟩, by linarith⟩, by linarith⟩
    · rintro ⟨⟨⟨h1, h2⟩, h3⟩, h4⟩
      exact ⟨⟨⟨by linarith, by linarith⟩, by linarith⟩, by linarith⟩

/-- Witness of `checkCollision_overlap`: a player bullet at `(200, 182)` and the enemy
at `(177.5, 151)` share the interior point `(202, 184)` and collide; the same bullet does
not collide with a box whose lower edge is at the bullet's upper edge. -/
theorem checkCollision_overlap_witness :
    checkCollision (Bullet.new 200 182 (-1)).getBounds (sampleEnemy 151 0).getBounds = true ∧
    (0 < (Bullet.new 200 182 (-1)).getBounds.overlapWidth (sampleEnemy 151 0).getBounds ∧
      0 < (Bullet.new 200 182 (-1)).getBounds.overlapHeight (sampleEnemy 151 0).getBounds) ∧
    checkCollision (Bullet.new 200 182 (-1)).getBounds (sampleEnemy 147 0).getBounds = false :=
  ⟨((checkCollision_overlap (Bullet.new 200 182 (-1)).getBounds (sampleEnemy 151 0).getBounds
      (by decide!) (by decide!) (by decide!) (by decide!)).1).2
      ⟨202, 184, by decide!, by decide!⟩,
    ((checkCollision_overlap (Bullet.new 200 182 (-1)).getBounds (sampleEnemy 151 0).getBounds
      (by decide!) (by decide!) (by decide!) (by decide!)).2.1).1 (by decide!),
    (checkCollision_overlap (Bullet.new 200 182 (-1)).getBounds (sampleEnemy 147 0).getBounds
      (by decide!) (by decide!) (by decide!) (by decide!)).2.2.1 (by decide!)⟩

/-- C22: in every world reachable in a session, `health` is a multiple of 5 within
`[-5, 100]`, at least 5 in mode `playing`; every `updateGame` call returns a world of
which the same holds; a call in mode `playing` ends in mode `playing` or `gameOver`,
and in `gameOver` exactly when it leaves `health ≤ 0`, which `health` was not before;
and a call in another mode changes nothing. -/
theorem health_and_mode (hypot : ℚ → ℚ → ℚ) (w : World) (deltaTime : ℚ) (rand : Nat → ℚ)
    (hr : Reachable hypot w) :
    ((5 : Int) ∣ w.health ∧ -5 ≤ w.health ∧ w.health ≤ 100 ∧
      (w.gameState = GameState.playing → 5 ≤ w.health)) ∧
    ∃ w1, updateGame hypot deltaTime rand w = some w1 ∧
      (5 : Int) ∣ w1.health ∧ -5 ≤ w1.health ∧ w1.health ≤ 100 ∧
      (w1.gameState = GameState.playing → 5 ≤ w1.health) ∧
      (w.gameState = GameState.playing →
        (w1.gameState = GameState.playing ∨ w1.gameState = GameState.gameOver) ∧
        (w1.gameState = GameState.gameOver ↔ w1.health ≤ 0)) ∧
      (w.gameState ≠ GameState.playing → w1 = w) := by
  have I := hr.invariant
  have five : ∀ v : World, Inv v → v.gameState = GameState.playing → 5 ≤ v.health := by
    intro v J hg
    have h1 := J.playing_pos hg
    obtain ⟨c, hc⟩ := J.health_dvd
    omega
  obtain ⟨w1, t1, hrun⟩ := updateGameAux_total hypot deltaTime rand w
    (fun g => I.player (by simp [g]))
  have hu : updateGame hypot deltaTime rand w = some w1 := updateGame_eq_some.2 ⟨t1, hrun⟩
  have I1 := I.of_update hu
  refine ⟨⟨I.health_dvd, I.health_ge, I.health_le, five w I⟩, w1, hu, I1.health_dvd,
    I1.health_ge, I1.health_le, five w1 I1, ?_, ?_⟩
  · intro hg
    obtain ⟨q, hq⟩ := I.player (by simp [hg])
    obtain ⟨w2, t2, hrun2, S⟩ := updateGameAux_playing hypot deltaTime rand w q hg hq
    rw [hrun] at hrun2
    cases hrun2
    have hmode : w1.gameState = GameState.playing ∨ w1.gameState = GameState.gameOver := by
      rcases S.mode with h | h
      · exact Or.inl h.1
      · exact Or.inr h.1
    refine ⟨hmode, I1.gameOver_le, fun hle => ?_⟩
    rcases hmode with h | h
    · have := I1.playing_pos h
      omega
    · exact h
  · intro hg
    have : updateGame hypot deltaTime rand w = some w := by
      simp [updateGame, updateGameAux, hg]
    rw [this] at hu
    exact (Option.some.inj hu).symm

/-- Witness of `health_and_mode`: the first step of a fresh session. -/
theorem health_and_mode_witness :
    Reachable hypotQ freshWorld ∧ freshWorld.gameState = GameState.playing ∧
    (5 : Int) ≤ freshWorld.health ∧
    ∃ w1, updateGame hypotQ 16 idleRand freshWorld = some w1 ∧ (5 : Int) ∣ w1.health ∧
      (w1.gameState = GameState.gameOver ↔ w1.health ≤ 0) := by
  obtain ⟨⟨-, -, -, h4⟩, w1, h5, h6, -, -, -, h7, -⟩ :=
    health_and_mode hypotQ freshWorld 16 idleRand freshWorld_reachable
  exact ⟨freshWorld_reachable, rfl, h4 rfl, w1, h5, h6, (h7 rfl).2⟩

/-- C23: every loop of `updateGame`, entered at the last index of its array as the
source does, reads its array within bounds at every iteration and ends, whatever the
world: the bullet loop, the enemy loop (in which enemies push bullets), the inner and
the outer loop of the collision phase (which splice `enemies` and `bullets`), the
explosion loop and the power-up loop each return a result, and so does the whole of
`updateGame` in a world that has a player.  A read out of bounds is not lost in the
model: entered one index higher, each loop fails. -/
theorem indexed_reads_in_bounds (hypot : ℚ → ℚ → ℚ) (deltaTime : ℚ) (rand : Nat → ℚ)
    (w : World) (t : Tally) (q : Player) (hq : w.player = some q) :
    ((∃ l, updateBullets w.canvasHeight w.bullets.length w.bullets = some l) ∧
      (∃ r, updateEnemies rand q w.enemies.length w t = some r) ∧
      (∀ (i : Nat) (bullet : Bullet),
        ∃ r, hitEnemies rand i bullet w.enemies.length w t = some r) ∧
      (∃ r, resolveBullets rand q w.bullets.length w t = some r) ∧
      (∃ l, updateExplosions w.explosions.length w.explosions = some l) ∧
      (∃ r, updatePowerUps rand w.powerUps.length w t = some r) ∧
      (∃ w1, updateGame hypot deltaTime rand w = some w1)) ∧
    (updateBullets w.canvasHeight (w.bullets.length + 1) w.bullets = none ∧
      updateEnemies rand q (w.enemies.length + 1) w t = none ∧
      (∀ (i : Nat) (bullet : Bullet),
        hitEnemies rand i bullet (w.enemies.length + 1) w t = none) ∧
      resolveBullets rand q (w.bullets.length + 1) w t = none ∧
      updateExplosions (w.explosions.length + 1) w.explosions = none ∧
      updatePowerUps rand (w.powerUps.length + 1) w t = none) := by
  refine ⟨⟨?_, ?_, ?_, ?_, ?_, ?_, ?_⟩, ?_, ?_, ?_, ?_, ?_, ?_⟩
  · have h := updateBullets_append w.canvasHeight w.bullets []
    rw [List.append_nil] at h
    exact ⟨_, h⟩
  · obtain ⟨ret, w1, t1, h, -⟩ := updateEnemies_spec rand q w.enemies [] w t (by simp)
    exact ⟨_, h⟩
  · intro i bullet
    rcases hitEnemies_spec rand i bullet w.enemies [] w t (by simp) with h | h
    · exact ⟨_, h.2⟩
    · obtain ⟨E1, e, E2, -, -, -, h⟩ := h
      exact ⟨_, h⟩
  · obtain ⟨ret, w1, t1, h, -⟩ := resolveBullets_spec rand q w.bullets [] w t (by simp)
    exact ⟨_, h⟩
  · have h := updateExplosions_append w.explosions []
    rw [List.append_nil] at h
    exact ⟨_, h⟩
  · obtain ⟨w1, t1, h, -⟩ := updatePowerUps_spec rand w.powerUps [] w t (by simp) ⟨q, hq⟩
    exact ⟨_, h⟩
  · obtain ⟨w1, t1, h⟩ := updateGameAux_total hypot deltaTime rand w (fun _ => ⟨q, hq⟩)
    exact ⟨w1, updateGame_eq_some.2 ⟨t1, h⟩⟩
  · simp [updateBullets]
  · simp [updateEnemies]
  · intro i bullet
    simp [hitEnemies]
  · simp [resolveBullets]
  · simp [updateExplosions]
  · simp [updatePowerUps]

/-- Witness of `indexed_reads_in_bounds`: the step from `crossfireWorld`, in which the
collision phase splices an enemy and both bullets, returns. -/
theorem indexed_reads_in_bounds_witness :
    crossfireWorld.player = some (Player.new 400 250) ∧
    (∃ r, resolveBullets zeroRand (Player.new 400 250) crossfireWorld.bullets.length
      crossfireWorld Tally.zero = some r) ∧
    (∃ w1, updateGame hypotQ 16 zeroRand crossfireWorld = some w1) ∧
    resolveBullets zeroRand (Player.new 400 250) (crossfireWorld.bullets.length + 1)
      crossfireWorld Tally.zero = none :=
  ⟨rfl,
    (indexed_reads_in_bounds hypotQ 16 zeroRand crossfireWorld Tally.zero (Player.new 400 250)
      rfl).1.2.2.2.1,
    (indexed_reads_in_bounds hypotQ 16 zeroRand crossfireWorld Tally.zero (Player.new 400 250)
      rfl).1.2.2.2.2.2.2,
    (indexed_reads_in_bounds hypotQ 16 zeroRand crossfireWorld Tally.zero (Player.new 400 250)
      rfl).2.2.2.2.1⟩

end Shooter
